import Mathlib

/-!
# Learning-Partner: generation/extraction pipeline and quiz scoring

A shallow embedding of `backend/services/llamaService.js` and of the submit
route of `backend/routes/quizzes.js`, followed by theorems about them.

JavaScript strings are modelled as lists of characters (one list element per
UTF-16 code unit), JavaScript Numbers as exact rationals rounded the way
binary64 arithmetic rounds them, exceptions as `Except`.
-/

set_option autoImplicit false
set_option exponentiation.threshold 4096
set_option maxRecDepth 100000

namespace LearningPartner

/-! ## JavaScript Numbers -/

/-- A JavaScript string: its sequence of code units. -/
abbrev Str := List Char

/-- A non-negative rational `num / den` (`den` is positive wherever it is used). -/
structure Frac where
  num : Nat
  den : Nat
deriving DecidableEq

/-- Fuelled helper of `floorLog2`. -/
def log2Aux : Nat → Nat → Nat
  | 0, _ => 0
  | fuel + 1, n => if n < 2 then 0 else log2Aux fuel (n / 2) + 1

/-- Position of the highest set bit of `n` (0 for `n ≤ 1`). -/
def floorLog2 (n : Nat) : Nat := log2Aux n n

/-- Binary exponent of `n / d`: the `e` with `2^e ≤ n/d < 2^(e+1)` (for `n, d > 0`). -/
def binExp (n d : Nat) : Int :=
  let a : Int := floorLog2 n
  let b : Int := floorLog2 d
  if d * 2 ^ (a - b).toNat ≤ n * 2 ^ (b - a).toNat then a - b else a - b - 1

/-- Exponent of the unit in the last place of the binary64 number nearest to
`n / d`: 52 below the binary exponent, which is clamped at the subnormal
threshold `-1022`. -/
def ulpExp (n d : Nat) : Int :=
  max (binExp n d) (-1022) - 52

/-- Nearest integer to `n / d`, ties going to the even neighbour. -/
def roundHalfEven (n d : Nat) : Nat :=
  let q := n / d
  let r := n % d
  if 2 * r < d then q else if d < 2 * r then q + 1 else if q % 2 = 0 then q else q + 1

/-- The binary64 value nearest to `x` (IEEE-754 round-to-nearest, ties to even),
before the overflow check: the multiple of the ulp nearest to `x`. -/
def roundToDouble (x : Frac) : Frac :=
  if x.num = 0 then ⟨0, 1⟩ else
  let e := ulpExp x.num x.den
  let m := roundHalfEven (x.num * 2 ^ (-e).toNat) (x.den * 2 ^ e.toNat)
  ⟨m * 2 ^ e.toNat, 2 ^ (-e).toNat⟩

/-- A JavaScript Number: a finite value `(-1)^neg * mag`, an infinity, or NaN. -/
inductive JsNum where
  | fin (neg : Bool) (mag : Frac)
  | inf (neg : Bool)
  | nan
deriving DecidableEq

namespace JsNum

/-- The Number denoted by the real value `(-1)^neg * x`: rounded to binary64,
overflowing to an infinity from `2^1024` on. -/
def ofFrac (neg : Bool) (x : Frac) : JsNum :=
  let y := roundToDouble x
  if 2 ^ 1024 * y.den ≤ y.num then .inf neg else .fin neg y

/-- The Number of a non-negative integer (an array length, a counter). -/
def ofNat (n : Nat) : JsNum := .fin false ⟨n, 1⟩

/-- `c / t` for two non-negative integers held as Numbers. -/
def divNat (c t : Nat) : JsNum :=
  if t = 0 then (if c = 0 then .nan else .inf false) else ofFrac false ⟨c, t⟩

/-- `x * k` for a Number `x` and a non-negative integer constant `k`. -/
def mulNat : JsNum → Nat → JsNum
  | .nan, _ => .nan
  | .inf s, k => if k = 0 then .nan else .inf s
  | .fin s x, k => ofFrac s ⟨x.num * k, x.den⟩

/-- `x === y` on two Numbers: numeric equality, `+0` equal to `-0`, NaN equal to nothing. -/
def strictEq : JsNum → JsNum → Bool
  | .fin a x, .fin b y =>
    (x.num == 0 && y.num == 0) || (a == b && x.num * y.den == y.num * x.den)
  | .inf a, .inf b => a == b
  | _, _ => false

/-- `x < k` for a Number `x` and a non-negative integer constant `k`. -/
def ltNat : JsNum → Nat → Bool
  | .fin false x, k => decide (x.num < k * x.den)
  | .fin true x, k => decide (0 < x.num ∨ 0 < k)
  | .inf s, _ => s
  | .nan, _ => false

/-- `x > k` for a Number `x` and a non-negative integer constant `k`. -/
def gtNat : JsNum → Nat → Bool
  | .fin false x, k => decide (k * x.den < x.num)
  | .fin true _, _ => false
  | .inf s, _ => !s
  | .nan, _ => false

/-- Truthiness of a Number: everything but `0`, `-0` and NaN. -/
def truthy : JsNum → Bool
  | .fin _ x => x.num != 0
  | .inf _ => true
  | .nan => false

/-- Whether the Number is an integer value. -/
def isInteger : JsNum → Bool
  | .fin _ x => x.num % x.den == 0
  | _ => false

/-- `isNaN` of a Number. -/
def isNaN : JsNum → Bool
  | .nan => true
  | _ => false

end JsNum

/-- `Math.round`: the nearest integer, a tie going towards `+∞`; NaN and the
infinities are returned as they are. -/
def Math.round : JsNum → JsNum
  | .nan => .nan
  | .inf s => .inf s
  | .fin false x => .fin false ⟨(2 * x.num + x.den) / (2 * x.den), 1⟩
  | .fin true x => .fin true ⟨(2 * x.num + x.den - 1) / (2 * x.den), 1⟩

/-! ## JSON values -/

/-- A value produced by `JSON.parse` (or received in a JSON request body). -/
inductive JVal where
  | null
  | bool (b : Bool)
  | num (n : JsNum)
  | str (s : Str)
  | arr (items : List JVal)
  | obj (fields : List (Str × JVal))

namespace JVal

/-- Truthiness of a value; `none` stands for `undefined`. -/
def truthy : Option JVal → Bool
  | none => false
  | some .null => false
  | some (.bool b) => b
  | some (.num n) => n.truthy
  | some (.str s) => !s.isEmpty
  | some (.arr _) => true
  | some (.obj _) => true

/-- The value stored under `key` in a field list; a repeated key keeps its last value. -/
def lookup (key : Str) : List (Str × JVal) → Option JVal
  | [] => none
  | (k, v) :: rest =>
    match lookup key rest with
    | some w => some w
    | none => if k = key then some v else none

/-- Property read `v.key` for one of the keys this program reads (`question`,
`answer`, `options`, `correctAnswer`, `explanation`, `models`, `name`): a
TypeError on `null`, the stored value on an object, `undefined` on every other
value. -/
def getProp (v : JVal) (key : Str) : Except String (Option JVal) :=
  match v with
  | .null => .error "TypeError: Cannot read properties of null"
  | .obj fields => .ok (lookup key fields)
  | _ => .ok none

/-- `a || b` where `b` is a string constant. -/
def orElse (a : Option JVal) (b : Str) : JVal :=
  match a with
  | some v => if truthy (some v) then v else .str b
  | none => .str b

/-- `a === n` for a value (or `undefined`) `a` and a Number `n`. -/
def strictEqNum : Option JVal → JsNum → Bool
  | some (.num m), n => m.strictEq n
  | _, _ => false

end JVal

/-! ## Quiz documents and the submit route (`routes/quizzes.js`, `models/Quiz.js`) -/

/-- One entry of `questions` in the quiz schema. -/
structure QuizQuestion where
  question : Str
  options : List Str
  correctAnswer : JsNum
  explanation : Str

/-- A stored quiz document (`quizSchema`). `completedAt` and `createdAt` are
dates, held as millisecond timestamps; `null` is `none`. -/
structure Quiz where
  _id : Nat
  userId : Nat
  documentId : Nat
  questions : List QuizQuestion
  userAnswers : List JVal
  score : Option JsNum
  totalQuestions : Nat
  completedAt : Option Nat
  createdAt : Nat

/-- The JSON body of a successful submit. -/
structure SubmitBody where
  message : String
  score : JsNum
  correctCount : Nat
  totalQuestions : Nat
  quiz : Quiz

/-- What the submit route answers: the success body, or a status with a message. -/
inductive SubmitResponse where
  | ok (body : SubmitBody)
  | error (status : Nat) (message : String)

/-- `Quiz.findOne` with the filter `_id`, `userId`. -/
def findOne (db : List Quiz) (id userId : Nat) : Option Quiz :=
  db.find? fun q => q._id == id && q.userId == userId

/-- `quiz.save()` on an existing document: the document with that `_id` is replaced. -/
def save (db : List Quiz) (quiz : Quiz) : List Quiz :=
  db.map fun x => if x._id = quiz._id then quiz else x

/-- The `forEach` loop of the submit route: walks `quiz.questions` with the
running `index` and increments `correctCount` where
`answers[index] === question.correctAnswer`. -/
def countCorrect : List QuizQuestion → Nat → List JVal → Nat → Nat
  | [], _, _, correctCount => correctCount
  | question :: rest, index, answers, correctCount =>
    countCorrect rest (index + 1) answers
      (if JVal.strictEqNum answers[index]? question.correctAnswer
        then correctCount + 1 else correctCount)

/-- `Math.round((correctCount / quiz.totalQuestions) * 100)`. -/
def computeScore (correctCount totalQuestions : Nat) : JsNum :=
  Math.round (JsNum.mulNat (JsNum.divNat correctCount totalQuestions) 100)

/-- The casting of one value on a `Number` path of the quiz schema (an entry
of `userAnswers: [Number]`, `score`): `null` and a number are kept, NaN is
refused, a boolean becomes 1 or 0. What the schema library makes of a string,
an array or an object is taken as given by `castOther`. `none` is a cast error. -/
def castNumber (castOther : JVal → Option JVal) : JVal → Option JVal
  | .null => some .null
  | .bool b => some (.num (.fin false ⟨if b then 1 else 0, 1⟩))
  | .num n => if n.isNaN then none else some (.num n)
  | .str s => castOther (.str s)
  | .arr items => castOther (.arr items)
  | .obj fields => castOther (.obj fields)

/-- The casting of an array assigned to `userAnswers`, entry by entry; `none`
when an entry cannot be cast. -/
def castNumbers (castOther : JVal → Option JVal) : List JVal → Option (List JVal)
  | [] => some []
  | a :: rest =>
    match castNumber castOther a with
    | none => none
    | some c =>
      match castNumbers castOther rest with
      | none => none
      | some cs => some (c :: cs)

/-- The handler of `POST /api/quizzes/:id/submit`, for the authenticated user
`userId`. `answers` is `req.body.answers` (`none` when absent) and `now` the
value of `new Date()`. The assignment `quiz.userAnswers = answers` casts the
array to the schema type `[Number]`; `quiz.save()` rejects when an entry
cannot be cast, when the score is NaN (not a value of the `Number` path), or
when the database refuses the write (`saveThrows`). In each of these cases the
handler answers 500 and the stored documents are as before. Returns the
response and the collection after the request. -/
def submitQuiz (castOther : JVal → Option JVal) (db : List Quiz) (userId id : Nat)
    (answers : Option JVal) (now : Nat) (saveThrows : Bool) : SubmitResponse × List Quiz :=
  match answers with
  | some (.arr answers) =>
    match findOne db id userId with
    | none => (.error 404 "Quiz not found", db)
    | some quiz =>
      if quiz.completedAt.isSome then
        (.error 400 "Quiz already completed", db)
      else
        let correctCount := countCorrect quiz.questions 0 answers 0
        let score := computeScore correctCount quiz.totalQuestions
        match castNumbers castOther answers with
        | none => (.error 500 "Server error", db)
        | some userAnswers =>
          let quiz :=
            { quiz with userAnswers := userAnswers, score := some score, completedAt := some now }
          if saveThrows || score.isNaN then
            (.error 500 "Server error", db)
          else
            (.ok { message := "Quiz submitted successfully", score := score,
                   correctCount := correctCount, totalQuestions := quiz.totalQuestions,
                   quiz := quiz },
             save db quiz)
  | _ => (.error 400 "Invalid answers format", db)

/-! ## Truncation and bracket extraction (`services/llamaService.js`) -/

/-- The module constant `MAX_CONTEXT_LENGTH`. -/
def MAX_CONTEXT_LENGTH : Nat := 10000

/-- `truncateText(text, maxLength = MAX_CONTEXT_LENGTH)`. A missing `text`
(`undefined`, `null`) is `none`; a missing `maxLength` is `none` and takes the
default. -/
def truncateText (text : Option Str) (maxLength : Option Nat) : Str :=
  let maxLength := maxLength.getD MAX_CONTEXT_LENGTH
  match text with
  | none => []
  | some text =>
    if text.isEmpty then []
    else if text.length ≤ maxLength then text
    else text.take maxLength ++ "...".toList

/-- The tail `[\s\S]*\]` of the pattern, matched greedily against `s`: the
longest prefix of `s` that ends in `]`, if there is one. The star first takes
everything and gives characters back until a `]` follows. -/
def matchRest : Str → Option Str
  | [] => none
  | c :: cs =>
    match matchRest cs with
    | some m => some (c :: m)
    | none => if c = ']' then some [c] else none

/-- `response.match(/\[[\s\S]*\]/)`: the matched text `jsonMatch[0]`, or `none`
when the pattern does not match. Start positions are tried from the left; at a
`[` the rest of the pattern is matched greedily. -/
def jsonMatch : Str → Option Str
  | [] => none
  | c :: cs =>
    if c = '[' then
      match matchRest cs with
      | some m => some (c :: m)
      | none => jsonMatch cs
    else jsonMatch cs

/-! ## `JSON.parse` -/

/-- JSON whitespace: space, tab, line feed, carriage return. -/
def isWs (c : Char) : Bool := c = ' ' || c = '\t' || c = '\n' || c = '\r'

/-- Drops leading JSON whitespace. -/
def skipWs : Str → Str
  | [] => []
  | c :: cs => if isWs c then skipWs cs else c :: cs

/-- Value of a decimal digit. -/
def digitVal (c : Char) : Option Nat :=
  if 48 ≤ c.toNat ∧ c.toNat ≤ 57 then some (c.toNat - 48) else none

/-- Value of a hexadecimal digit. -/
def hexVal (c : Char) : Option Nat :=
  if 48 ≤ c.toNat ∧ c.toNat ≤ 57 then some (c.toNat - 48)
  else if 97 ≤ c.toNat ∧ c.toNat ≤ 102 then some (c.toNat - 87)
  else if 65 ≤ c.toNat ∧ c.toNat ≤ 70 then some (c.toNat - 55)
  else none

/-- Reads a run of decimal digits, continuing the value `v`; returns the value,
the number of digits read and the rest. -/
def readDigits : Str → Nat → Nat → Nat × Nat × Str
  | [], v, n => (v, n, [])
  | c :: cs, v, n =>
    match digitVal c with
    | some d => readDigits cs (v * 10 + d) (n + 1)
    | none => (v, n, c :: cs)

/-- The integer part of a JSON number: `0`, or a non-zero digit and more digits. -/
def parseInt (s : Str) : Option (Nat × Str) :=
  match s with
  | [] => none
  | c :: cs =>
    if c = '0' then some (0, cs)
    else
      match digitVal c with
      | none => none
      | some _ => let r := readDigits (c :: cs) 0 0; some (r.1, r.2.2)

/-- The optional fraction `.digits`: continues the mantissa and counts the digits added. -/
def parseFraction (mant : Nat) (s : Str) : Option (Nat × Nat × Str) :=
  match s with
  | '.' :: cs =>
    let r := readDigits cs mant 0
    if r.2.1 = 0 then none else some r
  | _ => some (mant, 0, s)

/-- The optional exponent `e`/`E`, sign, digits. -/
def parseExponent (s : Str) : Option (Int × Str) :=
  match s with
  | c :: cs =>
    if c = 'e' ∨ c = 'E' then
      match cs with
      | '-' :: ds =>
        let r := readDigits ds 0 0
        if r.2.1 = 0 then none else some (-(r.1 : Int), r.2.2)
      | '+' :: ds =>
        let r := readDigits ds 0 0
        if r.2.1 = 0 then none else some ((r.1 : Int), r.2.2)
      | ds =>
        let r := readDigits ds 0 0
        if r.2.1 = 0 then none else some ((r.1 : Int), r.2.2)
    else some (0, s)
  | [] => some (0, s)

/-- A JSON number, converted to the nearest binary64 value. -/
def parseNumber (s : Str) : Option (JsNum × Str) :=
  let neg := s.head? = some '-'
  let s := if neg then s.drop 1 else s
  match parseInt s with
  | none => none
  | some (i, s) =>
    match parseFraction i s with
    | none => none
    | some (mant, fracLen, s) =>
      match parseExponent s with
      | none => none
      | some (e, s) =>
        let k : Int := e - fracLen
        some (JsNum.ofFrac neg ⟨mant * 10 ^ k.toNat, 10 ^ (-k).toNat⟩, s)

/-- The body of a JSON string after its opening quote: the decoded text and
the rest after the closing quote. The fuel bounds the number of characters.
(An escape `\uXXXX` of a lone surrogate has no `Char`; it decodes to `Char.ofNat`
of its value.) -/
def parseString : Nat → Str → Option (Str × Str)
  | 0, _ => none
  | fuel + 1, s =>
    match s with
    | [] => none
    | '"' :: rest => some ([], rest)
    | '\\' :: rest =>
      match rest with
      | [] => none
      | 'u' :: a :: b :: c :: d :: rest =>
        match hexVal a, hexVal b, hexVal c, hexVal d with
        | some a, some b, some c, some d =>
          (parseString fuel rest).map fun r =>
            (Char.ofNat (((a * 16 + b) * 16 + c) * 16 + d) :: r.1, r.2)
        | _, _, _, _ => none
      | e :: rest =>
        let decoded : Option Char :=
          if e = '"' then some '"' else if e = '\\' then some '\\'
          else if e = '/' then some '/' else if e = 'b' then some (Char.ofNat 8)
          else if e = 'f' then some (Char.ofNat 12) else if e = 'n' then some '\n'
          else if e = 'r' then some '\r' else if e = 't' then some '\t' else none
        match decoded with
        | none => none
        | some ch => (parseString fuel rest).map fun r => (ch :: r.1, r.2)
    | ch :: rest =>
      if ch.toNat < 32 then none
      else (parseString fuel rest).map fun r => (ch :: r.1, r.2)

mutual

/-- A JSON value at the head of the text (whitespace already skipped), with
the rest of the text. The fuel bounds the nesting and the number of members. -/
def parseValue : Nat → Str → Option (JVal × Str)
  | 0, _ => none
  | fuel + 1, s =>
    match s with
    | 'n' :: 'u' :: 'l' :: 'l' :: rest => some (.null, rest)
    | 't' :: 'r' :: 'u' :: 'e' :: rest => some (.bool true, rest)
    | 'f' :: 'a' :: 'l' :: 's' :: 'e' :: rest => some (.bool false, rest)
    | '"' :: rest => (parseString rest.length rest).map fun r => (.str r.1, r.2)
    | '[' :: rest =>
      match skipWs rest with
      | ']' :: r => some (.arr [], r)
      | r =>
        match parseValue fuel r with
        | none => none
        | some (v, r) => parseElements fuel r [v]
    | '{' :: rest =>
      match skipWs rest with
      | '}' :: r => some (.obj [], r)
      | r => parseMembers fuel r []
    | _ => (parseNumber s).map fun r => (.num r.1, r.2)

/-- The rest of a JSON array after an element: `]`, or `,` and another element. -/
def parseElements : Nat → Str → List JVal → Option (JVal × Str)
  | 0, _, _ => none
  | fuel + 1, s, acc =>
    match skipWs s with
    | ']' :: r => some (.arr acc, r)
    | ',' :: r =>
      match parseValue fuel (skipWs r) with
      | none => none
      | some (v, r) => parseElements fuel r (acc ++ [v])
    | _ => none

/-- The members of a JSON object from a key on: `"key" : value`, then `}` or
`,` and another member. -/
def parseMembers : Nat → Str → List (Str × JVal) → Option (JVal × Str)
  | 0, _, _ => none
  | fuel + 1, s, acc =>
    match s with
    | '"' :: r =>
      match parseString r.length r with
      | none => none
      | some (key, r) =>
        match skipWs r with
        | ':' :: r =>
          match parseValue fuel (skipWs r) with
          | none => none
          | some (v, r) =>
            match skipWs r with
            | ',' :: r => parseMembers fuel (skipWs r) (acc ++ [(key, v)])
            | '}' :: r => some (.obj (acc ++ [(key, v)]), r)
            | _ => none
        | _ => none
    | _ => none

end

/-- `JSON.parse(text)`: the value when the whole text is one JSON value
surrounded by optional whitespace, `none` when `JSON.parse` throws a
SyntaxError. Every recursive step consumes a character, so the fuel
`text.length + 1` is never exhausted on a well-formed text. -/
def JSON.parse (text : Str) : Option JVal :=
  match parseValue (text.length + 1) (skipWs text) with
  | none => none
  | some (v, rest) => if (skipWs rest).isEmpty then some v else none

/-! ## The generation service (`services/llamaService.js`) -/

/-- The module constants read from the environment at start-up. -/
structure Config where
  OLLAMA_URL : String
  MODEL_NAME : String

/-- The `options` argument of `generateResponse`; an absent field is `none`. -/
structure GenOptions where
  temperature : Option Frac
  top_p : Option Frac
  max_tokens : Option Nat

/-- The request `generateResponse` posts to the endpoint. -/
structure GenerateRequest where
  url : String
  model : String
  prompt : Str
  stream : Bool
  temperature : Frac
  top_p : Frac
  num_predict : Nat
  timeout : Nat

/-- What the catch block of `generateResponse` reads from a failed request:
`error.code`, `error.response?.status` and `error.message`. -/
structure AxiosError where
  code : Option String
  status : Option Nat
  message : String

/-- The inference endpoint as seen through `axios.post`: the `response` field
of the reply, or the error the call rejects with. -/
abbrev Endpoint := GenerateRequest → Except AxiosError Str

/-- `a || b` on an optional Number option and a constant. -/
def fracOr (a : Option Frac) (b : Frac) : Frac :=
  match a with
  | some x => if x.num = 0 then b else x
  | none => b

/-- `a || b` on an optional integer option and a constant. -/
def natOr (a : Option Nat) (b : Nat) : Nat :=
  match a with
  | some x => if x = 0 then b else x
  | none => b

/-- `generateResponse(prompt, options = {})`. -/
def generateResponse (cfg : Config) (post : Endpoint) (prompt : Str) (options : GenOptions) :
    Except String Str :=
  match post { url := cfg.OLLAMA_URL ++ "/api/generate", model := cfg.MODEL_NAME,
               prompt := prompt, stream := false,
               temperature := fracOr options.temperature ⟨7, 10⟩,
               top_p := fracOr options.top_p ⟨9, 10⟩,
               num_predict := natOr options.max_tokens 2000,
               timeout := 120000 } with
  | .ok response => .ok response
  | .error error =>
    if error.code = some "ECONNREFUSED" then
      .error "Ollama is not running. Start it with: ollama serve"
    else if error.status = some 404 then
      .error ("Model \"" ++ cfg.MODEL_NAME ++ "\" not found. Pull it with: ollama pull "
        ++ cfg.MODEL_NAME)
    else
      .error ("AI service unavailable: " ++ error.message)

/-- The prompt of `chat`. -/
def chatPrompt (truncatedText userQuestion : Str) : Str :=
  ("You are a helpful learning assistant. Based on the following document, answer the user's "
    ++ "question accurately and concisely.\n\nDocument:\n").toList
  ++ truncatedText ++ "\n\nQuestion: ".toList ++ userQuestion ++ "\n\nAnswer:".toList

/-- `chat(documentText, userQuestion)`; the catch block rethrows the error it caught. -/
def chat (cfg : Config) (post : Endpoint) (documentText : Option Str) (userQuestion : Str) :
    Except String Str :=
  let truncatedText := truncateText documentText none
  generateResponse cfg post (chatPrompt truncatedText userQuestion)
    { temperature := some ⟨7, 10⟩, top_p := none, max_tokens := none }

/-- The prompt of `generateSummary`. -/
def summaryPrompt (truncatedText : Str) : Str :=
  ("Provide a clear and concise summary of the following document in 200-300 words. "
    ++ "Focus on the main ideas and key points.\n\nDocument:\n").toList
  ++ truncatedText ++ "\n\nSummary:".toList

/-- `generateSummary(documentText)`. -/
def generateSummary (cfg : Config) (post : Endpoint) (documentText : Option Str) :
    Except String Str :=
  let truncatedText := truncateText documentText (some 15000)
  generateResponse cfg post (summaryPrompt truncatedText)
    { temperature := some ⟨5, 10⟩, top_p := none, max_tokens := some 500 }

/-- The prompt of `explainConcept`. -/
def explainPrompt (truncatedText concept : Str) : Str :=
  ("Based on the following document, provide a detailed and easy-to-understand explanation "
    ++ "of the concept: \"").toList
  ++ concept ++ "\"\n\nDocument:\n".toList ++ truncatedText
  ++ "\n\nExplain the concept of \"".toList ++ concept ++ "\" in detail:".toList

/-- `explainConcept(documentText, concept)`. -/
def explainConcept (cfg : Config) (post : Endpoint) (documentText : Option Str) (concept : Str) :
    Except String Str :=
  let truncatedText := truncateText documentText none
  generateResponse cfg post (explainPrompt truncatedText concept)
    { temperature := some ⟨6, 10⟩, top_p := none, max_tokens := none }

/-- A flashcard as `generateFlashcards` returns it. -/
structure FlashcardRecord where
  question : JVal
  answer : JVal

/-- The prompt of `generateFlashcards`. -/
def flashcardPrompt (count : Nat) (truncatedText : Str) : Str :=
  "Generate exactly ".toList ++ (toString count).toList
  ++ (" educational flashcards from the following document. Each flashcard should have a "
    ++ "question and a detailed answer.\n\n"
    ++ "Return ONLY a valid JSON array with no additional text, explanations, or markdown "
    ++ "formatting. Format:\n[\n"
    ++ "  \x7b\"question\": \"Question text here\", \"answer\": \"Answer text here\"\x7d,\n"
    ++ "  \x7b\"question\": \"Question text here\", \"answer\": \"Answer text here\"\x7d\n"
    ++ "]\n\nDocument:\n").toList
  ++ truncatedText ++ "\n\nJSON array of flashcards:".toList

/-- The callback of the flashcard `map`: the record with
`question: card.question || ''` and `answer: card.answer || ''`. -/
def toFlashcard (card : JVal) : Except String FlashcardRecord :=
  match card.getProp "question".toList with
  | .error e => .error e
  | .ok question =>
    match card.getProp "answer".toList with
    | .error e => .error e
    | .ok answer =>
      .ok { question := JVal.orElse question [], answer := JVal.orElse answer [] }

/-- The flashcard `map`: elements are converted from the left and the first
error aborts the whole map. -/
def mapFlashcards : List JVal → Except String (List FlashcardRecord)
  | [] => .ok []
  | card :: rest =>
    match toFlashcard card with
    | .error e => .error e
    | .ok r =>
      match mapFlashcards rest with
      | .error e => .error e
      | .ok rs => .ok (r :: rs)

/-- The statements of `generateFlashcards` from `JSON.parse(jsonMatch[0])` on,
applied to the matched text, with the errors they throw. -/
def flashcardsFromJson (matched : Str) (count : Nat) : Except String (List FlashcardRecord) :=
  match JSON.parse matched with
  | none => .error "SyntaxError: invalid JSON"
  | some (.arr flashcards) => mapFlashcards (flashcards.take count)
  | some _ => .error "Invalid flashcard format"

/-- The extraction steps of `generateFlashcards` on the raw model text: the
statements of the try block after the inference call, with the errors they throw. -/
def extractFlashcards (response : Str) (count : Nat) : Except String (List FlashcardRecord) :=
  match jsonMatch response with
  | none => .error "Invalid response format from AI"
  | some matched => flashcardsFromJson matched count

/-- The try block of `generateFlashcards`. -/
def generateFlashcardsTry (cfg : Config) (post : Endpoint) (documentText : Option Str)
    (count : Nat) : Except String (List FlashcardRecord) :=
  let truncatedText := truncateText documentText (some 8000)
  match generateResponse cfg post (flashcardPrompt count truncatedText)
      { temperature := some ⟨7, 10⟩, top_p := none, max_tokens := some 3000 } with
  | .error e => .error e
  | .ok response => extractFlashcards response count

/-- `generateFlashcards(documentText, count)`: whatever the try block throws is
replaced by one fixed error. -/
def generateFlashcards (cfg : Config) (post : Endpoint) (documentText : Option Str)
    (count : Nat) : Except String (List FlashcardRecord) :=
  match generateFlashcardsTry cfg post documentText count with
  | .ok cards => .ok cards
  | .error _ => .error "Failed to generate flashcards. Please try again."

/-- A quiz question as `generateQuiz` returns it. -/
structure QuizQuestionRecord where
  question : JVal
  options : List JVal
  correctAnswer : JsNum
  explanation : JVal

/-- The prompt of `generateQuiz`. -/
def quizPrompt (questionCount : Nat) (truncatedText : Str) : Str :=
  "Generate exactly ".toList ++ (toString questionCount).toList
  ++ (" multiple-choice quiz questions from the following document.\n\n"
    ++ "Return ONLY a valid JSON array with no additional text, explanations, or markdown "
    ++ "formatting. Format:\n[\n  \x7b\n"
    ++ "    \"question\": \"Question text\",\n"
    ++ "    \"options\": [\"Option A\", \"Option B\", \"Option C\", \"Option D\"],\n"
    ++ "    \"correctAnswer\": 0,\n"
    ++ "    \"explanation\": \"Explanation of why this is correct\"\n"
    ++ "  \x7d\n]\n\nRequirements:\n"
    ++ "- Each question must have exactly 4 options\n"
    ++ "- correctAnswer must be a number (0-3) indicating the index of the correct option\n"
    ++ "- Include a brief explanation for each answer\n\nDocument:\n").toList
  ++ truncatedText ++ "\n\nJSON array of quiz questions:".toList

/-- The callback of the quiz `map`, applied to element `q` at index `idx`. -/
def validateQuestion (q : JVal) (idx : Nat) : Except String QuizQuestionRecord :=
  match q with
  | .null => .error "TypeError: Cannot read properties of null"
  | .obj fields =>
    let question := JVal.lookup "question".toList fields
    if !JVal.truthy question then
      .error ("Invalid question format at index " ++ toString idx)
    else
      match question, JVal.lookup "options".toList fields with
      | some question, some (.arr options) =>
        if options.length ≠ 4 then
          .error ("Invalid question format at index " ++ toString idx)
        else
          match JVal.lookup "correctAnswer".toList fields with
          | some (.num correctAnswer) =>
            if correctAnswer.ltNat 0 || correctAnswer.gtNat 3 then
              .error ("Invalid correct answer at index " ++ toString idx)
            else
              .ok { question := question, options := options, correctAnswer := correctAnswer,
                    explanation := JVal.orElse (JVal.lookup "explanation".toList fields)
                      "No explanation provided.".toList }
          | _ => .error ("Invalid correct answer at index " ++ toString idx)
      | _, _ => .error ("Invalid question format at index " ++ toString idx)
  | _ => .error ("Invalid question format at index " ++ toString idx)

/-- The quiz `map` with its index: elements are validated from the left and the
first error aborts the whole map. -/
def validateQuestions : List JVal → Nat → Except String (List QuizQuestionRecord)
  | [], _ => .ok []
  | q :: rest, idx =>
    match validateQuestion q idx with
    | .error e => .error e
    | .ok r =>
      match validateQuestions rest (idx + 1) with
      | .error e => .error e
      | .ok rs => .ok (r :: rs)

/-- The statements of `generateQuiz` from `JSON.parse(jsonMatch[0])` on, applied
to the matched text. -/
def quizFromJson (matched : Str) (questionCount : Nat) :
    Except String (List QuizQuestionRecord) :=
  match JSON.parse matched with
  | none => .error "SyntaxError: invalid JSON"
  | some (.arr quizQuestions) => validateQuestions (quizQuestions.take questionCount) 0
  | some _ => .error "Invalid quiz format"

/-- The extraction steps of `generateQuiz` on the raw model text. -/
def extractQuiz (response : Str) (questionCount : Nat) :
    Except String (List QuizQuestionRecord) :=
  match jsonMatch response with
  | none => .error "Invalid response format from AI"
  | some matched => quizFromJson matched questionCount

/-- The try block of `generateQuiz`. -/
def generateQuizTry (cfg : Config) (post : Endpoint) (documentText : Option Str)
    (questionCount : Nat) : Except String (List QuizQuestionRecord) :=
  let truncatedText := truncateText documentText (some 8000)
  match generateResponse cfg post (quizPrompt questionCount truncatedText)
      { temperature := some ⟨8, 10⟩, top_p := none, max_tokens := some 4000 } with
  | .error e => .error e
  | .ok response => extractQuiz response questionCount

/-- `generateQuiz(documentText, questionCount)`: whatever the try block throws
is replaced by one fixed error. -/
def generateQuiz (cfg : Config) (post : Endpoint) (documentText : Option Str)
    (questionCount : Nat) : Except String (List QuizQuestionRecord) :=
  match generateQuizTry cfg post documentText questionCount with
  | .ok questions => .ok questions
  | .error _ => .error "Failed to generate quiz. Please try again."

/-! ## Notions taken from the specification, for comparison with the code -/

/-- Rounding half-up to the nearest integer, in exact arithmetic. -/
def roundHalfUp (x : ℚ) : ℤ := ⌊x + 1 / 2⌋

/-- Whether question `i` exists and `answers[i]` equals its `correctAnswer`. -/
def isCorrectAt (questions : List QuizQuestion) (answers : List JVal) (i : Nat) : Bool :=
  match questions[i]? with
  | some q => JVal.strictEqNum answers[i]? q.correctAnswer
  | none => false

/-- The number of indices `i` with `answers[i]` equal to `questions[i].correctAnswer`. -/
def matchingIndices (questions : List QuizQuestion) (answers : List JVal) : Nat :=
  (List.range questions.length).countP (isCorrectAt questions answers)

/-- The success body of a submit response, if it is one. -/
def SubmitResponse.body? : SubmitResponse → Option SubmitBody
  | .ok body => some body
  | .error _ _ => none

/-- A stored quiz of 40 questions whose correct option is always option 0. -/
def quiz40 : Quiz :=
  { _id := 1, userId := 1, documentId := 1,
    questions := List.replicate 40
      { question := "Q".toList,
        options := ["a".toList, "b".toList, "c".toList, "d".toList],
        correctAnswer := .fin false ⟨0, 1⟩, explanation := "E".toList },
    userAnswers := [], score := none, totalQuestions := 40, completedAt := none,
    createdAt := 0 }

/-- Answers to `quiz40`: option 0 for the first 23 questions, option 1 for the other 17. -/
def answers23of40 : List JVal :=
  List.replicate 23 (.num (.fin false ⟨0, 1⟩)) ++ List.replicate 17 (.num (.fin false ⟨1, 1⟩))

/-- The property `key` of an element of the parsed array, `none` when the
element has no such property (or is not an object). -/
def field (key : String) (q : JVal) : Option JVal :=
  match q with
  | .obj fields => JVal.lookup key.toList fields
  | _ => none

/-- A Number that lies in the closed interval from 0 to 3. -/
def inRange03 : JsNum → Prop
  | .fin false x => x.num ≤ 3 * x.den
  | .fin true x => x.num = 0
  | .inf _ => False
  | .nan => False

/-- An element whose `options` is a sequence of exactly 4 entries. -/
def hasFourOptions (q : JVal) : Prop :=
  ∃ options : List JVal, field "options" q = some (.arr options) ∧ options.length = 4

/-- An element whose `correctAnswer` is a number in [0,3]. -/
def hasAnswerInRange (q : JVal) : Prop :=
  ∃ n : JsNum, field "correctAnswer" q = some (.num n) ∧ inRange03 n

/-- An element with a non-empty (truthy) `question`. -/
def hasQuestion (q : JVal) : Prop := JVal.truthy (field "question" q) = true

/-- A valid quiz element: a question, 4 options and a correct answer in [0,3]. -/
def validQuestion (q : JVal) : Prop := hasQuestion q ∧ hasFourOptions q ∧ hasAnswerInRange q

/-- A value in which no Number is NaN: JSON text cannot denote NaN. -/
inductive NoNaN : JVal → Prop where
  | null : NoNaN .null
  | bool (b : Bool) : NoNaN (.bool b)
  | num (n : JsNum) (h : n ≠ .nan) : NoNaN (.num n)
  | str (s : Str) : NoNaN (.str s)
  | arr (items : List JVal) (h : ∀ x ∈ items, NoNaN x) : NoNaN (.arr items)
  | obj (fields : List (Str × JVal)) (h : ∀ p ∈ fields, NoNaN p.2) : NoNaN (.obj fields)

/-- An endpoint whose reply to every request is the text `response`. -/
def replyWith (response : Str) : Endpoint := fun _ => .ok response

/-- A configuration with the default endpoint address and model name. -/
def defaultConfig : Config := { OLLAMA_URL := "http://localhost:11434", MODEL_NAME := "llama3.2" }

/-- The lenient coercion of a flashcard field: `out` is the empty string when
the source field is missing or falsy, and the source value itself when that is
truthy. -/
def coerced (src : Option JVal) (out : JVal) : Prop :=
  (src = none → out = .str []) ∧
  (∀ v, src = some v → JVal.truthy (some v) = true → out = v) ∧
  (∀ v, src = some v → JVal.truthy (some v) = false → out = .str [])

/-! ## Sample model outputs -/

/-- JSON text of a well-formed quiz element: four options, correct answer 0. -/
def goodQuestionJson : String :=
  "\x7b\"question\":\"Q\",\"options\":[\"a\",\"b\",\"c\",\"d\"],\"correctAnswer\":0\x7d"

/-- The value `goodQuestionJson` parses to. -/
def goodQuestion : JVal :=
  .obj [("question".toList, .str "Q".toList),
        ("options".toList, .arr [.str "a".toList, .str "b".toList, .str "c".toList,
          .str "d".toList]),
        ("correctAnswer".toList, .num (.fin false ⟨0, 1⟩))]

/-- JSON text of a quiz element with only three options. -/
def threeOptionsJson : String :=
  "\x7b\"question\":\"R\",\"options\":[\"a\",\"b\",\"c\"],\"correctAnswer\":0\x7d"

/-- The value `threeOptionsJson` parses to. -/
def threeOptions : JVal :=
  .obj [("question".toList, .str "R".toList),
        ("options".toList, .arr [.str "a".toList, .str "b".toList, .str "c".toList]),
        ("correctAnswer".toList, .num (.fin false ⟨0, 1⟩))]

/-- JSON text of a quiz element whose correct answer is 1.5. -/
def fractionalAnswerJson : String :=
  "\x7b\"question\":\"Q\",\"options\":[\"a\",\"b\",\"c\",\"d\"],\"correctAnswer\":1.5\x7d"

/-- Model output: a well-formed element followed by one with three options. -/
def rawGoodThenBad : Str := ("[" ++ goodQuestionJson ++ "," ++ threeOptionsJson ++ "]").toList

/-- Model output: one element whose correct answer is 1.5. -/
def rawFractionalAnswer : Str := ("[" ++ fractionalAnswerJson ++ "]").toList

/-- Model output: the number 1 followed by two well-formed elements. -/
def rawBadThenTwoGood : Str :=
  ("[1," ++ goodQuestionJson ++ "," ++ goodQuestionJson ++ "]").toList

/-- Model output: one flashcard whose `question` is the number 0. -/
def rawZeroQuestion : Str := "[\x7b\"question\":0,\"answer\":\"A\"\x7d]".toList

/-- The prose and opening fence of the specification's example. -/
def fenceIntro : Str := "Here you go:\n```json\n".toList

/-- The array of the specification's example. -/
def fencedArray : Str := "[\x7b\"question\":\"Q\",\"answer\":\"A\"\x7d]".toList

/-- The closing fence of the specification's example. -/
def fenceSuffix : Str := "\n```".toList

/-! ## The health check (`services/llamaService.js`) -/

/-- The result object of `healthCheck`; `model` is absent in the error result. -/
structure Health where
  status : String
  message : String
  model : Option String
deriving DecidableEq

/-- The model-listing endpoint as seen through `axios.get(url, options)` with
its timeout: the body `response.data` of the reply, or the error the call
rejects with. -/
abbrev TagsEndpoint := String → Nat → Except AxiosError JVal

/-- Whether `s` begins with `p`. -/
def startsWith : Str → Str → Bool
  | _, [] => true
  | [], _ :: _ => false
  | c :: cs, p :: ps => c == p && startsWith cs ps

/-- `s.includes(sub)` on strings: `sub` occurs somewhere in `s`. -/
def includes : Str → Str → Bool
  | [], sub => sub.isEmpty
  | c :: cs, sub => startsWith (c :: cs) sub || includes cs sub

/-- `MODEL_NAME.split(':')[0]`: the part of the name before its first `:`. -/
def baseName (modelName : Str) : Str := modelName.takeWhile (· ≠ ':')

/-- The callback of `models.some`: `m.name.includes(base)`. Reading `name` of
`null` throws; so does calling `includes` on a `name` that is neither a string
nor an array. -/
def nameIncludes (m : JVal) (base : Str) : Except String Bool :=
  match m.getProp "name".toList with
  | .error e => .error e
  | .ok (some (.str name)) => .ok (includes name base)
  | .ok (some (.arr items)) =>
    .ok (items.any fun x => match x with
      | .str s => s == base
      | _ => false)
  | .ok _ => .error "TypeError: m.name.includes is not a function"

/-- `models.some(m => m.name.includes(base))`: entries are tested from the left
and the first hit ends the search. -/
def someIncludes : List JVal → Str → Except String Bool
  | [], _ => .ok false
  | m :: rest, base =>
    match nameIncludes m base with
    | .error e => .error e
    | .ok true => .ok true
    | .ok false => someIncludes rest base

/-- The try block of `healthCheck`. -/
def healthCheckTry (cfg : Config) (get : TagsEndpoint) : Except String Health :=
  match get (cfg.OLLAMA_URL ++ "/api/tags") 5000 with
  | .error error => .error error.message
  | .ok data =>
    match data.getProp "models".toList with
    | .error e => .error e
    | .ok listed =>
      match (if JVal.truthy listed then listed else some (.arr [])) with
      | some (.arr models) =>
        match someIncludes models (baseName cfg.MODEL_NAME.toList) with
        | .error e => .error e
        | .ok modelExists =>
          if !modelExists then
            .ok { status := "warning",
                  message := "Model \"" ++ cfg.MODEL_NAME ++ "\" not found. Pull it with: ollama pull "
                    ++ cfg.MODEL_NAME,
                  model := some cfg.MODEL_NAME }
          else
            .ok { status := "ok", message := "Ollama is running", model := some cfg.MODEL_NAME }
      | _ => .error "TypeError: models.some is not a function"

/-- `healthCheck()`: whatever the try block throws gives the error result. -/
def healthCheck (cfg : Config) (get : TagsEndpoint) : Health :=
  match healthCheckTry cfg get with
  | .ok health => health
  | .error _ =>
    { status := "error", message := "Ollama is not running. Start it with: ollama serve",
      model := none }

/-! ## Count validation of the generation routes (`routes/ai.js`) -/

/-- The conversions to Number that the comparison operators apply to strings
and arrays (`StringToNumber`, and `Array.prototype.toString` followed by it):
built into the language and taken as given. -/
structure Coercion where
  stringToNumber : Str → JsNum
  arrayToNumber : List JVal → Except String JsNum

/-- `ToNumber` of a request-body value compared with a number: `null` is 0,
`true` is 1, a plain object is NaN; an object with an own `toString` entry
cannot be converted and throws. -/
def toNumber (co : Coercion) : JVal → Except String JsNum
  | .null => .ok (.fin false ⟨0, 1⟩)
  | .bool b => .ok (.fin false ⟨if b then 1 else 0, 1⟩)
  | .num n => .ok n
  | .str s => .ok (co.stringToNumber s)
  | .arr items => co.arrayToNumber items
  | .obj fields =>
    match JVal.lookup "toString".toList fields with
    | some _ => .error "TypeError: Cannot convert object to primitive value"
    | none => .ok .nan

/-- A stored document as the routes read it. -/
structure Document where
  extractedText : Option Str
  summary : Option Str

/-- How far a generation route gets: it answers with a status and a message,
or it reaches the service call with the document text and the count. -/
inductive RouteOutcome where
  | respond (status : Nat) (message : String)
  | invoke (documentText : Str) (count : JVal)

/-- The shared shape of the two count-taking routes up to the service call:
the default for an absent count, the range guard
`count < low || count > high`, the document lookup and the text check.
`count` is the body field (`none` when absent), `document` the result of
`Document.findOne`. An exception inside the handler gives status 500. -/
def countRoute (co : Coercion) (dflt low high : Nat) (rangeMessage failMessage : String)
    (count : Option JVal) (document : Option Document) : RouteOutcome :=
  let count := count.getD (.num (JsNum.ofNat dflt))
  match toNumber co count with
  | .error e => .respond 500 (if e.isEmpty then failMessage else e)
  | .ok n =>
    if n.ltNat low || n.gtNat high then
      .respond 400 rangeMessage
    else
      match document with
      | none => .respond 404 "Document not found or access denied"
      | some document =>
        match document.extractedText with
        | none =>
          .respond 400 "Document text not available. The PDF might not have extractable text."
        | some text =>
          if text.isEmpty then
            .respond 400 "Document text not available. The PDF might not have extractable text."
          else .invoke text count

/-- `POST /api/ai/flashcards/:documentId` up to the call of `generateFlashcards`. -/
def flashcardsRoute (co : Coercion) (count : Option JVal) (document : Option Document) :
    RouteOutcome :=
  countRoute co 10 1 20 "Flashcard count must be between 1 and 20" "Failed to generate flashcards"
    count document

/-- `POST /api/ai/quiz/:documentId` up to the call of `generateQuiz`. -/
def quizRoute (co : Coercion) (questionCount : Option JVal) (document : Option Document) :
    RouteOutcome :=
  countRoute co 5 1 15 "Question count must be between 1 and 15" "Failed to generate quiz"
    questionCount document

/-! ## Further notions for the statements -/

/-- The request `generateResponse` posts for a prompt, a temperature and an
output budget when no `top_p` is given: `top_p` 0.9, no streaming, timeout of
120 seconds. -/
def inferenceRequest (cfg : Config) (prompt : Str) (temperature : Frac) (num_predict : Nat) :
    GenerateRequest :=
  { url := cfg.OLLAMA_URL ++ "/api/generate", model := cfg.MODEL_NAME, prompt := prompt,
    stream := false, temperature := temperature, top_p := ⟨9, 10⟩, num_predict := num_predict,
    timeout := 120000 }

/-- The message of the error `generateResponse` throws for a failed request. -/
def transportMessage (cfg : Config) (error : AxiosError) : String :=
  if error.code = some "ECONNREFUSED" then
    "Ollama is not running. Start it with: ollama serve"
  else if error.status = some 404 then
    "Model \"" ++ cfg.MODEL_NAME ++ "\" not found. Pull it with: ollama pull " ++ cfg.MODEL_NAME
  else
    "AI service unavailable: " ++ error.message

/-- What `generateResponse` returns for the endpoint's answer to its request. -/
def relay (cfg : Config) : Except AxiosError Str → Except String Str
  | .ok response => .ok response
  | .error error => .error (transportMessage cfg error)

/-- An endpoint that answers every request with the prompt it was sent. -/
def echoPrompt : Endpoint := fun request => .ok request.prompt

/-- An endpoint on which every request fails with `error`. -/
def failWith (error : AxiosError) : Endpoint := fun _ => .error error

/-- A refused connection. -/
def connectionRefused : AxiosError :=
  { code := some "ECONNREFUSED", status := none, message := "connect ECONNREFUSED 127.0.0.1:11434" }

/-- A reply with HTTP status 404. -/
def modelMissing : AxiosError :=
  { code := some "ERR_BAD_REQUEST", status := some 404,
    message := "Request failed with status code 404" }

/-- A request that ran into the timeout. -/
def timedOut : AxiosError :=
  { code := some "ECONNABORTED", status := none, message := "timeout of 120000ms exceeded" }

/-- The error object the catch block of `generateQuiz` passes to
`console.error`, if the try block threw. -/
def quizErrorLog (cfg : Config) (post : Endpoint) (documentText : Option Str)
    (questionCount : Nat) : Option String :=
  match generateQuizTry cfg post documentText questionCount with
  | .ok _ => none
  | .error e => some e

/-- A model list reply with the given model names. -/
def tagsReply (names : List String) : TagsEndpoint :=
  fun _ _ => .ok (.obj [("models".toList,
    .arr (names.map fun n => .obj [("name".toList, .str n.toList)]))])

/-- A source text of `n` letters followed by three dots. -/
def textEndingInDots (n : Nat) : Str := List.replicate n 'a' ++ "...".toList

/-- A Number in its representation invariant: a finite value has a positive denominator. -/
def JsNum.wellFormed : JsNum → Prop
  | .fin _ x => 0 < x.den
  | _ => True

/-- An error of an `Except` replaced by one fixed message. -/
def replaceError {α : Type} (message : String) : Except String α → Except String α
  | .ok a => .ok a
  | .error _ => .error message

/-- The options the generation operations pass to `generateResponse`. -/
def optionsOf (temperature : Frac) (max_tokens : Option Nat) : GenOptions :=
  { temperature := some temperature, top_p := none, max_tokens := max_tokens }

/-- Model output: five quiz elements, the one at index 2 with three options. -/
def rawFiveBadAtTwo : Str :=
  ("[" ++ goodQuestionJson ++ "," ++ goodQuestionJson ++ "," ++ threeOptionsJson ++ ","
    ++ goodQuestionJson ++ "," ++ goodQuestionJson ++ "]").toList

/-- Model output: five quiz elements, the one at index 0 with three options. -/
def rawFiveBadAtZero : Str :=
  ("[" ++ threeOptionsJson ++ "," ++ goodQuestionJson ++ "," ++ goodQuestionJson ++ ","
    ++ goodQuestionJson ++ "," ++ goodQuestionJson ++ "]").toList

/-- A stored document with extracted text. -/
def sampleDocument : Document := { extractedText := some "Text".toList, summary := none }


/-! ## The save route of the quizzes (`routes/quizzes.js`, `POST /`) -/

/-- What the save route answers: the stored quiz with a message, or a status
with a message. -/
inductive CreateResponse where
  | ok (message : String) (quiz : Quiz)
  | error (status : Nat) (message : String)

/-- Casting of the submitted question array into the schema's subdocuments,
element by element with `castQuestion` (the schema casting and validation of
one question, taken as given); `none` when an element is rejected. -/
def castQuestions (castQuestion : JVal → Option QuizQuestion) :
    List JVal → Option (List QuizQuestion)
  | [] => some []
  | q :: rest =>
    match castQuestion q with
    | none => none
    | some c =>
      match castQuestions castQuestion rest with
      | none => none
      | some cs => some (c :: cs)

/-- The handler of `POST /api/quizzes` for the authenticated user `userId`.
`documentId` and `questions` are the body fields, `document` is the result of
`Document.findOne` (the identifier of the user's document, if found), `newId`
the identifier the new document gets and `now` the value of `Date.now`. When
the schema rejects a question, `quiz.save()` throws and the handler answers
500. The other fields of the new document take the schema defaults. -/
def createQuiz (db : List Quiz) (userId : Nat) (documentId questions : Option JVal)
    (document : Option Nat) (castQuestion : JVal → Option QuizQuestion) (newId now : Nat) :
    CreateResponse × List Quiz :=
  if !JVal.truthy documentId then
    (.error 400 "Invalid request data", db)
  else
    match questions with
    | some (.arr questions) =>
      match document with
      | none => (.error 404 "Document not found or access denied", db)
      | some docId =>
        match castQuestions castQuestion questions with
        | none => (.error 500 "Server error", db)
        | some stored =>
          let quiz : Quiz :=
            { _id := newId, userId := userId, documentId := docId, questions := stored,
              userAnswers := [], score := none, totalQuestions := questions.length,
              completedAt := none, createdAt := now }
          (.ok "Quiz saved successfully" quiz, db ++ [quiz])
    | _ => (.error 400 "Invalid request data", db)

/-! ## Sequences of submit requests -/

/-- One submit request as the handler sees it. -/
structure SubmitRequest where
  userId : Nat
  id : Nat
  answers : Option JVal
  now : Nat
  saveThrows : Bool

/-- Whether a submit response is the success answer. -/
def SubmitResponse.isOk : SubmitResponse → Bool
  | .ok _ => true
  | .error _ _ => false

/-- Runs submit requests one after the other from a stored collection; the
flag of the state tells whether a submit to the quiz `id` has succeeded so far. -/
def runSubmits (castOther : JVal → Option JVal) (id : Nat) :
    List Quiz × Bool → List SubmitRequest → List Quiz × Bool
  | state, [] => state
  | (db, succeeded), r :: rest =>
    runSubmits castOther id
      ((submitQuiz castOther db r.userId r.id r.answers r.now r.saveThrows).2,
       succeeded ||
        (r.id == id &&
          (submitQuiz castOther db r.userId r.id r.answers r.now r.saveThrows).1.isOk))
      rest

/-- Whether the value is `null` or a number other than NaN: the entries that
the casting to `Number` keeps as they are. -/
def JVal.isNumberOrNull : JVal → Bool
  | .null => true
  | .num n => !n.isNaN
  | _ => false

/-- The number written by a string of decimal digits, `none` for any other string. -/
def digitsValue (s : Str) : Option Nat :=
  s.foldl
    (fun acc c => acc.bind fun n => if c.isDigit then some (10 * n + (c.toNat - 48)) else none)
    (some 0)

/-- A casting of strings, arrays and objects for the examples: the empty
string becomes `null` and a string of decimal digits its number; every other
string, every array and every object is refused here. -/
def castDigits : JVal → Option JVal
  | .str [] => some .null
  | .str s => (digitsValue s).map fun n => .num (JsNum.ofFrac false ⟨n, 1⟩)
  | _ => none

/-- The placeholder of a quiz record without explanation. -/
def noExplanation : Str := "No explanation provided.".toList

/-- Model output: one flashcard element without `answer`. -/
def rawMissingAnswer : Str := "[\x7b\"question\":\"Q\"\x7d]".toList

/-- A schema casting that accepts only the well-formed sample element. -/
def sampleCast : JVal → Option QuizQuestion
  | .obj _ =>
    some { question := "Q".toList,
           options := ["a".toList, "b".toList, "c".toList, "d".toList],
           correctAnswer := .fin false ⟨0, 1⟩, explanation := "E".toList }
  | _ => none

/-- Model output: one quiz element without `explanation`. -/
def rawNoExplanation : Str := ("[" ++ goodQuestionJson ++ "]").toList

/-- What is kept about the quiz `id` of `owner` while submit requests run on
the collection `db`: `q` is its only stored document, it holds the questions
`stored`, and `succeeded` tells whether a submit to it has succeeded. -/
def Tracks (id owner : Nat) (stored : List QuizQuestion) (db : List Quiz) (succeeded : Bool)
    (q : Quiz) : Prop :=
  q ∈ db ∧ (∀ x ∈ db, x._id = id → x = q) ∧ q._id = id ∧ q.userId = owner ∧
  q.questions = stored ∧ q.totalQuestions = stored.length ∧
  (q.completedAt = none ↔ q.score = none) ∧ (q.completedAt = none ↔ succeeded = false)

/-- The body of the save request used in the examples: two question objects. -/
def twoQuestions : Option JVal := some (.arr [.obj [], .obj []])

/-- The question the sample casting stores. -/
def sampleQuestion : QuizQuestion :=
  { question := "Q".toList,
    options := ["a".toList, "b".toList, "c".toList, "d".toList],
    correctAnswer := .fin false ⟨0, 1⟩, explanation := "E".toList }

/-- The quiz the save route stores for `twoQuestions` with identifier 1, owner 1
and document 7. -/
def createdQuiz : Quiz :=
  { _id := 1, userId := 1, documentId := 7, questions := [sampleQuestion, sampleQuestion],
    userAnswers := [], score := none, totalQuestions := 2, completedAt := none, createdAt := 0 }

/-- Three submit requests: a stranger's, the owner's with one right answer, and
the owner's second attempt. -/
def sampleRequests : List SubmitRequest :=
  [ { userId := 2, id := 1, answers := some (.arr []), now := 3, saveThrows := false },
    { userId := 1, id := 1,
      answers := some (.arr [.num (.fin false ⟨0, 1⟩), .num (.fin false ⟨1, 1⟩)]),
      now := 5, saveThrows := false },
    { userId := 1, id := 1, answers := some (.arr []), now := 8, saveThrows := false } ]

/-- A stored quiz of three questions whose correct option is always option 0. -/
def quiz3 : Quiz :=
  { _id := 1, userId := 1, documentId := 7,
    questions := [sampleQuestion, sampleQuestion, sampleQuestion],
    userAnswers := [], score := none, totalQuestions := 3, completedAt := none, createdAt := 0 }

/-- Answers to `quiz3`: right, wrong, right. -/
def answers2of3 : List JVal :=
  [.num (.fin false ⟨0, 1⟩), .num (.fin false ⟨1, 1⟩), .num (.fin false ⟨0, 1⟩)]
/-- A stored quiz without questions, as the save route stores it for an empty
`questions` array. -/
def quiz0 : Quiz :=
  { _id := 1, userId := 1, documentId := 7, questions := [], userAnswers := [], score := none,
    totalQuestions := 0, completedAt := none, createdAt := 0 }

/-- Submitted answers whose first entry is the string `"0"`. -/
def answersWithString : List JVal := [.str "0".toList, .num (.fin false ⟨0, 1⟩)]

/-- Model output: one well-formed quiz element whose `explanation` is the number 0. -/
def rawZeroExplanation : Str :=
  ("[\x7b\"question\":\"Q\",\"options\":[\"a\",\"b\",\"c\",\"d\"],\"correctAnswer\":0,"
    ++ "\"explanation\":0\x7d]").toList

/-! ## Quiz scoring -/

theorem isCorrectAt_cons_succ (q : QuizQuestion) (rest : List QuizQuestion) (answers : List JVal)
    (idx i : Nat) :
    isCorrectAt (q :: rest) (answers.drop idx) (i + 1)
      = isCorrectAt rest (answers.drop (idx + 1)) i := by
  simp only [isCorrectAt, List.getElem?_cons_succ, List.getElem?_drop]
  have : idx + (i + 1) = idx + 1 + i := by omega
  rw [this]

theorem countCorrect_eq (questions : List QuizQuestion) (answers : List JVal) (idx acc : Nat) :
    countCorrect questions idx answers acc
      = acc + (List.range questions.length).countP (isCorrectAt questions (answers.drop idx)) := by
  induction questions generalizing idx acc with
  | nil => simp [countCorrect]
  | cons q rest ih =>
    rw [countCorrect, ih, List.length_cons, List.range_succ_eq_map, List.countP_cons,
      List.countP_map]
    have hfun : (isCorrectAt (q :: rest) (answers.drop idx)) ∘ Nat.succ
        = isCorrectAt rest (answers.drop (idx + 1)) := by
      funext i
      exact isCorrectAt_cons_succ q rest answers idx i
    rw [hfun]
    have h0 : isCorrectAt (q :: rest) (answers.drop idx) 0
        = JVal.strictEqNum answers[idx]? q.correctAnswer := by
      simp [isCorrectAt, List.getElem?_drop]
    rw [h0]
    split <;> simp_all
    omega

theorem countCorrect_eq_matchingIndices (questions : List QuizQuestion) (answers : List JVal) :
    countCorrect questions 0 answers 0 = matchingIndices questions answers := by
  rw [countCorrect_eq]
  simp [matchingIndices]

theorem matchingIndices_le (questions : List QuizQuestion) (answers : List JVal) :
    matchingIndices questions answers ≤ questions.length := by
  unfold matchingIndices
  calc List.countP _ (List.range questions.length)
      ≤ (List.range questions.length).length := List.countP_le_length _
    _ = questions.length := List.length_range _

/-- The double-precision score agrees with exact half-up rounding for every
quiz of fewer than 40 questions (checked case by case). -/
theorem computeScore_small :
    ∀ t < 40, ∀ c < t + 1, 0 < t →
      computeScore c t = .fin false ⟨(200 * c + t) / (2 * t), 1⟩ := by
  decide!

theorem roundHalfUp_percent (c t : Nat) (ht : 0 < t) :
    roundHalfUp ((c : ℚ) / t * 100) = (((200 * c + t) / (2 * t) : Nat) : ℤ) := by
  unfold roundHalfUp
  have h : (c : ℚ) / t * 100 + 1 / 2 = ((200 * c + t : Nat) : ℚ) / ((2 * t : Nat) : ℚ) := by
    have ht0 : (t : ℚ) ≠ 0 := by exact_mod_cast ht.ne'
    push_cast
    field_simp
    ring
  rw [h, Rat.floor_natCast_div_natCast]
  norm_cast

theorem ofFrac_isNaN (neg : Bool) (x : Frac) : (JsNum.ofFrac neg x).isNaN = false := by
  unfold JsNum.ofFrac
  simp only
  split <;> rfl

theorem round_isNaN (x : JsNum) (h : x.isNaN = false) : (Math.round x).isNaN = false := by
  cases x with
  | nan => exact Bool.noConfusion h
  | inf s => rfl
  | fin neg y => cases neg <;> rfl

/-- The score of a quiz with a positive `totalQuestions` is never NaN. -/
theorem computeScore_isNaN (c t : Nat) (ht : 0 < t) : (computeScore c t).isNaN = false := by
  unfold computeScore
  apply round_isNaN
  unfold JsNum.divNat
  rw [if_neg (Nat.pos_iff_ne_zero.mp ht)]
  cases h : JsNum.ofFrac false ⟨c, t⟩ with
  | nan =>
    have := ofFrac_isNaN false ⟨c, t⟩
    rw [h] at this
    exact Bool.noConfusion this
  | inf s => rfl
  | fin neg y => exact ofFrac_isNaN _ _

theorem castNumber_kept (castOther : JVal → Option JVal) (a : JVal)
    (h : a.isNumberOrNull = true) : castNumber castOther a = some a := by
  cases a with
  | null => rfl
  | num n =>
    have hn : n.isNaN = false := by simpa [JVal.isNumberOrNull] using h
    simp [castNumber, hn]
  | bool b => exact Bool.noConfusion h
  | str x => exact Bool.noConfusion h
  | arr x => exact Bool.noConfusion h
  | obj x => exact Bool.noConfusion h

/-- An array of numbers and nulls is cast to itself. -/
theorem castNumbers_kept (castOther : JVal → Option JVal) (answers : List JVal)
    (h : ∀ a ∈ answers, a.isNumberOrNull = true) :
    castNumbers castOther answers = some answers := by
  induction answers with
  | nil => rfl
  | cons a rest ih =>
    unfold castNumbers
    rw [castNumber_kept castOther a (h a (List.mem_cons_self _ _)),
      ih fun x hx => h x (List.mem_cons_of_mem _ hx)]

theorem submitQuiz_ok (castOther : JVal → Option JVal) (db : List Quiz) (userId id : Nat)
    (answers cast : List JVal) (now : Nat) (quiz : Quiz)
    (hfind : findOne db id userId = some quiz) (hopen : quiz.completedAt = none)
    (hcast : castNumbers castOther answers = some cast)
    (hscore : (computeScore (countCorrect quiz.questions 0 answers 0)
      quiz.totalQuestions).isNaN = false) :
    submitQuiz castOther db userId id (some (.arr answers)) now false
      = (.ok { message := "Quiz submitted successfully",
               score := computeScore (countCorrect quiz.questions 0 answers 0) quiz.totalQuestions,
               correctCount := countCorrect quiz.questions 0 answers 0,
               totalQuestions := quiz.totalQuestions,
               quiz := { quiz with
                 userAnswers := cast,
                 score := some (computeScore (countCorrect quiz.questions 0 answers 0)
                   quiz.totalQuestions),
                 completedAt := some now } },
         save db { quiz with
           userAnswers := cast,
           score := some (computeScore (countCorrect quiz.questions 0 answers 0)
             quiz.totalQuestions),
           completedAt := some now }) := by
  simp [submitQuiz, hfind, hopen, hcast, hscore]

/-- What a success answer of the submit route tells: the quiz was open, the
answers were cast, the score is a number, the write went through, and the
body and the stored collection are those of the completed quiz. -/
theorem submitQuiz_inv (castOther : JVal → Option JVal) (db : List Quiz) (userId id : Nat)
    (answers : List JVal) (now : Nat) (saveThrows : Bool) (quiz : Quiz) (body : SubmitBody)
    (hfind : findOne db id userId = some quiz)
    (hok : (submitQuiz castOther db userId id (some (.arr answers)) now saveThrows).1 = .ok body) :
    quiz.completedAt = none ∧ saveThrows = false ∧
    (computeScore (countCorrect quiz.questions 0 answers 0) quiz.totalQuestions).isNaN = false ∧
    ∃ cast, castNumbers castOther answers = some cast ∧
      body = { message := "Quiz submitted successfully",
               score := computeScore (countCorrect quiz.questions 0 answers 0) quiz.totalQuestions,
               correctCount := countCorrect quiz.questions 0 answers 0,
               totalQuestions := quiz.totalQuestions,
               quiz := { quiz with
                 userAnswers := cast,
                 score := some (computeScore (countCorrect quiz.questions 0 answers 0)
                   quiz.totalQuestions),
                 completedAt := some now } } := by
  cases hopen : quiz.completedAt with
  | some t =>
    simp [submitQuiz, hfind, hopen] at hok
  | none =>
    cases hcast : castNumbers castOther answers with
    | none => simp [submitQuiz, hfind, hopen, hcast] at hok
    | some cast =>
      cases saveThrows with
      | true => simp [submitQuiz, hfind, hopen, hcast] at hok
      | false =>
        cases hscore : (computeScore (countCorrect quiz.questions 0 answers 0)
            quiz.totalQuestions).isNaN with
        | true => simp [submitQuiz, hfind, hopen, hcast, hscore] at hok
        | false =>
          rw [submitQuiz_ok castOther db userId id answers cast now quiz hfind hopen hcast
            hscore] at hok
          simp only [SubmitResponse.ok.injEq] at hok
          exact ⟨rfl, rfl, rfl, cast, rfl, hok.symm⟩

theorem submitQuiz_body (castOther : JVal → Option JVal) (db : List Quiz) (userId id : Nat)
    (answers : List JVal) (now : Nat)
    (saveThrows : Bool) (quiz : Quiz) (body : SubmitBody)
    (hfind : findOne db id userId = some quiz)
    (hok : (submitQuiz castOther db userId id (some (.arr answers)) now saveThrows).1 = .ok body) :
    body.correctCount = countCorrect quiz.questions 0 answers 0 ∧
    body.totalQuestions = quiz.totalQuestions ∧
    body.score = computeScore (countCorrect quiz.questions 0 answers 0) quiz.totalQuestions := by
  obtain ⟨_, _, _, cast, _, hbody⟩ :=
    submitQuiz_inv castOther db userId id answers now saveThrows quiz body hfind hok
  subst hbody
  exact ⟨rfl, rfl, rfl⟩

/-- For a quiz of any size, a successful submit returns `correctCount` = the
number of indices `i` with `answers[i]` equal to `questions[i].correctAnswer`,
the quiz's `totalQuestions`, and as score the double-precision
`Math.round((correctCount / totalQuestions) * 100)`. -/
theorem submit_counts_matching (castOther : JVal → Option JVal) (db : List Quiz)
    (userId id : Nat) (answers : List JVal) (now : Nat) (saveThrows : Bool) (quiz : Quiz)
    (body : SubmitBody) (hfind : findOne db id userId = some quiz)
    (hok : (submitQuiz castOther db userId id (some (.arr answers)) now saveThrows).1 = .ok body) :
    body.correctCount = matchingIndices quiz.questions answers ∧
    body.totalQuestions = quiz.totalQuestions ∧
    body.score = computeScore (matchingIndices quiz.questions answers) quiz.totalQuestions := by
  obtain ⟨hc, ht, hs⟩ :=
    submitQuiz_body castOther db userId id answers now saveThrows quiz body hfind hok
  rw [countCorrect_eq_matchingIndices] at hc hs
  exact ⟨hc, ht, hs⟩

/-- For a quiz whose `totalQuestions` is its number of questions and lies in
1..39, the score of a successful submit is `correctCount / totalQuestions * 100`
rounded half-up to the nearest integer. -/
theorem submit_score_below_40 (castOther : JVal → Option JVal) (db : List Quiz)
    (userId id : Nat) (answers : List JVal) (now : Nat) (saveThrows : Bool) (quiz : Quiz)
    (body : SubmitBody)
    (hfind : findOne db id userId = some quiz)
    (htotal : quiz.totalQuestions = quiz.questions.length)
    (hpos : 0 < quiz.totalQuestions) (hsmall : quiz.totalQuestions < 40)
    (hok : (submitQuiz castOther db userId id (some (.arr answers)) now saveThrows).1 = .ok body) :
    body.correctCount = matchingIndices quiz.questions answers ∧
    body.totalQuestions = quiz.totalQuestions ∧
    ∃ n : Nat, body.score = .fin false ⟨n, 1⟩ ∧
      (n : ℤ) = roundHalfUp ((body.correctCount : ℚ) / quiz.totalQuestions * 100) := by
  obtain ⟨hc, ht, hs⟩ :=
    submitQuiz_body castOther db userId id answers now saveThrows quiz body hfind hok
  rw [countCorrect_eq_matchingIndices] at hc hs
  refine ⟨hc, ht, (200 * body.correctCount + quiz.totalQuestions) / (2 * quiz.totalQuestions),
    ?_, ?_⟩
  · rw [hs, hc]
    have hle := matchingIndices_le quiz.questions answers
    exact computeScore_small quiz.totalQuestions hsmall _ (by omega) hpos
  · rw [roundHalfUp_percent _ _ hpos]

/-- A three-question quiz with correct answers 0, 1, 2 and submitted answers
0, 1, 1 gives `correctCount = 2` and `score = 67`. -/
theorem submit_score_two_of_three :
    ∃ body : SubmitBody,
      (submitQuiz castDigits [{ quiz40 with
          questions := [⟨[], [], .fin false ⟨0, 1⟩, []⟩, ⟨[], [], .fin false ⟨1, 1⟩, []⟩,
            ⟨[], [], .fin false ⟨2, 1⟩, []⟩],
          totalQuestions := 3 }] 1 1
        (some (.arr [.num (.fin false ⟨0, 1⟩), .num (.fin false ⟨1, 1⟩),
          .num (.fin false ⟨1, 1⟩)])) 7 false).1 = .ok body ∧
      body.correctCount = 2 ∧ body.score = .fin false ⟨67, 1⟩ ∧
      (67 : ℤ) = roundHalfUp ((2 : ℚ) / 3 * 100) := by
  refine ⟨_, rfl, ?_⟩
  obtain ⟨hc, -, n, hs, hn⟩ := submit_score_below_40 castDigits
    [{ quiz40 with
        questions := [⟨[], [], .fin false ⟨0, 1⟩, []⟩, ⟨[], [], .fin false ⟨1, 1⟩, []⟩,
          ⟨[], [], .fin false ⟨2, 1⟩, []⟩],
        totalQuestions := 3 }] 1 1
    [.num (.fin false ⟨0, 1⟩), .num (.fin false ⟨1, 1⟩), .num (.fin false ⟨1, 1⟩)] 7 false
    _ _ rfl rfl (by decide) (by decide) rfl
  have hc2 : matchingIndices [⟨[], [], .fin false ⟨0, 1⟩, []⟩, ⟨[], [], .fin false ⟨1, 1⟩, []⟩,
      ⟨[], [], .fin false ⟨2, 1⟩, []⟩]
      [.num (.fin false ⟨0, 1⟩), .num (.fin false ⟨1, 1⟩), .num (.fin false ⟨1, 1⟩)] = 2 := by
    decide
  refine ⟨hc.trans hc2, ?_, ?_⟩
  · decide
  · rw [show ((2 : ℚ) / 3 * 100) = (((2 : Nat) : ℚ) / ((3 : Nat) : ℚ) * 100) by norm_num,
      roundHalfUp_percent 2 3 (by decide)]
    decide

/-- C1 (failing input): on a stored quiz of 40 questions, 23 correct answers
are counted as 23 and scored 57, while `23 / 40 * 100 = 57.5` rounded half-up
is 58: the double-precision product `(23 / 40) * 100` is `57.49999999999999`,
below the tie, and `Math.round` takes it down. -/
theorem C1_half_percent_rounded_down :
    quiz40.totalQuestions = quiz40.questions.length ∧ 0 < quiz40.totalQuestions ∧
    matchingIndices quiz40.questions answers23of40 = 23 ∧
    ∃ body : SubmitBody,
      (submitQuiz castDigits [quiz40] 1 1 (some (.arr answers23of40)) 0 false).1 = .ok body ∧
      body.correctCount = 23 ∧ body.totalQuestions = 40 ∧ body.score = .fin false ⟨57, 1⟩ ∧
      roundHalfUp ((body.correctCount : ℚ) / quiz40.totalQuestions * 100) = 58 := by
  refine ⟨by decide, by decide, by decide, _, rfl, by decide, by decide, by decide, ?_⟩
  have h := roundHalfUp_percent 23 40 (by decide)
  have e : (200 * 23 + 40) / (2 * 40) = 58 := by decide
  rw [e] at h
  exact h

/-! ## Single submission -/

theorem findOne_some (db : List Quiz) (id userId : Nat) (quiz : Quiz)
    (h : findOne db id userId = some quiz) : quiz._id = id ∧ quiz.userId = userId := by
  have := List.find?_some h
  simpa using this

theorem findOne_save (db : List Quiz) (id userId : Nat) (quiz updated : Quiz)
    (hfind : findOne db id userId = some quiz)
    (hid : updated._id = quiz._id) (huser : updated.userId = quiz.userId) :
    findOne (save db updated) id userId = some updated := by
  obtain ⟨hqid, hquser⟩ := findOne_some db id userId quiz hfind
  have hp : (updated._id == id && updated.userId == userId) = true := by
    simp [hid, huser, hqid, hquser]
  induction db with
  | nil => simp [findOne] at hfind
  | cons x rest ih =>
    simp only [findOne, List.find?_cons] at hfind
    simp only [findOne, save, List.map_cons, List.find?_cons]
    by_cases hx : x._id = updated._id
    · simp only [hx, if_true, hp]
    · simp only [hx, if_false]
      cases hpx : (x._id == id && x.userId == userId) with
      | true =>
        rw [hpx] at hfind
        simp only [Option.some.injEq] at hfind
        subst hfind
        exact absurd hid.symm hx
      | false =>
        rw [hpx] at hfind
        exact ih hfind

theorem submitQuiz_completed (castOther : JVal → Option JVal) (db : List Quiz)
    (userId id : Nat) (answers : List JVal) (now : Nat) (saveThrows : Bool) (quiz : Quiz) (t : Nat)
    (hfind : findOne db id userId = some quiz) (hdone : quiz.completedAt = some t) :
    submitQuiz castOther db userId id (some (.arr answers)) now saveThrows
      = (.error 400 "Quiz already completed", db) := by
  simp [submitQuiz, hfind, hdone]

/-! ## The bracket pattern -/

theorem matchRest_none_of_not_mem (l : Str) (h : ']' ∉ l) : matchRest l = none := by
  induction l with
  | nil => rfl
  | cons c cs ih =>
    have hc : c ≠ ']' := fun e => h (e ▸ List.mem_cons_self _ _)
    have hcs : ']' ∉ cs := fun m => h (List.mem_cons_of_mem _ m)
    simp [matchRest, ih hcs, hc]

theorem mem_of_matchRest_some (l m : Str) (h : matchRest l = some m) : ']' ∈ l := by
  by_contra hn
  rw [matchRest_none_of_not_mem l hn] at h
  exact Option.noConfusion h

theorem matchRest_span (mid post : Str) (h : ']' ∉ post) :
    matchRest (mid ++ ']' :: post) = some (mid ++ [']']) := by
  induction mid with
  | nil => simp [matchRest, matchRest_none_of_not_mem post h]
  | cons c cs ih => simp [matchRest, ih]

theorem jsonMatch_span (before mid post : Str) (hpre : '[' ∉ before) (hpost : ']' ∉ post) :
    jsonMatch (before ++ '[' :: (mid ++ ']' :: post)) = some ('[' :: (mid ++ [']'])) := by
  induction before with
  | nil => simp [jsonMatch, matchRest_span mid post hpost]
  | cons c cs ih =>
    have hc : c ≠ '[' := fun e => hpre (e ▸ List.mem_cons_self _ _)
    have hcs : '[' ∉ cs := fun m => hpre (List.mem_cons_of_mem _ m)
    simp [jsonMatch, hc, ih hcs]

theorem split_at_last (x : Char) (l : Str) (h : x ∈ l) :
    ∃ mid post, l = mid ++ x :: post ∧ x ∉ post := by
  induction l with
  | nil => cases h
  | cons c cs ih =>
    by_cases hx : x ∈ cs
    · obtain ⟨mid, post, e, hn⟩ := ih hx
      exact ⟨c :: mid, post, by rw [e]; rfl, hn⟩
    · have hc : x = c := by
        rcases List.mem_cons.mp h with e | e
        · exact e
        · exact absurd e hx
      exact ⟨[], cs, by rw [hc]; rfl, hx⟩

/-- A text with a `[` and a later `]` splits at its first `[` and its last `]`. -/
theorem widest_split (s : Str) (h : ∃ a b c : Str, s = a ++ '[' :: (b ++ ']' :: c)) :
    ∃ before mid post : Str,
      s = before ++ '[' :: (mid ++ ']' :: post) ∧ '[' ∉ before ∧ ']' ∉ post := by
  obtain ⟨a, b, c, rfl⟩ := h
  induction a with
  | nil =>
    obtain ⟨mid, post, e, hn⟩ := split_at_last ']' (b ++ ']' :: c) (by simp)
    exact ⟨[], mid, post, by rw [e, List.nil_append], List.not_mem_nil _, hn⟩
  | cons x xs ih =>
    by_cases hx : x = '['
    · obtain ⟨mid, post, e, hn⟩ := split_at_last ']' (xs ++ '[' :: (b ++ ']' :: c)) (by simp)
      exact ⟨[], mid, post, by rw [hx, List.cons_append, e, List.nil_append],
        List.not_mem_nil _, hn⟩
    · obtain ⟨before, mid, post, e, hb, hp⟩ := ih
      refine ⟨x :: before, mid, post, by rw [List.cons_append, e]; rfl, ?_, hp⟩
      intro hm
      rcases List.mem_cons.mp hm with e' | e'
      · exact hx e'.symm
      · exact hb e'

theorem brackets_of_jsonMatch_some (s m : Str) (h : jsonMatch s = some m) :
    ∃ a b c : Str, s = a ++ '[' :: (b ++ ']' :: c) := by
  induction s with
  | nil => simp [jsonMatch] at h
  | cons x xs ih =>
    by_cases hx : x = '['
    · cases hr : matchRest xs with
      | some r =>
        obtain ⟨b, c, e⟩ := List.append_of_mem (mem_of_matchRest_some xs r hr)
        exact ⟨[], b, c, by rw [hx, e]; rfl⟩
      | none =>
        simp only [jsonMatch, hx, if_true, hr] at h
        obtain ⟨a, b, c, e⟩ := ih h
        exact ⟨'[' :: a, b, c, by rw [hx, e]; rfl⟩
    · simp only [jsonMatch, hx, if_false] at h
      obtain ⟨a, b, c, e⟩ := ih h
      exact ⟨x :: a, b, c, by rw [e]; rfl⟩

theorem jsonMatch_none_of_no_brackets (s : Str)
    (h : ¬ ∃ a b c : Str, s = a ++ '[' :: (b ++ ']' :: c)) : jsonMatch s = none := by
  cases hm : jsonMatch s with
  | none => rfl
  | some m => exact absurd (brackets_of_jsonMatch_some s m hm) h

/-! ## From the inference call to the extraction -/

theorem generateFlashcards_of_reply (cfg : Config) (post : Endpoint) (response : Str)
    (doc : Option Str) (count : Nat) (hpost : ∀ r, post r = .ok response) :
    generateFlashcards cfg post doc count
      = match extractFlashcards response count with
        | .ok cards => .ok cards
        | .error _ => .error "Failed to generate flashcards. Please try again." := by
  simp [generateFlashcards, generateFlashcardsTry, generateResponse, hpost]

theorem generateQuiz_of_reply (cfg : Config) (post : Endpoint) (response : Str)
    (doc : Option Str) (questionCount : Nat) (hpost : ∀ r, post r = .ok response) :
    generateQuiz cfg post doc questionCount
      = match extractQuiz response questionCount with
        | .ok questions => .ok questions
        | .error _ => .error "Failed to generate quiz. Please try again." := by
  simp [generateQuiz, generateQuizTry, generateResponse, hpost]

/-! ## Truncation -/

/-- C10: a text longer than `max` is cut to its first `max` characters followed
by the marker `...`, so the result has length `max + 3`. -/
theorem C10_truncateText_long (text : Str) (max : Nat) (h : max < text.length) :
    truncateText (some text) (some max) = text.take max ++ "...".toList ∧
    (truncateText (some text) (some max)).length = max + 3 := by
  have hne : text ≠ [] := by
    intro e
    rw [e] at h
    exact Nat.not_lt_zero _ h
  have hlen : ¬ text.length ≤ max := Nat.not_le.mpr h
  have heq : truncateText (some text) (some max) = text.take max ++ "...".toList := by
    simp [truncateText, hne, hlen]
  refine ⟨heq, ?_⟩
  rw [heq, List.length_append, List.length_take, Nat.min_eq_left (Nat.le_of_lt h)]
  rfl

/-- C10 (witness): `truncateText("abcdef", 3)` is `abc...`. -/
theorem C10_truncateText_long_witness :
    truncateText (some "abcdef".toList) (some 3) = "abcdef".toList.take 3 ++ "...".toList ∧
    (truncateText (some "abcdef".toList) (some 3)).length = 3 + 3 :=
  C10_truncateText_long "abcdef".toList 3 (by decide)

/-! ## Extraction of the bracketed span -/

/-- C7: when the raw text has a `[` with a `]` somewhere after it, the text
matched by the pattern, which is what both `generateFlashcards` and
`generateQuiz` pass to `JSON.parse`, starts at the first `[` of the text (no
`[` before it) and ends at the last `]` of the text (no `]` after it). -/
theorem C7_widest_bracket_span (response : Str)
    (h : ∃ a b c : Str, response = a ++ '[' :: (b ++ ']' :: c)) :
    ∃ before mid post : Str,
      response = before ++ ('[' :: (mid ++ [']'])) ++ post ∧
      '[' ∉ before ∧ ']' ∉ post ∧
      jsonMatch response = some ('[' :: (mid ++ [']'])) ∧
      (∀ count, extractFlashcards response count
        = flashcardsFromJson ('[' :: (mid ++ [']'])) count) ∧
      (∀ questionCount, extractQuiz response questionCount
        = quizFromJson ('[' :: (mid ++ [']'])) questionCount) := by
  obtain ⟨before, mid, post, e, hb, hp⟩ := widest_split response h
  have hm : jsonMatch response = some ('[' :: (mid ++ [']'])) := by
    rw [e]
    exact jsonMatch_span before mid post hb hp
  refine ⟨before, mid, post, ?_, hb, hp, hm, ?_, ?_⟩
  · rw [e]
    simp
  · intro count
    simp [extractFlashcards, hm]
  · intro questionCount
    simp [extractQuiz, hm]

/-- C7 (witness): in `a [1] b [2] c` the matched span is `[1] b [2]`. -/
theorem C7_widest_bracket_span_witness :
    ∃ before mid post : Str,
      "a [1] b [2] c".toList = before ++ ('[' :: (mid ++ [']'])) ++ post ∧
      '[' ∉ before ∧ ']' ∉ post ∧
      jsonMatch "a [1] b [2] c".toList = some ('[' :: (mid ++ [']'])) ∧
      (∀ count, extractFlashcards "a [1] b [2] c".toList count
        = flashcardsFromJson ('[' :: (mid ++ [']'])) count) ∧
      (∀ questionCount, extractQuiz "a [1] b [2] c".toList questionCount
        = quizFromJson ('[' :: (mid ++ [']'])) questionCount) :=
  C7_widest_bracket_span "a [1] b [2] c".toList
    ⟨"a ".toList, "1".toList, " b [2] c".toList, by decide⟩

/-- C8 (counterexample): with the prose `See [1]: ` in front of the valid
array `[]`, the matched span is `[1]: []`, which is not JSON: extraction fails,
although parsing `[]` alone gives the empty array. -/
theorem C8_counterexample_bracket_in_prose :
    JSON.parse "[]".toList = some (.arr []) ∧
    jsonMatch ("See [1]: ".toList ++ "[]".toList ++ []) = some "[1]: []".toList ∧
    JSON.parse "[1]: []".toList = none ∧
    generateFlashcards defaultConfig (replyWith ("See [1]: ".toList ++ "[]".toList ++ [])) none 5
      = .error "Failed to generate flashcards. Please try again." ∧
    generateFlashcards defaultConfig (replyWith "[]".toList) none 5 = .ok [] := by
  refine ⟨rfl, by decide, rfl, rfl, rfl⟩

/-- C8 (amended): for a JSON array text `A` that starts with `[` and ends with
`]`, prose `P` before it that contains no `[` and text `S` after it that
contains no `]`, the span extracted from `P + A + S` is `A` itself, so the
parsed array, and the flashcards built from it, are those of `A` alone. -/
theorem C8_extraction_ignores_prose (P A S mid : Str) (items : List JVal)
    (cfg : Config) (post : Endpoint) (doc : Option Str) (count : Nat)
    (hA : A = '[' :: (mid ++ [']'])) (hvalid : JSON.parse A = some (.arr items))
    (hP : '[' ∉ P) (hS : ']' ∉ S) (hpost : ∀ r, post r = .ok (P ++ A ++ S)) :
    jsonMatch (P ++ A ++ S) = some A ∧
    (jsonMatch (P ++ A ++ S)).bind JSON.parse = JSON.parse A ∧
    extractFlashcards (P ++ A ++ S) count = mapFlashcards (items.take count) ∧
    generateFlashcards cfg post doc count
      = match mapFlashcards (items.take count) with
        | .ok cards => .ok cards
        | .error _ => .error "Failed to generate flashcards. Please try again." := by
  have hm : jsonMatch (P ++ A ++ S) = some A := by
    rw [hA]
    have := jsonMatch_span P mid S hP hS
    simpa using this
  have he : extractFlashcards (P ++ A ++ S) count = mapFlashcards (items.take count) := by
    simp only [extractFlashcards, hm, flashcardsFromJson, hvalid]
  refine ⟨hm, by rw [hm]; rfl, he, ?_⟩
  rw [generateFlashcards_of_reply cfg post (P ++ A ++ S) doc count hpost, he]

/-- C9: when the raw text has no `[` followed by a later `]`, or when its
matched span is not valid JSON, `generateFlashcards` and `generateQuiz` both
fail and return no records. -/
theorem C9_no_span_or_bad_json_fails (cfg : Config) (post : Endpoint) (doc : Option Str)
    (count questionCount : Nat) (response : Str) (hpost : ∀ r, post r = .ok response)
    (h : (¬ ∃ a b c : Str, response = a ++ '[' :: (b ++ ']' :: c)) ∨
         (∃ m, jsonMatch response = some m ∧ JSON.parse m = none)) :
    generateFlashcards cfg post doc count
      = .error "Failed to generate flashcards. Please try again." ∧
    generateQuiz cfg post doc questionCount
      = .error "Failed to generate quiz. Please try again." := by
  rw [generateFlashcards_of_reply cfg post response doc count hpost,
    generateQuiz_of_reply cfg post response doc questionCount hpost]
  rcases h with h | ⟨m, hm, hp⟩
  · have hn := jsonMatch_none_of_no_brackets response h
    simp [extractFlashcards, extractQuiz, hn]
  · simp [extractFlashcards, extractQuiz, hm, flashcardsFromJson, quizFromJson, hp]

/-- C9 (witness): the reply `Sorry [1,]` has the span `[1,]`, which is not JSON. -/
theorem C9_no_span_or_bad_json_fails_witness :
    generateFlashcards defaultConfig (replyWith "Sorry [1,]".toList) none 5
      = .error "Failed to generate flashcards. Please try again." ∧
    generateQuiz defaultConfig (replyWith "Sorry [1,]".toList) none 5
      = .error "Failed to generate quiz. Please try again." :=
  C9_no_span_or_bad_json_fails defaultConfig (replyWith "Sorry [1,]".toList) none 5 5
    "Sorry [1,]".toList (fun _ => rfl) (Or.inr ⟨"[1,]".toList, by decide, rfl⟩)

/-! ## `JSON.parse` never yields NaN -/

theorem ofFrac_ne_nan (neg : Bool) (x : Frac) : JsNum.ofFrac neg x ≠ .nan := by
  unfold JsNum.ofFrac
  simp only
  split <;> exact JsNum.noConfusion

theorem parseNumber_ne_nan (s : Str) (n : JsNum) (r : Str) (h : parseNumber s = some (n, r)) :
    n ≠ .nan := by
  unfold parseNumber at h
  simp only at h
  split at h
  · exact Option.noConfusion h
  · split at h
    · exact Option.noConfusion h
    · split at h
      · exact Option.noConfusion h
      · simp only [Option.some.injEq, Prod.mk.injEq] at h
        rw [← h.1]
        exact ofFrac_ne_nan _ _

theorem noNaN_append (acc : List JVal) (v : JVal) (hacc : ∀ x ∈ acc, NoNaN x) (hv : NoNaN v) :
    ∀ x ∈ acc ++ [v], NoNaN x := by
  intro x hx
  rcases List.mem_append.mp hx with h | h
  · exact hacc x h
  · rw [List.mem_singleton.mp h]
    exact hv

theorem noNaN_append_field (acc : List (Str × JVal)) (k : Str) (v : JVal)
    (hacc : ∀ p ∈ acc, NoNaN p.2) (hv : NoNaN v) : ∀ p ∈ acc ++ [(k, v)], NoNaN p.2 := by
  intro p hp
  rcases List.mem_append.mp hp with h | h
  · exact hacc p h
  · rw [List.mem_singleton.mp h]
    exact hv

theorem parse_noNaN_aux (fuel : Nat) :
    (∀ s v r, parseValue fuel s = some (v, r) → NoNaN v) ∧
    (∀ s acc v r, (∀ x ∈ acc, NoNaN x) → parseElements fuel s acc = some (v, r) → NoNaN v) ∧
    (∀ s acc v r, (∀ p ∈ acc, NoNaN p.2) → parseMembers fuel s acc = some (v, r) → NoNaN v) := by
  induction fuel with
  | zero =>
    refine ⟨?_, ?_, ?_⟩
    · intro s v r h
      simp [parseValue] at h
    · intro s acc v r _ h
      simp [parseElements] at h
    · intro s acc v r _ h
      simp [parseMembers] at h
  | succ fuel ih =>
    obtain ⟨ihV, ihE, ihM⟩ := ih
    refine ⟨?_, ?_, ?_⟩
    · intro s v r h
      unfold parseValue at h
      split at h
      · simp only [Option.some.injEq, Prod.mk.injEq] at h
        rw [← h.1]; exact NoNaN.null
      · simp only [Option.some.injEq, Prod.mk.injEq] at h
        rw [← h.1]; exact NoNaN.bool _
      · simp only [Option.some.injEq, Prod.mk.injEq] at h
        rw [← h.1]; exact NoNaN.bool _
      · simp only [Option.map_eq_some', Prod.mk.injEq] at h
        obtain ⟨a, -, h1, -⟩ := h
        rw [← h1]; exact NoNaN.str _
      · split at h
        · simp only [Option.some.injEq, Prod.mk.injEq] at h
          rw [← h.1]
          exact NoNaN.arr _ (fun x hx => absurd hx (List.not_mem_nil _))
        · split at h
          · exact Option.noConfusion h
          · rename_i v0 r0 hv0
            refine ihE _ _ _ _ ?_ h
            intro x hx
            rw [List.mem_singleton.mp hx]
            exact ihV _ _ _ hv0
      · split at h
        · simp only [Option.some.injEq, Prod.mk.injEq] at h
          rw [← h.1]
          exact NoNaN.obj _ (fun x hx => absurd hx (List.not_mem_nil _))
        · exact ihM _ _ _ _ (fun x hx => absurd hx (List.not_mem_nil _)) h
      · simp only [Option.map_eq_some', Prod.mk.injEq] at h
        obtain ⟨a, ha, h1, -⟩ := h
        rw [← h1]
        exact NoNaN.num _ (parseNumber_ne_nan _ _ _ ha)
    · intro s acc v r hacc h
      unfold parseElements at h
      split at h
      · simp only [Option.some.injEq, Prod.mk.injEq] at h
        rw [← h.1]
        exact NoNaN.arr _ hacc
      · split at h
        · exact Option.noConfusion h
        · rename_i v0 r0 hv0
          exact ihE _ _ _ _ (noNaN_append acc v0 hacc (ihV _ _ _ hv0)) h
      · exact Option.noConfusion h
    · intro s acc v r hacc h
      unfold parseMembers at h
      split at h
      · split at h
        · exact Option.noConfusion h
        · split at h
          · split at h
            · exact Option.noConfusion h
            · rename_i v0 r0 hv0
              split at h
              · exact ihM _ _ _ _ (noNaN_append_field acc _ v0 hacc (ihV _ _ _ hv0)) h
              · simp only [Option.some.injEq, Prod.mk.injEq] at h
                rw [← h.1]
                exact NoNaN.obj _ (noNaN_append_field acc _ v0 hacc (ihV _ _ _ hv0))
              · exact Option.noConfusion h
          · exact Option.noConfusion h
      · exact Option.noConfusion h

theorem parse_noNaN (text : Str) (v : JVal) (h : JSON.parse text = some v) : NoNaN v := by
  unfold JSON.parse at h
  split at h
  · exact Option.noConfusion h
  · rename_i v0 r0 hv0
    split at h
    · simp only [Option.some.injEq] at h
      rw [← h]
      exact (parse_noNaN_aux _).1 _ _ _ hv0
    · exact Option.noConfusion h

/-! ## Element conversion and validation -/

theorem getProp_of_ne_null (card : JVal) (key : String) (h : card ≠ .null) :
    card.getProp key.toList = .ok (field key card) := by
  cases card <;> first | exact absurd rfl h | rfl

theorem toFlashcard_of_ne_null (card : JVal) (h : card ≠ .null) :
    toFlashcard card
      = .ok { question := JVal.orElse (field "question" card) [],
              answer := JVal.orElse (field "answer" card) [] } := by
  unfold toFlashcard
  rw [getProp_of_ne_null card "question" h, getProp_of_ne_null card "answer" h]

theorem coerced_orElse (src : Option JVal) : coerced src (JVal.orElse src []) := by
  refine ⟨?_, ?_, ?_⟩
  · intro h
    rw [h]
    rfl
  · intro v h ht
    rw [h]
    simp [JVal.orElse, ht]
  · intro v h ht
    rw [h]
    simp [JVal.orElse, ht]

theorem mapFlashcards_length (l : List JVal) (rs : List FlashcardRecord)
    (h : mapFlashcards l = .ok rs) : rs.length = l.length := by
  induction l generalizing rs with
  | nil =>
    simp only [mapFlashcards, Except.ok.injEq] at h
    subst h
    rfl
  | cons c cs ih =>
    unfold mapFlashcards at h
    split at h
    · exact Except.noConfusion h
    · split at h
      · exact Except.noConfusion h
      · rename_i r _ rs0 hrs
        simp only [Except.ok.injEq] at h
        rw [← h, List.length_cons, List.length_cons, ih rs0 hrs]

theorem mapFlashcards_ok (l : List JVal) (h : ∀ c ∈ l, c ≠ .null) :
    ∃ rs, mapFlashcards l = .ok rs ∧
      ∀ (i : Nat) (card : JVal), l[i]? = some card → ∃ r : FlashcardRecord, rs[i]? = some r ∧
        coerced (field "question" card) r.question ∧ coerced (field "answer" card) r.answer := by
  induction l with
  | nil =>
    refine ⟨[], rfl, ?_⟩
    intro i card hi
    simp at hi
  | cons c cs ih =>
    obtain ⟨rs, hrs, hall⟩ := ih (fun x hx => h x (List.mem_cons_of_mem _ hx))
    have hc := toFlashcard_of_ne_null c (h c (List.mem_cons_self _ _))
    refine ⟨{ question := JVal.orElse (field "question" c) [],
              answer := JVal.orElse (field "answer" c) [] } :: rs,
      by simp only [mapFlashcards, hc, hrs], ?_⟩
    intro i card hi
    cases i with
    | zero =>
      simp only [List.getElem?_cons_zero, Option.some.injEq] at hi
      subst hi
      exact ⟨{ question := JVal.orElse (field "question" c) [],
               answer := JVal.orElse (field "answer" c) [] },
        List.getElem?_cons_zero, coerced_orElse _, coerced_orElse _⟩
    | succ j =>
      simp only [List.getElem?_cons_succ] at hi
      simpa using hall j card hi

theorem validateQuestions_length (l : List JVal) (idx : Nat) (rs : List QuizQuestionRecord)
    (h : validateQuestions l idx = .ok rs) : rs.length = l.length := by
  induction l generalizing rs idx with
  | nil =>
    simp only [validateQuestions, Except.ok.injEq] at h
    subst h
    rfl
  | cons c cs ih =>
    unfold validateQuestions at h
    split at h
    · exact Except.noConfusion h
    · split at h
      · exact Except.noConfusion h
      · rename_i r _ rs0 hrs
        simp only [Except.ok.injEq] at h
        rw [← h, List.length_cons, List.length_cons, ih _ rs0 hrs]

theorem checks_of_inRange03 (n : JsNum) (h : inRange03 n) :
    (n.ltNat 0 || n.gtNat 3) = false := by
  cases n with
  | fin neg x =>
    cases neg with
    | false =>
      have h' : x.num ≤ 3 * x.den := h
      simp [JsNum.ltNat, JsNum.gtNat, h']
    | true =>
      have h' : x.num = 0 := h
      simp [JsNum.ltNat, JsNum.gtNat, h']
  | inf s => exact absurd h id
  | nan => exact absurd h id

theorem inRange03_of_checks (n : JsNum) (hn : n ≠ .nan)
    (h : (n.ltNat 0 || n.gtNat 3) = false) : inRange03 n := by
  cases n with
  | fin neg x =>
    cases neg with
    | false =>
      simp only [JsNum.ltNat, JsNum.gtNat, Bool.or_eq_false_iff, decide_eq_false_iff_not] at h
      exact Nat.le_of_not_lt h.2
    | true =>
      simp only [JsNum.ltNat, JsNum.gtNat, Bool.or_eq_false_iff, decide_eq_false_iff_not] at h
      show x.num = 0
      have := h.1
      omega
  | inf s => cases s <;> simp [JsNum.ltNat, JsNum.gtNat] at h
  | nan => exact absurd rfl hn

theorem validateQuestion_ok (q : JVal) (idx : Nat) (h : validQuestion q) :
    ∃ r, validateQuestion q idx = .ok r := by
  obtain ⟨hq, ⟨options, ho, hlen⟩, ⟨n, hn, hr⟩⟩ := h
  cases q with
  | obj fields =>
    simp only [field] at ho hn
    have hq' : JVal.truthy (JVal.lookup "question".toList fields) = true := hq
    cases hqv : JVal.lookup "question".toList fields with
    | none =>
      rw [hqv] at hq'
      exact absurd hq' (by simp [JVal.truthy])
    | some qv =>
      rw [hqv] at hq'
      refine ⟨{ question := qv, options := options, correctAnswer := n,
                explanation := JVal.orElse (JVal.lookup "explanation".toList fields)
                  "No explanation provided.".toList }, ?_⟩
      simp only [validateQuestion, hqv, hq', ho, hn, hlen, checks_of_inRange03 n hr]
      rfl
  | null => simp [field] at ho
  | bool b => simp [field] at ho
  | num m => simp [field] at ho
  | str s => simp [field] at ho
  | arr xs => simp [field] at ho

theorem validateQuestions_ok (l : List JVal) (idx : Nat) (h : ∀ q ∈ l, validQuestion q) :
    ∃ rs, validateQuestions l idx = .ok rs := by
  induction l generalizing idx with
  | nil => exact ⟨[], rfl⟩
  | cons c cs ih =>
    obtain ⟨r, hr⟩ := validateQuestion_ok c idx (h c (List.mem_cons_self _ _))
    obtain ⟨rs, hrs⟩ := ih (idx + 1) (fun x hx => h x (List.mem_cons_of_mem _ hx))
    exact ⟨r :: rs, by simp only [validateQuestions, hr, hrs]⟩

theorem lookup_mem (key : Str) (fields : List (Str × JVal)) (v : JVal)
    (h : JVal.lookup key fields = some v) : ∃ k, (k, v) ∈ fields := by
  induction fields with
  | nil => simp [JVal.lookup] at h
  | cons p rest ih =>
    obtain ⟨k, w⟩ := p
    unfold JVal.lookup at h
    split at h
    · rename_i w0 hw0
      simp only [Option.some.injEq] at h
      subst h
      obtain ⟨k0, hk0⟩ := ih hw0
      exact ⟨k0, List.mem_cons_of_mem _ hk0⟩
    · split at h
      · simp only [Option.some.injEq] at h
        subst h
        exact ⟨k, List.mem_cons_self _ _⟩
      · exact Option.noConfusion h

/-- What a record returned by the validation callback says about its element. -/
theorem validateQuestion_sound (q : JVal) (idx : Nat) (r : QuizQuestionRecord)
    (h : validateQuestion q idx = .ok r) :
    field "question" q = some r.question ∧ JVal.truthy (some r.question) = true ∧
    field "options" q = some (.arr r.options) ∧ r.options.length = 4 ∧
    field "correctAnswer" q = some (.num r.correctAnswer) ∧
    (r.correctAnswer.ltNat 0 || r.correctAnswer.gtNat 3) = false ∧
    r.explanation = JVal.orElse (field "explanation" q) "No explanation provided.".toList := by
  cases q with
  | obj fields =>
    unfold validateQuestion at h
    simp only at h
    split at h
    · exact Except.noConfusion h
    · rename_i htruthy
      split at h
      · rename_i qv options hqv hopt
        split at h
        · exact Except.noConfusion h
        · rename_i hlen
          split at h
          · rename_i n hn
            split at h
            · exact Except.noConfusion h
            · rename_i hchk
              simp only [Except.ok.injEq] at h
              subst h
              simp only [field]
              refine ⟨hqv, ?_, hopt, ?_, hn, ?_, trivial⟩
              · rw [← hqv]
                simpa using htruthy
              · simpa using hlen
              · simpa using hchk
          · exact Except.noConfusion h
      · exact Except.noConfusion h
  | null => exact Except.noConfusion h
  | bool b => exact Except.noConfusion h
  | num m => exact Except.noConfusion h
  | str s => exact Except.noConfusion h
  | arr xs => exact Except.noConfusion h

theorem validateQuestion_valid (q : JVal) (idx : Nat) (r : QuizQuestionRecord)
    (hq : NoNaN q) (h : validateQuestion q idx = .ok r) : validQuestion q := by
  obtain ⟨h1, h2, h3, h4, h5, h6, -⟩ := validateQuestion_sound q idx r h
  refine ⟨?_, ⟨r.options, h3, h4⟩, ⟨r.correctAnswer, h5, ?_⟩⟩
  · unfold hasQuestion
    rw [h1]
    exact h2
  · apply inRange03_of_checks _ _ h6
    cases q with
    | obj fields =>
      obtain ⟨k, hk⟩ := lookup_mem _ fields _ h5
      cases hq with
      | obj _ hall =>
        have hv := hall (k, .num r.correctAnswer) hk
        cases hv with
        | num _ hne => exact hne
    | null => simp [field] at h5
    | bool b => simp [field] at h5
    | num m => simp [field] at h5
    | str s => simp [field] at h5
    | arr xs => simp [field] at h5

theorem validateQuestions_mem (l : List JVal) (idx : Nat) (rs : List QuizQuestionRecord)
    (h : validateQuestions l idx = .ok rs) :
    ∀ q ∈ l, ∃ (i : Nat) (r : QuizQuestionRecord), r ∈ rs ∧ validateQuestion q i = .ok r := by
  induction l generalizing rs idx with
  | nil =>
    intro q hq
    cases hq
  | cons c cs ih =>
    unfold validateQuestions at h
    split at h
    · exact Except.noConfusion h
    · rename_i r hr
      split at h
      · exact Except.noConfusion h
      · rename_i rs0 hrs
        simp only [Except.ok.injEq] at h
        subst h
        intro q hq
        rcases List.mem_cons.mp hq with e | e
        · subst e
          exact ⟨idx, r, List.mem_cons_self _ _, hr⟩
        · obtain ⟨i, r', hm, hv⟩ := ih _ rs0 hrs q e
          exact ⟨i, r', List.mem_cons_of_mem _ hm, hv⟩

theorem validateQuestions_records (l : List JVal) (idx : Nat) (rs : List QuizQuestionRecord)
    (h : validateQuestions l idx = .ok rs) :
    ∀ r ∈ rs, ∃ (q : JVal) (i : Nat), q ∈ l ∧ validateQuestion q i = .ok r := by
  induction l generalizing rs idx with
  | nil =>
    simp only [validateQuestions, Except.ok.injEq] at h
    subst h
    intro r hr
    cases hr
  | cons c cs ih =>
    unfold validateQuestions at h
    split at h
    · exact Except.noConfusion h
    · rename_i r0 hr0
      split at h
      · exact Except.noConfusion h
      · rename_i rs0 hrs
        simp only [Except.ok.injEq] at h
        subst h
        intro r hr
        rcases List.mem_cons.mp hr with e | e
        · subst e
          exact ⟨c, idx, List.mem_cons_self _ _, hr0⟩
        · obtain ⟨q, i, hm, hv⟩ := ih _ rs0 hrs r e
          exact ⟨q, i, List.mem_cons_of_mem _ hm, hv⟩

theorem noNaN_items (items : List JVal) (h : NoNaN (.arr items)) : ∀ x ∈ items, NoNaN x := by
  cases h with
  | arr _ hall => exact hall

/-! ## Quiz validation -/

theorem generateQuiz_of_items (cfg : Config) (post : Endpoint) (doc : Option Str)
    (questionCount : Nat) (response matched : Str) (items : List JVal)
    (hpost : ∀ r, post r = .ok response) (hmatch : jsonMatch response = some matched)
    (hparse : JSON.parse matched = some (.arr items)) :
    generateQuiz cfg post doc questionCount
      = match validateQuestions (items.take questionCount) 0 with
        | .ok questions => .ok questions
        | .error _ => .error "Failed to generate quiz. Please try again." := by
  rw [generateQuiz_of_reply cfg post response doc questionCount hpost]
  simp only [extractQuiz, hmatch, quizFromJson, hparse]

theorem generateFlashcards_of_items (cfg : Config) (post : Endpoint) (doc : Option Str)
    (count : Nat) (response matched : Str) (items : List JVal)
    (hpost : ∀ r, post r = .ok response) (hmatch : jsonMatch response = some matched)
    (hparse : JSON.parse matched = some (.arr items)) :
    generateFlashcards cfg post doc count
      = match mapFlashcards (items.take count) with
        | .ok cards => .ok cards
        | .error _ => .error "Failed to generate flashcards. Please try again." := by
  rw [generateFlashcards_of_reply cfg post response doc count hpost]
  simp only [extractFlashcards, hmatch, flashcardsFromJson, hparse]

/-- C3 (counterexample): the model returns two elements, the second with only
three options, and one question is requested: `generateQuiz` succeeds with one
question, because the second element is cut off before validation. -/
theorem C3_counterexample_invalid_beyond_count :
    (jsonMatch rawGoodThenBad).bind JSON.parse = some (.arr [goodQuestion, threeOptions]) ∧
    ¬ hasFourOptions threeOptions ∧
    ∃ r : QuizQuestionRecord,
      generateQuiz defaultConfig (replyWith rawGoodThenBad) none 1 = .ok [r] := by
  refine ⟨rfl, ?_, _, rfl⟩
  rintro ⟨options, ho, hl⟩
  have e : field "options" threeOptions
      = some (.arr [.str "a".toList, .str "b".toList, .str "c".toList]) := rfl
  rw [e] at ho
  simp only [Option.some.injEq, JVal.arr.injEq] at ho
  rw [← ho] at hl
  exact absurd hl (by decide)

/-- C3 (amended): when one of the first `questionCount` elements of the parsed
model output has an `options` that is not a sequence of exactly 4 entries, or a
`correctAnswer` that is not a number in [0,3], `generateQuiz` fails as a whole
and returns no questions, whatever the other elements are. -/
theorem C3_invalid_element_fails (cfg : Config) (post : Endpoint) (doc : Option Str)
    (questionCount : Nat) (response matched : Str) (items : List JVal) (i : Nat) (q : JVal)
    (hpost : ∀ r, post r = .ok response) (hmatch : jsonMatch response = some matched)
    (hparse : JSON.parse matched = some (.arr items))
    (hi : i < questionCount) (hq : items[i]? = some q)
    (hbad : ¬ hasFourOptions q ∨ ¬ hasAnswerInRange q) :
    generateQuiz cfg post doc questionCount
      = .error "Failed to generate quiz. Please try again." := by
  rw [generateQuiz_of_items cfg post doc questionCount response matched items hpost hmatch hparse]
  cases hv : validateQuestions (items.take questionCount) 0 with
  | error e => rfl
  | ok rs =>
    exfalso
    have hmem : q ∈ items.take questionCount := by
      have hget : (items.take questionCount)[i]? = some q := by
        rw [List.getElem?_take_of_lt hi]
        exact hq
      exact List.getElem?_mem hget
    have hnn : NoNaN q :=
      noNaN_items items (parse_noNaN matched _ hparse) q (List.mem_of_mem_take hmem)
    obtain ⟨j, r, -, hr⟩ := validateQuestions_mem _ 0 rs hv q hmem
    obtain ⟨-, h4, ha⟩ := validateQuestion_valid q j r hnn hr
    rcases hbad with h | h
    · exact h h4
    · exact h ha

/-- C3 (witness): the same two elements with two questions requested. -/
theorem C3_invalid_element_fails_witness :
    generateQuiz defaultConfig (replyWith rawGoodThenBad) none 2
      = .error "Failed to generate quiz. Please try again." :=
  C3_invalid_element_fails defaultConfig (replyWith rawGoodThenBad) none 2 rawGoodThenBad
    rawGoodThenBad [goodQuestion, threeOptions] 1 threeOptions (fun _ => rfl) (by decide) rfl
    (by decide) rfl
    (Or.inl (by
      rintro ⟨options, ho, hl⟩
      have e : field "options" threeOptions
          = some (.arr [.str "a".toList, .str "b".toList, .str "c".toList]) := rfl
      rw [e] at ho
      simp only [Option.some.injEq, JVal.arr.injEq] at ho
      rw [← ho] at hl
      exact absurd hl (by decide)))

/-- C4 (failing input): for the model output whose single element has
`correctAnswer` 1.5, `generateQuiz` returns a record with four options whose
`correctAnswer` is the Number 1.5: it passes the range check but is not an
integer, so it is no index into `options`. -/
theorem C4_fractional_answer_accepted :
    ∃ r : QuizQuestionRecord,
      generateQuiz defaultConfig (replyWith rawFractionalAnswer) none 5 = .ok [r] ∧
      r.options.length = 4 ∧
      r.correctAnswer.strictEq (.fin false ⟨3, 2⟩) = true ∧
      r.correctAnswer.isInteger = false := by
  refine ⟨_, rfl, by decide, by decide, by decide⟩

/-! ## Result lengths -/

theorem goodQuestion_valid : validQuestion goodQuestion :=
  ⟨rfl, ⟨_, rfl, rfl⟩, ⟨_, rfl, Nat.zero_le _⟩⟩

theorem generateFlashcards_length_le (cfg : Config) (post : Endpoint) (doc : Option Str)
    (count : Nat) (cards : List FlashcardRecord)
    (h : generateFlashcards cfg post doc count = .ok cards) : cards.length ≤ count := by
  unfold generateFlashcards at h
  split at h
  · rename_i cards0 htry
    simp only [Except.ok.injEq] at h
    subst h
    unfold generateFlashcardsTry at htry
    simp only at htry
    split at htry
    · exact Except.noConfusion htry
    · unfold extractFlashcards at htry
      split at htry
      · exact Except.noConfusion htry
      · unfold flashcardsFromJson at htry
        split at htry
        · exact Except.noConfusion htry
        · rw [mapFlashcards_length _ _ htry]
          exact List.length_take_le _ _
        · exact Except.noConfusion htry
  · exact Except.noConfusion h

theorem generateQuiz_length_le (cfg : Config) (post : Endpoint) (doc : Option Str)
    (questionCount : Nat) (questions : List QuizQuestionRecord)
    (h : generateQuiz cfg post doc questionCount = .ok questions) :
    questions.length ≤ questionCount := by
  unfold generateQuiz at h
  split at h
  · rename_i questions0 htry
    simp only [Except.ok.injEq] at h
    subst h
    unfold generateQuizTry at htry
    simp only at htry
    split at htry
    · exact Except.noConfusion htry
    · unfold extractQuiz at htry
      split at htry
      · exact Except.noConfusion htry
      · unfold quizFromJson at htry
        split at htry
        · exact Except.noConfusion htry
        · rw [validateQuestions_length _ _ _ htry]
          exact List.length_take_le _ _
        · exact Except.noConfusion htry
  · exact Except.noConfusion h

/-- C5 (counterexample): the model returns the number 1 followed by two valid
quiz elements and two questions are requested: the output contains two valid
elements, yet `generateQuiz` fails instead of returning two questions. -/
theorem C5_counterexample_valid_after_invalid :
    (jsonMatch rawBadThenTwoGood).bind JSON.parse
      = some (.arr [.num (.fin false ⟨4503599627370496, 4503599627370496⟩), goodQuestion,
          goodQuestion]) ∧
    validQuestion goodQuestion ∧
    generateQuiz defaultConfig (replyWith rawBadThenTwoGood) none 2
      = .error "Failed to generate quiz. Please try again." :=
  ⟨rfl, goodQuestion_valid, rfl⟩

/-- C5 (amended): a successful `generateFlashcards` or `generateQuiz` call with
requested count `N` returns at most `N` records. When the first `N` elements of
the parsed model output are valid (not `null` for flashcards; a question, four
options and a correct answer in [0,3] for the quiz), the call succeeds with
`min N (number of elements)` records: exactly `N` when the output has at least
`N` elements, and all of them, without error, when it has fewer. -/
theorem C5_result_length (cfg : Config) (post : Endpoint) (doc : Option Str) (N : Nat)
    (response matched : Str) (items : List JVal)
    (hpost : ∀ r, post r = .ok response) (hmatch : jsonMatch response = some matched)
    (hparse : JSON.parse matched = some (.arr items)) :
    (∀ cards, generateFlashcards cfg post doc N = .ok cards → cards.length ≤ N) ∧
    (∀ questions, generateQuiz cfg post doc N = .ok questions → questions.length ≤ N) ∧
    ((∀ c ∈ items.take N, c ≠ .null) →
      ∃ cards, generateFlashcards cfg post doc N = .ok cards ∧
        cards.length = min N items.length) ∧
    ((∀ q ∈ items.take N, validQuestion q) →
      ∃ questions, generateQuiz cfg post doc N = .ok questions ∧
        questions.length = min N items.length) := by
  refine ⟨generateFlashcards_length_le cfg post doc N, generateQuiz_length_le cfg post doc N,
    ?_, ?_⟩
  · intro h
    obtain ⟨rs, hrs, -⟩ := mapFlashcards_ok _ h
    refine ⟨rs, ?_, ?_⟩
    · rw [generateFlashcards_of_items cfg post doc N response matched items hpost hmatch hparse,
        hrs]
    · rw [mapFlashcards_length _ _ hrs, List.length_take]
  · intro h
    obtain ⟨rs, hrs⟩ := validateQuestions_ok _ 0 h
    refine ⟨rs, ?_, ?_⟩
    · rw [generateQuiz_of_items cfg post doc N response matched items hpost hmatch hparse, hrs]
    · rw [validateQuestions_length _ _ _ hrs, List.length_take]

/-- C5 (witness): two elements returned, one requested: one flashcard and one
question come back. -/
theorem C5_result_length_witness :
    (∃ cards, generateFlashcards defaultConfig (replyWith rawGoodThenBad) none 1 = .ok cards ∧
      cards.length = min 1 [goodQuestion, threeOptions].length) ∧
    (∃ questions, generateQuiz defaultConfig (replyWith rawGoodThenBad) none 1 = .ok questions ∧
      questions.length = min 1 [goodQuestion, threeOptions].length) :=
  have h := C5_result_length defaultConfig (replyWith rawGoodThenBad) none 1 rawGoodThenBad
    rawGoodThenBad [goodQuestion, threeOptions] (fun _ => rfl) (by decide) rfl
  ⟨h.2.2.1 (by
      intro c hc
      rw [List.mem_singleton.mp hc]
      exact JVal.noConfusion),
   h.2.2.2 (by
      intro q hq
      rw [List.mem_singleton.mp hq]
      exact goodQuestion_valid)⟩

/-! ## Lenient flashcards -/

/-- C6 (counterexample): the element has a `question` field, the number 0, and
the flashcard returned for it has the empty string as its question: a field
that is present is not always returned unchanged. -/
theorem C6_counterexample_falsy_field :
    (jsonMatch rawZeroQuestion).bind JSON.parse
      = some (.arr [.obj [("question".toList, .num (.fin false ⟨0, 1⟩)),
          ("answer".toList, .str "A".toList)]]) ∧
    generateFlashcards defaultConfig (replyWith rawZeroQuestion) none 1
      = .ok [{ question := .str [], answer := .str "A".toList }] :=
  ⟨rfl, rfl⟩

/-- C6 (amended): when none of the first `count` elements of the parsed model
output is `null`, `generateFlashcards` succeeds and each of these elements
yields a record; in it a field that is missing or falsy (`null`, `false`, `0`,
the empty string) is the empty string, and a truthy field is returned
unchanged. -/
theorem C6_flashcards_lenient (cfg : Config) (post : Endpoint) (doc : Option Str)
    (count : Nat) (response matched : Str) (items : List JVal)
    (hpost : ∀ r, post r = .ok response) (hmatch : jsonMatch response = some matched)
    (hparse : JSON.parse matched = some (.arr items))
    (hnonnull : ∀ c ∈ items.take count, c ≠ .null) :
    ∃ cards, generateFlashcards cfg post doc count = .ok cards ∧
      cards.length = (items.take count).length ∧
      ∀ (i : Nat) (card : JVal), i < count → items[i]? = some card →
        ∃ r : FlashcardRecord, cards[i]? = some r ∧
          coerced (field "question" card) r.question ∧
          coerced (field "answer" card) r.answer := by
  obtain ⟨rs, hrs, hall⟩ := mapFlashcards_ok _ hnonnull
  refine ⟨rs, ?_, mapFlashcards_length _ _ hrs, ?_⟩
  · rw [generateFlashcards_of_items cfg post doc count response matched items hpost hmatch
      hparse, hrs]
  · intro i card hi hc
    apply hall i card
    rw [List.getElem?_take_of_lt hi]
    exact hc

/-- C6 (witness): the flashcard with the number 0 as its question. -/
theorem C6_flashcards_lenient_witness :
    ∃ cards, generateFlashcards defaultConfig (replyWith rawZeroQuestion) none 1 = .ok cards ∧
      cards.length = ([JVal.obj [("question".toList, .num (.fin false ⟨0, 1⟩)),
          ("answer".toList, .str "A".toList)]].take 1).length ∧
      ∀ (i : Nat) (card : JVal), i < 1 →
        [JVal.obj [("question".toList, .num (.fin false ⟨0, 1⟩)),
          ("answer".toList, .str "A".toList)]][i]? = some card →
        ∃ r : FlashcardRecord, cards[i]? = some r ∧
          coerced (field "question" card) r.question ∧
          coerced (field "answer" card) r.answer :=
  C6_flashcards_lenient defaultConfig (replyWith rawZeroQuestion) none 1 rawZeroQuestion
    rawZeroQuestion _ (fun _ => rfl) (by decide) rfl (by
      intro c hc
      rw [List.mem_singleton.mp hc]
      exact JVal.noConfusion)

/-- C8 (witness): the specification's example, a fenced block after a line of
prose, extracts to the array inside the fence. -/
theorem C8_extraction_ignores_prose_witness :
    jsonMatch (fenceIntro ++ fencedArray ++ fenceSuffix) = some fencedArray ∧
    (jsonMatch (fenceIntro ++ fencedArray ++ fenceSuffix)).bind JSON.parse
      = JSON.parse fencedArray ∧
    extractFlashcards (fenceIntro ++ fencedArray ++ fenceSuffix) 10
      = mapFlashcards ([JVal.obj [("question".toList, .str "Q".toList),
          ("answer".toList, .str "A".toList)]].take 10) ∧
    generateFlashcards defaultConfig (replyWith (fenceIntro ++ fencedArray ++ fenceSuffix))
        none 10
      = match mapFlashcards ([JVal.obj [("question".toList, .str "Q".toList),
          ("answer".toList, .str "A".toList)]].take 10) with
        | .ok cards => .ok cards
        | .error _ => .error "Failed to generate flashcards. Please try again." :=
  C8_extraction_ignores_prose fenceIntro fencedArray fenceSuffix
    "\x7b\"question\":\"Q\",\"answer\":\"A\"\x7d".toList _ defaultConfig
    (replyWith (fenceIntro ++ fencedArray ++ fenceSuffix)) none 10 (by decide) rfl
    (by decide) (by decide) (fun _ => rfl)

/-! ## Prompts and parameters of the generation operations -/

theorem generateResponse_relay (cfg : Config) (post : Endpoint) (prompt : Str)
    (options : GenOptions) (htop : options.top_p = none) :
    generateResponse cfg post prompt options
      = relay cfg (post (inferenceRequest cfg prompt (fracOr options.temperature ⟨7, 10⟩)
          (natOr options.max_tokens 2000))) := by
  unfold generateResponse inferenceRequest
  rw [htop]
  simp only [fracOr]
  cases post _ with
  | ok response => rfl
  | error error =>
    simp only [relay, transportMessage]
    split
    · rfl
    · split <;> rfl

theorem truncateText_long (text : Str) (max : Nat) (h : max < text.length) :
    truncateText (some text) (some max) = text.take max ++ "...".toList := by
  have hne : text ≠ [] := by
    intro e
    rw [e] at h
    exact Nat.not_lt_zero _ h
  have hlen : ¬ text.length ≤ max := Nat.not_le.mpr h
  simp [truncateText, hne, hlen]

theorem generateFlashcards_eq (cfg : Config) (post : Endpoint) (doc : Option Str) (count : Nat) :
    generateFlashcards cfg post doc count
      = replaceError "Failed to generate flashcards. Please try again."
          ((relay cfg (post (inferenceRequest cfg
              (flashcardPrompt count (truncateText doc (some 8000))) ⟨7, 10⟩ 3000))).bind
            fun response => extractFlashcards response count) := by
  have hr : generateResponse cfg post (flashcardPrompt count (truncateText doc (some 8000)))
      { temperature := some ⟨7, 10⟩, top_p := none, max_tokens := some 3000 }
      = relay cfg (post (inferenceRequest cfg (flashcardPrompt count (truncateText doc (some 8000)))
          ⟨7, 10⟩ 3000)) := generateResponse_relay cfg post _ _ rfl
  unfold generateFlashcards generateFlashcardsTry
  simp only
  rw [hr]
  generalize relay cfg (post (inferenceRequest cfg (flashcardPrompt count (truncateText doc (some 8000)))
    ⟨7, 10⟩ 3000)) = r
  cases r with
  | error e => rfl
  | ok response =>
    simp only [Except.bind, replaceError]
    cases extractFlashcards response count <;> rfl

theorem generateQuiz_eq (cfg : Config) (post : Endpoint) (doc : Option Str)
    (questionCount : Nat) :
    generateQuiz cfg post doc questionCount
      = replaceError "Failed to generate quiz. Please try again."
          ((relay cfg (post (inferenceRequest cfg
              (quizPrompt questionCount (truncateText doc (some 8000))) ⟨8, 10⟩ 4000))).bind
            fun response => extractQuiz response questionCount) := by
  have hr : generateResponse cfg post (quizPrompt questionCount (truncateText doc (some 8000)))
      { temperature := some ⟨8, 10⟩, top_p := none, max_tokens := some 4000 }
      = relay cfg (post (inferenceRequest cfg (quizPrompt questionCount (truncateText doc (some 8000)))
          ⟨8, 10⟩ 4000)) := generateResponse_relay cfg post _ _ rfl
  unfold generateQuiz generateQuizTry
  simp only
  rw [hr]
  generalize relay cfg (post (inferenceRequest cfg (quizPrompt questionCount (truncateText doc (some 8000)))
    ⟨8, 10⟩ 4000)) = r
  cases r with
  | error e => rfl
  | ok response =>
    simp only [Except.bind, replaceError]
    cases extractQuiz response questionCount <;> rfl

/-- C12: every generation operation calls inference with its row of the
parameter table: chat with the source truncated at 10,000 characters,
temperature 0.7 and the default budget of 2000 tokens; summary 15,000 / 0.5 /
500; explanation 10,000 / 0.6 / 2000; flashcards 8,000 / 0.7 / 3,000; quiz
8,000 / 0.8 / 4,000. The result of each operation is a function of the
endpoint's answer to exactly that request. -/
theorem C12_parameter_table (cfg : Config) (post : Endpoint) (doc : Option Str)
    (userQuestion concept : Str) (count questionCount : Nat) :
    chat cfg post doc userQuestion
      = relay cfg (post (inferenceRequest cfg
          (chatPrompt (truncateText doc (some 10000)) userQuestion) ⟨7, 10⟩ 2000)) ∧
    generateSummary cfg post doc
      = relay cfg (post (inferenceRequest cfg
          (summaryPrompt (truncateText doc (some 15000))) ⟨5, 10⟩ 500)) ∧
    explainConcept cfg post doc concept
      = relay cfg (post (inferenceRequest cfg
          (explainPrompt (truncateText doc (some 10000)) concept) ⟨6, 10⟩ 2000)) ∧
    generateFlashcards cfg post doc count
      = replaceError "Failed to generate flashcards. Please try again."
          ((relay cfg (post (inferenceRequest cfg
              (flashcardPrompt count (truncateText doc (some 8000))) ⟨7, 10⟩ 3000))).bind
            fun response => extractFlashcards response count) ∧
    generateQuiz cfg post doc questionCount
      = replaceError "Failed to generate quiz. Please try again."
          ((relay cfg (post (inferenceRequest cfg
              (quizPrompt questionCount (truncateText doc (some 8000))) ⟨8, 10⟩ 4000))).bind
            fun response => extractQuiz response questionCount) := by
  refine ⟨?_, ?_, ?_, generateFlashcards_eq cfg post doc count,
    generateQuiz_eq cfg post doc questionCount⟩
  · unfold chat
    simp only
    rw [generateResponse_relay cfg post _ _ rfl]
    rfl
  · unfold generateSummary
    simp only
    rw [generateResponse_relay cfg post _ _ rfl]
    rfl
  · unfold explainConcept
    simp only
    rw [generateResponse_relay cfg post _ _ rfl]
    rfl

theorem take_append_marker_eq_iff (text marker : Str) (max : Nat) (h : max < text.length) :
    text.take max ++ marker = text ↔ text.length = max + marker.length ∧ text.drop max = marker := by
  constructor
  · intro e
    have hd : text.drop max = marker := by
      have hsplit : text.take max ++ text.drop max = text := List.take_append_drop max text
      have : text.take max ++ marker = text.take max ++ text.drop max := by rw [hsplit, e]
      exact (List.append_cancel_left this).symm
    refine ⟨?_, hd⟩
    have hl : (text.drop max).length = marker.length := by rw [hd]
    rw [List.length_drop] at hl
    omega
  · rintro ⟨-, hd⟩
    rw [← hd]
    exact List.take_append_drop max text

/-- C11 (counterexample): a source text of 10,000 letters followed by three
dots is longer than the chat limit, and its truncation, the first 10,000
characters plus the marker, is the text itself: the prompt sent to inference
contains the full source text. -/
theorem C11_counterexample_text_ending_in_dots :
    10000 < (textEndingInDots 10000).length ∧
    ∃ a b : Str,
      chat defaultConfig echoPrompt (some (textEndingInDots 10000)) "q".toList
        = .ok (a ++ textEndingInDots 10000 ++ b) := by
  have hlen : (textEndingInDots 10000).length = 10003 := by
    unfold textEndingInDots
    rw [List.length_append, List.length_replicate]
    rfl
  have htr : truncateText (some (textEndingInDots 10000)) (some 10000) = textEndingInDots 10000 := by
    rw [truncateText_long _ _ (by rw [hlen]; decide)]
    unfold textEndingInDots
    rw [List.take_left' (List.length_replicate _ _)]
  have hchat : ∀ doc : Option Str, chat defaultConfig echoPrompt doc "q".toList
      = .ok (chatPrompt (truncateText doc (some 10000)) "q".toList) := fun _ => rfl
  refine ⟨by rw [hlen]; decide,
    ("You are a helpful learning assistant. Based on the following document, answer the user's "
      ++ "question accurately and concisely.\n\nDocument:\n").toList,
    "\n\nQuestion: ".toList ++ "q".toList ++ "\n\nAnswer:".toList, ?_⟩
  rw [hchat, htr]
  generalize textEndingInDots 10000 = T
  simp only [chatPrompt, List.append_assoc]

/-- C11 (amended): for every task and every source text longer than the task's
truncation length, the prompt sent to inference is the task's template around
exactly the first `max` characters of the source followed by the marker `...`;
the source enters the prompt in no other way. The embedded text is the full
source only when the source has exactly `max + 3` characters and ends in the
marker. -/
theorem C11_prompt_embeds_truncated_source (cfg : Config) (post : Endpoint) (text : Str)
    (userQuestion concept : Str) (count questionCount : Nat) :
    (10000 < text.length →
      chat cfg post (some text) userQuestion
        = relay cfg (post (inferenceRequest cfg
            (chatPrompt (text.take 10000 ++ "...".toList) userQuestion) ⟨7, 10⟩ 2000)) ∧
      explainConcept cfg post (some text) concept
        = relay cfg (post (inferenceRequest cfg
            (explainPrompt (text.take 10000 ++ "...".toList) concept) ⟨6, 10⟩ 2000))) ∧
    (15000 < text.length →
      generateSummary cfg post (some text)
        = relay cfg (post (inferenceRequest cfg
            (summaryPrompt (text.take 15000 ++ "...".toList)) ⟨5, 10⟩ 500))) ∧
    (8000 < text.length →
      generateFlashcards cfg post (some text) count
        = replaceError "Failed to generate flashcards. Please try again."
            ((relay cfg (post (inferenceRequest cfg
                (flashcardPrompt count (text.take 8000 ++ "...".toList)) ⟨7, 10⟩ 3000))).bind
              fun response => extractFlashcards response count) ∧
      generateQuiz cfg post (some text) questionCount
        = replaceError "Failed to generate quiz. Please try again."
            ((relay cfg (post (inferenceRequest cfg
                (quizPrompt questionCount (text.take 8000 ++ "...".toList)) ⟨8, 10⟩ 4000))).bind
              fun response => extractQuiz response questionCount)) ∧
    (∀ max, max < text.length →
      (text.take max ++ "...".toList = text ↔
        text.length = max + 3 ∧ text.drop max = "...".toList)) := by
  refine ⟨?_, ?_, ?_, ?_⟩
  · intro h
    have ht := truncateText_long text 10000 h
    refine ⟨?_, ?_⟩
    · rw [← ht]
      unfold chat
      simp only
      rw [generateResponse_relay cfg post _ _ rfl]
      rfl
    · rw [← ht]
      unfold explainConcept
      simp only
      rw [generateResponse_relay cfg post _ _ rfl]
      rfl
  · intro h
    rw [← truncateText_long text 15000 h]
    unfold generateSummary
    simp only
    rw [generateResponse_relay cfg post _ _ rfl]
    rfl
  · intro h
    rw [← truncateText_long text 8000 h]
    exact ⟨generateFlashcards_eq cfg post (some text) count,
      generateQuiz_eq cfg post (some text) questionCount⟩
  · intro max h
    exact take_append_marker_eq_iff text "...".toList max h

/-- C11 (witness): a source of 15,001 letters is longer than every task's
limit; the prompts hold its first 10,000, 15,000 and 8,000 letters plus the
marker. -/
theorem C11_prompt_embeds_truncated_source_witness :
    (chat defaultConfig echoPrompt (some (List.replicate 15001 'a')) "q".toList
        = relay defaultConfig (echoPrompt (inferenceRequest defaultConfig
            (chatPrompt ((List.replicate 15001 'a').take 10000 ++ "...".toList) "q".toList)
            ⟨7, 10⟩ 2000)) ∧
      explainConcept defaultConfig echoPrompt (some (List.replicate 15001 'a')) "c".toList
        = relay defaultConfig (echoPrompt (inferenceRequest defaultConfig
            (explainPrompt ((List.replicate 15001 'a').take 10000 ++ "...".toList) "c".toList)
            ⟨6, 10⟩ 2000))) ∧
    generateSummary defaultConfig echoPrompt (some (List.replicate 15001 'a'))
      = relay defaultConfig (echoPrompt (inferenceRequest defaultConfig
          (summaryPrompt ((List.replicate 15001 'a').take 15000 ++ "...".toList))
          ⟨5, 10⟩ 500)) :=
  have h := C11_prompt_embeds_truncated_source defaultConfig echoPrompt
    (List.replicate 15001 'a') "q".toList "c".toList 5 5
  ⟨h.1 (by rw [List.length_replicate]; decide), h.2.1 (by rw [List.length_replicate]; decide)⟩

/-! ## Failures of the generation operations -/

/-- C13: whatever fails inside `generateFlashcards` or `generateQuiz`, the
error raised carries the operation's fixed message, the same for every cause
and every raw model output; in particular a failed inference call, a reply
without a bracket span and a span that is not JSON all give that message. -/
theorem C13_fixed_failure_message (cfg : Config) (post : Endpoint) (doc : Option Str)
    (count questionCount : Nat) :
    (∀ e, generateFlashcards cfg post doc count = .error e →
      e = "Failed to generate flashcards. Please try again.") ∧
    (∀ e, generateQuiz cfg post doc questionCount = .error e →
      e = "Failed to generate quiz. Please try again.") ∧
    (∀ err, (∀ r, post r = .error err) →
      generateFlashcards cfg post doc count
        = .error "Failed to generate flashcards. Please try again." ∧
      generateQuiz cfg post doc questionCount
        = .error "Failed to generate quiz. Please try again.") ∧
    (∀ response, (∀ r, post r = .ok response) →
      ∀ e, extractFlashcards response count = .error e →
        generateFlashcards cfg post doc count
          = .error "Failed to generate flashcards. Please try again.") ∧
    (∀ response, (∀ r, post r = .ok response) →
      ∀ e, extractQuiz response questionCount = .error e →
        generateQuiz cfg post doc questionCount
          = .error "Failed to generate quiz. Please try again.") := by
  refine ⟨?_, ?_, ?_, ?_, ?_⟩
  · intro e h
    unfold generateFlashcards at h
    split at h
    · exact Except.noConfusion h
    · simp only [Except.error.injEq] at h
      exact h.symm
  · intro e h
    unfold generateQuiz at h
    split at h
    · exact Except.noConfusion h
    · simp only [Except.error.injEq] at h
      exact h.symm
  · intro err hpost
    rw [generateFlashcards_eq, generateQuiz_eq, hpost, hpost]
    exact ⟨rfl, rfl⟩
  · intro response hpost e he
    rw [generateFlashcards_of_reply cfg post response doc count hpost, he]
  · intro response hpost e he
    rw [generateQuiz_of_reply cfg post response doc questionCount hpost, he]

/-- C13 (witness): a refused connection and a reply without brackets. -/
theorem C13_fixed_failure_message_witness :
    (generateFlashcards defaultConfig (failWith connectionRefused) none 5
        = .error "Failed to generate flashcards. Please try again." ∧
      generateQuiz defaultConfig (failWith connectionRefused) none 5
        = .error "Failed to generate quiz. Please try again.") ∧
    generateQuiz defaultConfig (replyWith "no list".toList) none 5
      = .error "Failed to generate quiz. Please try again." :=
  ⟨(C13_fixed_failure_message defaultConfig (failWith connectionRefused) none 5 5).2.2.1
      connectionRefused (fun _ => rfl),
   (C13_fixed_failure_message defaultConfig (replyWith "no list".toList) none 5 5).2.2.2.2
      "no list".toList (fun _ => rfl) "Invalid response format from AI" rfl⟩

theorem ne_of_head_ne (s t : String) (h : s.data.head? ≠ t.data.head?) : s ≠ t := by
  intro e
  rw [e] at h
  exact h rfl

theorem refused_ne_missing (name : String) :
    "Ollama is not running. Start it with: ollama serve"
      ≠ "Model \"" ++ name ++ "\" not found. Pull it with: ollama pull " ++ name := by
  apply ne_of_head_ne
  simp [String.data_append]

theorem refused_ne_unavailable (message : String) :
    "Ollama is not running. Start it with: ollama serve"
      ≠ "AI service unavailable: " ++ message := by
  apply ne_of_head_ne
  simp [String.data_append]

theorem missing_ne_unavailable (name message : String) :
    "Model \"" ++ name ++ "\" not found. Pull it with: ollama pull " ++ name
      ≠ "AI service unavailable: " ++ message := by
  apply ne_of_head_ne
  simp [String.data_append]

theorem generateResponse_failed (cfg : Config) (post : Endpoint) (prompt : Str)
    (options : GenOptions) (err : AxiosError) (hpost : ∀ r, post r = .error err) :
    generateResponse cfg post prompt options = .error (transportMessage cfg err) := by
  unfold generateResponse
  rw [hpost]
  simp only [transportMessage]
  split
  · rfl
  · split <;> rfl

/-- C14: a failed request is classified into exactly one of three kinds: an
error with code `ECONNREFUSED` gives `Ollama is not running. Start it with:
ollama serve`; otherwise a reply with status 404 gives the model-not-found
message with the `ollama pull` hint; every other failure gives `AI service
unavailable: ` followed by the error's message. The three messages are
pairwise distinct, whatever the model name and the error message are. -/
theorem C14_transport_failure_kinds (cfg : Config) (post : Endpoint) (prompt : Str)
    (options : GenOptions) (err : AxiosError) (hpost : ∀ r, post r = .error err) :
    (err.code = some "ECONNREFUSED" →
      generateResponse cfg post prompt options
        = .error "Ollama is not running. Start it with: ollama serve") ∧
    (err.code ≠ some "ECONNREFUSED" → err.status = some 404 →
      generateResponse cfg post prompt options
        = .error ("Model \"" ++ cfg.MODEL_NAME ++ "\" not found. Pull it with: ollama pull "
            ++ cfg.MODEL_NAME)) ∧
    (err.code ≠ some "ECONNREFUSED" → err.status ≠ some 404 →
      generateResponse cfg post prompt options
        = .error ("AI service unavailable: " ++ err.message)) ∧
    (∀ name message : String,
      "Ollama is not running. Start it with: ollama serve"
        ≠ "Model \"" ++ name ++ "\" not found. Pull it with: ollama pull " ++ name ∧
      "Ollama is not running. Start it with: ollama serve"
        ≠ "AI service unavailable: " ++ message ∧
      "Model \"" ++ name ++ "\" not found. Pull it with: ollama pull " ++ name
        ≠ "AI service unavailable: " ++ message) := by
  rw [generateResponse_failed cfg post prompt options err hpost]
  refine ⟨?_, ?_, ?_, ?_⟩
  · intro h
    simp only [transportMessage, h, if_true]
  · intro h1 h2
    simp only [transportMessage, h1, h2, if_true, if_false]
  · intro h1 h2
    simp only [transportMessage, h1, h2, if_false]
  · intro name message
    exact ⟨refused_ne_missing name, refused_ne_unavailable message,
      missing_ne_unavailable name message⟩

/-- C14 (witness): a request that ran into the timeout is of the third kind. -/
theorem C14_transport_failure_kinds_witness :
    generateResponse defaultConfig (failWith timedOut) "p".toList (optionsOf ⟨7, 10⟩ none)
      = .error ("AI service unavailable: " ++ timedOut.message) :=
  (C14_transport_failure_kinds defaultConfig (failWith timedOut) "p".toList
    (optionsOf ⟨7, 10⟩ none) timedOut (fun _ => rfl)).2.2.1 (by decide) (by decide)

/-- C15 (counterexample): `generateResponse` tells a refused connection from a
missing model, but `generateFlashcards` and `generateQuiz` raise the same error
for both, and for a timeout as well. -/
theorem C15_counterexample_structured_tasks_hide_kind :
    generateResponse defaultConfig (failWith connectionRefused) [] (optionsOf ⟨7, 10⟩ none)
      ≠ generateResponse defaultConfig (failWith modelMissing) [] (optionsOf ⟨7, 10⟩ none) ∧
    generateFlashcards defaultConfig (failWith connectionRefused) none 5
      = generateFlashcards defaultConfig (failWith modelMissing) none 5 ∧
    generateFlashcards defaultConfig (failWith connectionRefused) none 5
      = generateFlashcards defaultConfig (failWith timedOut) none 5 ∧
    generateQuiz defaultConfig (failWith connectionRefused) none 5
      = generateQuiz defaultConfig (failWith modelMissing) none 5 ∧
    generateQuiz defaultConfig (failWith connectionRefused) none 5
      = generateQuiz defaultConfig (failWith timedOut) none 5 := by
  refine ⟨?_, rfl, rfl, rfl, rfl⟩
  rw [generateResponse_failed defaultConfig (failWith connectionRefused) [] _ connectionRefused
      (fun _ => rfl),
    generateResponse_failed defaultConfig (failWith modelMissing) [] _ modelMissing
      (fun _ => rfl)]
  intro h
  simp only [Except.error.injEq] at h
  exact refused_ne_missing defaultConfig.MODEL_NAME h

/-- C15 (amended): when the inference call fails, `chat`, `generateSummary` and
`explainConcept` raise the error `generateResponse` produced, whose message
tells the three failure kinds apart; `generateFlashcards` and `generateQuiz`
raise their fixed message for every kind of failure. -/
theorem C15_failure_kind_by_operation (cfg : Config) (post : Endpoint) (doc : Option Str)
    (userQuestion concept : Str) (count questionCount : Nat) (err : AxiosError)
    (hpost : ∀ r, post r = .error err) :
    chat cfg post doc userQuestion = .error (transportMessage cfg err) ∧
    generateSummary cfg post doc = .error (transportMessage cfg err) ∧
    explainConcept cfg post doc concept = .error (transportMessage cfg err) ∧
    generateFlashcards cfg post doc count
      = .error "Failed to generate flashcards. Please try again." ∧
    generateQuiz cfg post doc questionCount
      = .error "Failed to generate quiz. Please try again." ∧
    (err.code = some "ECONNREFUSED" →
      transportMessage cfg err = "Ollama is not running. Start it with: ollama serve") ∧
    (err.code ≠ some "ECONNREFUSED" → err.status = some 404 →
      transportMessage cfg err
        = "Model \"" ++ cfg.MODEL_NAME ++ "\" not found. Pull it with: ollama pull "
            ++ cfg.MODEL_NAME) ∧
    (err.code ≠ some "ECONNREFUSED" → err.status ≠ some 404 →
      transportMessage cfg err = "AI service unavailable: " ++ err.message) := by
  refine ⟨generateResponse_failed cfg post _ _ err hpost,
    generateResponse_failed cfg post _ _ err hpost,
    generateResponse_failed cfg post _ _ err hpost, ?_, ?_, ?_, ?_, ?_⟩
  · rw [generateFlashcards_eq, hpost]
    rfl
  · rw [generateQuiz_eq, hpost]
    rfl
  · intro h
    simp only [transportMessage, h, if_true]
  · intro h1 h2
    simp only [transportMessage, h1, h2, if_true, if_false]
  · intro h1 h2
    simp only [transportMessage, h1, h2, if_false]

/-- C15 (witness): a missing model, seen through `chat` and through
`generateQuiz`. -/
theorem C15_failure_kind_by_operation_witness :
    chat defaultConfig (failWith modelMissing) none "q".toList
      = .error (transportMessage defaultConfig modelMissing) ∧
    generateQuiz defaultConfig (failWith modelMissing) none 5
      = .error "Failed to generate quiz. Please try again." ∧
    transportMessage defaultConfig modelMissing
      = "Model \"" ++ defaultConfig.MODEL_NAME ++ "\" not found. Pull it with: ollama pull "
          ++ defaultConfig.MODEL_NAME :=
  have h := C15_failure_kind_by_operation defaultConfig (failWith modelMissing) none "q".toList
    "c".toList 5 5 modelMissing (fun _ => rfl)
  ⟨h.1, h.2.2.2.2.1, h.2.2.2.2.2.2.1 (by decide) rfl⟩

/-! ## Health check -/

/-- C16 (failing input): the only listed model is `llama3.2-vision:latest` and
the configured model is `llama3.2`. No listed model has the base identifier
`llama3.2`, yet the name contains it as a substring and `healthCheck` returns
`ok`. The specification's three examples evaluate as stated. -/
theorem C16_substring_match_reports_ok :
    healthCheck defaultConfig (tagsReply ["llama3.2-vision:latest"])
      = { status := "ok", message := "Ollama is running", model := some "llama3.2" } ∧
    baseName "llama3.2-vision:latest".toList ≠ baseName defaultConfig.MODEL_NAME.toList ∧
    (healthCheck defaultConfig (tagsReply ["llama3.2:latest"])).status = "ok" ∧
    (healthCheck defaultConfig (tagsReply ["mistral:latest"])).status = "warning" ∧
    (healthCheck defaultConfig (fun _ _ => .error connectionRefused)).status = "error" := by
  decide

/-! ## Answers that never count -/

theorem strictEq_false_of_outside (n c : JsNum) (hn : ¬ inRange03 n) (hc : inRange03 c)
    (hwf : c.wellFormed) : n.strictEq c = false := by
  cases n with
  | nan => rfl
  | inf s => cases c <;> first | rfl | exact absurd hc id
  | fin a x =>
    cases c with
    | nan => exact absurd hc id
    | inf s => exact absurd hc id
    | fin b y =>
      have hy : 0 < y.den := hwf
      cases a <;> cases b
      · have h1 : ¬ x.num ≤ 3 * x.den := hn
        have h2 : y.num ≤ 3 * y.den := hc
        have hne : x.num * y.den ≠ y.num * x.den := by
          intro e
          have h3 : 3 * x.den * y.den < x.num * y.den :=
            Nat.mul_lt_mul_of_pos_right (Nat.lt_of_not_le h1) hy
          have h4 : y.num * x.den ≤ 3 * y.den * x.den := Nat.mul_le_mul_right _ h2
          have h5 : 3 * y.den * x.den = 3 * x.den * y.den := by ring
          omega
        have hx : x.num ≠ 0 := by omega
        simp [JsNum.strictEq, hne, hx]
      · have h1 : ¬ x.num ≤ 3 * x.den := hn
        have hx : x.num ≠ 0 := by omega
        simp [JsNum.strictEq, hx]
      · have h1 : ¬ x.num = 0 := hn
        simp [JsNum.strictEq, h1]
      · have h1 : ¬ x.num = 0 := hn
        have h2 : y.num = 0 := hc
        have hne : x.num * y.den ≠ 0 := Nat.mul_ne_zero h1 (Nat.pos_iff_ne_zero.mp hy)
        simp [JsNum.strictEq, h1, h2, hne]

theorem countCorrect_append (questions : List QuizQuestion) (answers extra : List JVal)
    (idx acc : Nat) (h : idx + questions.length ≤ answers.length) :
    countCorrect questions idx (answers ++ extra) acc = countCorrect questions idx answers acc := by
  induction questions generalizing idx acc with
  | nil => rfl
  | cons q rest ih =>
    simp only [List.length_cons] at h
    have hidx : idx < answers.length := by omega
    simp only [countCorrect, List.getElem?_append_left hidx]
    exact ih (idx + 1) _ (by omega)

/-- C17: for a question `i` whose `correctAnswer` lies in [0,3], the question
is not counted as correct when `answers` has no entry at index `i`, when the
entry is `null`, or when the entry is a number outside [0,3]; `correctCount` is
the number of indices that are counted, and answers beyond the last question
do not change it. -/
theorem C17_unanswered_never_correct (questions : List QuizQuestion) (answers : List JVal)
    (i : Nat) (q : QuizQuestion) (hq : questions[i]? = some q)
    (hrange : inRange03 q.correctAnswer) (hwf : q.correctAnswer.wellFormed) :
    (answers.length ≤ i → isCorrectAt questions answers i = false) ∧
    (answers[i]? = some .null → isCorrectAt questions answers i = false) ∧
    (∀ n, answers[i]? = some (.num n) → ¬ inRange03 n →
      isCorrectAt questions answers i = false) ∧
    countCorrect questions 0 answers 0
      = (List.range questions.length).countP (isCorrectAt questions answers) ∧
    (∀ extra, questions.length ≤ answers.length →
      countCorrect questions 0 (answers ++ extra) 0 = countCorrect questions 0 answers 0) := by
  refine ⟨?_, ?_, ?_, ?_, ?_⟩
  · intro h
    have hnone : answers[i]? = none := List.getElem?_eq_none h
    simp only [isCorrectAt, hq, hnone, JVal.strictEqNum]
  · intro h
    simp only [isCorrectAt, hq, h, JVal.strictEqNum]
  · intro n h hn
    simp only [isCorrectAt, hq, h, JVal.strictEqNum]
    exact strictEq_false_of_outside n q.correctAnswer hn hrange hwf
  · exact countCorrect_eq_matchingIndices questions answers
  · intro extra h
    exact countCorrect_append questions answers extra 0 0 (by omega)

/-- C17 (witness): the 40-question quiz with the answers of the first 23
questions only; question 30 has no answer. -/
theorem C17_unanswered_never_correct_witness :
    isCorrectAt quiz40.questions (List.replicate 23 (.num (.fin false ⟨0, 1⟩))) 30 = false :=
  (C17_unanswered_never_correct quiz40.questions (List.replicate 23 (.num (.fin false ⟨0, 1⟩)))
    30 ⟨"Q".toList, ["a".toList, "b".toList, "c".toList, "d".toList], .fin false ⟨0, 1⟩,
      "E".toList⟩ rfl (Nat.zero_le _) Nat.one_pos).1 (by decide)

/-! ## Count validation in the routes -/

/-- C19 (failing input): a request whose `count` is a plain object, which
converts to NaN, passes the guard `count < 1 || count > 20` (both comparisons
with NaN are false): the route reaches the call of `generateFlashcards` with
that object as the count, and the quiz route likewise. A numeric count outside
the range is answered with status 400. -/
theorem C19_object_count_passes_guard :
    ∀ co : Coercion,
      toNumber co (.obj []) = .ok .nan ∧
      flashcardsRoute co (some (.obj [])) (some sampleDocument)
        = .invoke "Text".toList (.obj []) ∧
      quizRoute co (some (.obj [])) (some sampleDocument) = .invoke "Text".toList (.obj []) ∧
      flashcardsRoute co (some (.num (JsNum.ofNat 21))) (some sampleDocument)
        = .respond 400 "Flashcard count must be between 1 and 20" ∧
      quizRoute co (some (.num (JsNum.ofNat 0))) (some sampleDocument)
        = .respond 400 "Question count must be between 1 and 15" :=
  fun _ => ⟨rfl, rfl, rfl, rfl, rfl⟩

/-! ## The index of the offending element -/

theorem validateQuestion_error_message (q : JVal) (idx : Nat) (e : String) (hq : q ≠ .null)
    (h : validateQuestion q idx = .error e) :
    e = "Invalid question format at index " ++ toString idx ∨
    e = "Invalid correct answer at index " ++ toString idx := by
  cases q with
  | null => exact absurd rfl hq
  | obj fields =>
    unfold validateQuestion at h
    simp only at h
    split at h
    · simp only [Except.error.injEq] at h
      exact Or.inl h.symm
    · split at h
      · split at h
        · simp only [Except.error.injEq] at h
          exact Or.inl h.symm
        · split at h
          · split at h
            · simp only [Except.error.injEq] at h
              exact Or.inr h.symm
            · exact Except.noConfusion h
          · simp only [Except.error.injEq] at h
            exact Or.inr h.symm
      · simp only [Except.error.injEq] at h
        exact Or.inl h.symm
  | bool b =>
    simp only [validateQuestion, Except.error.injEq] at h
    exact Or.inl h.symm
  | num m =>
    simp only [validateQuestion, Except.error.injEq] at h
    exact Or.inl h.symm
  | str s =>
    simp only [validateQuestion, Except.error.injEq] at h
    exact Or.inl h.symm
  | arr xs =>
    simp only [validateQuestion, Except.error.injEq] at h
    exact Or.inl h.symm

theorem validateQuestions_first_error (l : List JVal) (idx i : Nat) (q : JVal) (e : String)
    (hq : l[i]? = some q)
    (hbefore : ∀ j, j < i → ∀ x, l[j]? = some x → validQuestion x)
    (herr : validateQuestion q (idx + i) = .error e) :
    validateQuestions l idx = .error e := by
  induction l generalizing idx i with
  | nil => simp at hq
  | cons c cs ih =>
    cases i with
    | zero =>
      simp only [List.getElem?_cons_zero, Option.some.injEq] at hq
      subst hq
      rw [Nat.add_zero] at herr
      simp only [validateQuestions, herr]
    | succ k =>
      simp only [List.getElem?_cons_succ] at hq
      obtain ⟨r, hr⟩ := validateQuestion_ok c idx
        (hbefore 0 (Nat.succ_pos k) c List.getElem?_cons_zero)
      have herr' : validateQuestion q (idx + 1 + k) = .error e := by
        have hidx : idx + 1 + k = idx + (k + 1) := by omega
        rw [hidx]
        exact herr
      have hrest := ih (idx + 1) k hq
        (fun j hj x hx => hbefore (j + 1) (Nat.succ_lt_succ hj) x
          (by rw [List.getElem?_cons_succ]; exact hx))
        herr'
      simp only [validateQuestions, hr, hrest]

theorem generateQuizTry_of_items (cfg : Config) (post : Endpoint) (doc : Option Str)
    (questionCount : Nat) (response matched : Str) (items : List JVal)
    (hpost : ∀ r, post r = .ok response) (hmatch : jsonMatch response = some matched)
    (hparse : JSON.parse matched = some (.arr items)) :
    generateQuizTry cfg post doc questionCount
      = validateQuestions (items.take questionCount) 0 := by
  simp only [generateQuizTry, generateResponse, hpost, extractQuiz, hmatch, quizFromJson, hparse]

/-- C20 (counterexample): five elements are returned and five requested; with
the three-option element at index 2 and with it at index 0 `generateQuiz`
raises the same error, so the error it raises does not tell the index. The
error logged in the catch block names index 2 and index 0. -/
theorem C20_counterexample_raised_error_has_no_index :
    generateQuiz defaultConfig (replyWith rawFiveBadAtTwo) none 5
      = .error "Failed to generate quiz. Please try again." ∧
    generateQuiz defaultConfig (replyWith rawFiveBadAtZero) none 5
      = generateQuiz defaultConfig (replyWith rawFiveBadAtTwo) none 5 ∧
    quizErrorLog defaultConfig (replyWith rawFiveBadAtTwo) none 5
      = some "Invalid question format at index 2" ∧
    quizErrorLog defaultConfig (replyWith rawFiveBadAtZero) none 5
      = some "Invalid question format at index 0" :=
  ⟨rfl, rfl, by decide, by decide⟩

/-- C20 (amended): when the first invalid element among the first
`questionCount` elements of the parsed model output is at index `i` and is not
`null`, the error thrown inside `generateQuiz` and logged by its catch block is
`Invalid question format at index i` or `Invalid correct answer at index i`;
the error `generateQuiz` raises to its caller is the fixed message, which
carries no index. -/
theorem C20_logged_error_names_index (cfg : Config) (post : Endpoint) (doc : Option Str)
    (questionCount : Nat) (response matched : Str) (items : List JVal) (i : Nat) (q : JVal)
    (hpost : ∀ r, post r = .ok response) (hmatch : jsonMatch response = some matched)
    (hparse : JSON.parse matched = some (.arr items))
    (hi : i < questionCount) (hq : items[i]? = some q) (hnull : q ≠ .null)
    (hbad : ¬ validQuestion q)
    (hbefore : ∀ j, j < i → ∀ x, items[j]? = some x → validQuestion x) :
    (quizErrorLog cfg post doc questionCount
        = some ("Invalid question format at index " ++ toString i) ∨
      quizErrorLog cfg post doc questionCount
        = some ("Invalid correct answer at index " ++ toString i)) ∧
    generateQuiz cfg post doc questionCount
      = .error "Failed to generate quiz. Please try again." := by
  have hnn : NoNaN q :=
    noNaN_items items (parse_noNaN matched _ hparse) q (List.getElem?_mem hq)
  have htry := generateQuizTry_of_items cfg post doc questionCount response matched items
    hpost hmatch hparse
  cases hv : validateQuestion q (0 + i) with
  | ok r => exact absurd (validateQuestion_valid q _ r hnn hv) hbad
  | error e =>
    have hall : validateQuestions (items.take questionCount) 0 = .error e := by
      apply validateQuestions_first_error _ 0 i q e _ _ hv
      · rw [List.getElem?_take_of_lt hi]
        exact hq
      · intro j hj x hx
        rw [List.getElem?_take_of_lt (Nat.lt_trans hj hi)] at hx
        exact hbefore j hj x hx
    have hmsg := validateQuestion_error_message q (0 + i) e hnull hv
    rw [Nat.zero_add] at hmsg
    refine ⟨?_, ?_⟩
    · unfold quizErrorLog
      rw [htry, hall]
      rcases hmsg with h | h
      · exact Or.inl (by rw [h])
      · exact Or.inr (by rw [h])
    · unfold generateQuiz
      rw [htry, hall]

theorem threeOptions_not_four : ¬ hasFourOptions threeOptions := by
  rintro ⟨options, ho, hl⟩
  have e : field "options" threeOptions
      = some (.arr [.str "a".toList, .str "b".toList, .str "c".toList]) := rfl
  rw [e] at ho
  simp only [Option.some.injEq, JVal.arr.injEq] at ho
  rw [← ho] at hl
  exact absurd hl (by decide)

/-- C20 (witness): five elements, the one at index 2 with three options. -/
theorem C20_logged_error_names_index_witness :
    (quizErrorLog defaultConfig (replyWith rawFiveBadAtTwo) none 5
        = some ("Invalid question format at index " ++ toString 2) ∨
      quizErrorLog defaultConfig (replyWith rawFiveBadAtTwo) none 5
        = some ("Invalid correct answer at index " ++ toString 2)) ∧
    generateQuiz defaultConfig (replyWith rawFiveBadAtTwo) none 5
      = .error "Failed to generate quiz. Please try again." :=
  C20_logged_error_names_index defaultConfig (replyWith rawFiveBadAtTwo) none 5 rawFiveBadAtTwo
    rawFiveBadAtTwo [goodQuestion, goodQuestion, threeOptions, goodQuestion, goodQuestion] 2
    threeOptions (fun _ => rfl) (by decide) rfl (by decide) rfl JVal.noConfusion
    (fun h => threeOptions_not_four h.2.1)
    (by
      intro j hj x hx
      rcases j with _ | _ | j
      · simp only [List.getElem?_cons_zero, Option.some.injEq] at hx
        subst hx
        exact goodQuestion_valid
      · simp only [List.getElem?_cons_succ, List.getElem?_cons_zero, Option.some.injEq] at hx
        subst hx
        exact goodQuestion_valid
      · omega)

/-! ## Short texts -/

/-- C29: a text of length at most `max` is returned unchanged, with no marker
appended, and a missing or empty text gives the empty string. -/
theorem C29_truncateText_short (text : Str) (max : Nat) (h : text.length ≤ max) :
    truncateText (some text) (some max) = text ∧
    truncateText none (some max) = [] ∧
    truncateText (some []) (some max) = [] := by
  refine ⟨?_, rfl, rfl⟩
  cases text with
  | nil => rfl
  | cons c cs =>
    have hlen : (c :: cs).length ≤ max := h
    simp only [truncateText, Option.getD_some, List.isEmpty_cons, Bool.false_eq_true, if_false,
      hlen, if_true]

/-- C29 (witness): `truncateText("abc", 3)` is `abc`. -/
theorem C29_truncateText_short_witness :
    truncateText (some "abc".toList) (some 3) = "abc".toList ∧
    truncateText none (some 3) = [] ∧
    truncateText (some []) (some 3) = [] :=
  C29_truncateText_short "abc".toList 3 (by decide)

/-! ## Totality of the health check -/

theorem healthCheckTry_ok (cfg : Config) (get : TagsEndpoint) (health : Health)
    (h : healthCheckTry cfg get = .ok health) :
    (health.status = "warning" ∨ health.status = "ok") ∧ health.model = some cfg.MODEL_NAME := by
  unfold healthCheckTry at h
  split at h
  · exact Except.noConfusion h
  · split at h
    · exact Except.noConfusion h
    · split at h
      · split at h
        · exact Except.noConfusion h
        · split at h
          · simp only [Except.ok.injEq] at h
            subst h
            exact ⟨Or.inl rfl, rfl⟩
          · simp only [Except.ok.injEq] at h
            subst h
            exact ⟨Or.inr rfl, rfl⟩
      · exact Except.noConfusion h

/-- C28: `healthCheck` always returns a result: its status is `ok`, `warning`
or `error`, and the result carries the `model` field exactly when the status is
`ok` or `warning`. A failed request gives `error`, and so does a reply whose
first listed entry has no name, where inspecting the list throws. -/
theorem C28_healthCheck_total (cfg : Config) (get : TagsEndpoint) :
    ((healthCheck cfg get).status = "ok" ∨ (healthCheck cfg get).status = "warning" ∨
      (healthCheck cfg get).status = "error") ∧
    ((healthCheck cfg get).model.isSome = true ↔
      ((healthCheck cfg get).status = "ok" ∨ (healthCheck cfg get).status = "warning")) ∧
    (∀ err, get (cfg.OLLAMA_URL ++ "/api/tags") 5000 = .error err →
      (healthCheck cfg get).status = "error") ∧
    (∀ rest, get (cfg.OLLAMA_URL ++ "/api/tags") 5000
        = .ok (.obj [("models".toList, .arr (.obj [] :: rest))]) →
      (healthCheck cfg get).status = "error") := by
  have hmain : ((healthCheck cfg get).status = "ok" ∨ (healthCheck cfg get).status = "warning" ∨
        (healthCheck cfg get).status = "error") ∧
      ((healthCheck cfg get).model.isSome = true ↔
        ((healthCheck cfg get).status = "ok" ∨ (healthCheck cfg get).status = "warning")) := by
    unfold healthCheck
    cases ht : healthCheckTry cfg get with
    | ok health =>
      obtain ⟨hs, hm⟩ := healthCheckTry_ok cfg get health ht
      show (health.status = "ok" ∨ health.status = "warning" ∨ health.status = "error") ∧
        (health.model.isSome = true ↔ (health.status = "ok" ∨ health.status = "warning"))
      rw [hm]
      rcases hs with hs | hs
      · exact ⟨Or.inr (Or.inl hs), fun _ => Or.inr hs, fun _ => rfl⟩
      · exact ⟨Or.inl hs, fun _ => Or.inl hs, fun _ => rfl⟩
    | error e =>
      refine ⟨Or.inr (Or.inr rfl), ?_⟩
      show (none : Option String).isSome = true ↔ ("error" = "ok" ∨ "error" = "warning")
      decide
  refine ⟨hmain.1, hmain.2, ?_, ?_⟩
  · intro err h
    simp only [healthCheck, healthCheckTry, h]
  · intro rest h
    simp only [healthCheck, healthCheckTry, h]
    rfl

/-! ## The parsed span is an array -/

theorem jsonMatch_head (s m : Str) (h : jsonMatch s = some m) : ∃ rest, m = '[' :: rest := by
  induction s with
  | nil => simp [jsonMatch] at h
  | cons c cs ih =>
    unfold jsonMatch at h
    split at h
    · rename_i hc
      split at h
      · simp only [Option.some.injEq] at h
        exact ⟨_, by rw [← h, hc]⟩
      · exact ih h
    · exact ih h

theorem parseElements_arr (fuel : Nat) :
    ∀ s acc v r, parseElements fuel s acc = some (v, r) → ∃ items, v = .arr items := by
  induction fuel with
  | zero =>
    intro s acc v r h
    simp [parseElements] at h
  | succ fuel ih =>
    intro s acc v r h
    unfold parseElements at h
    split at h
    · simp only [Option.some.injEq, Prod.mk.injEq] at h
      exact ⟨acc, h.1.symm⟩
    · split at h
      · exact Option.noConfusion h
      · exact ih _ _ _ _ h
    · exact Option.noConfusion h

theorem parseValue_bracket (fuel : Nat) (rest : Str) (v : JVal) (r : Str)
    (h : parseValue fuel ('[' :: rest) = some (v, r)) : ∃ items, v = .arr items := by
  cases fuel with
  | zero => simp [parseValue] at h
  | succ fuel =>
    unfold parseValue at h
    simp only at h
    split at h
    · simp only [Option.some.injEq, Prod.mk.injEq] at h
      exact ⟨[], h.1.symm⟩
    · split at h
      · exact Option.noConfusion h
      · exact parseElements_arr fuel _ _ _ _ h

theorem parse_bracket (rest : Str) (v : JVal) (h : JSON.parse ('[' :: rest) = some v) :
    ∃ items, v = .arr items := by
  unfold JSON.parse at h
  have hws : skipWs ('[' :: rest) = '[' :: rest := by
    simp [skipWs, isWs]
  rw [hws] at h
  split at h
  · exact Option.noConfusion h
  · rename_i v0 r0 hv0
    split at h
    · simp only [Option.some.injEq] at h
      rw [← h]
      exact parseValue_bracket _ rest v0 r0 hv0
    · exact Option.noConfusion h

theorem parse_matched_arr (response matched : Str) (v : JVal)
    (hmatch : jsonMatch response = some matched) (hparse : JSON.parse matched = some v) :
    ∃ items, v = .arr items := by
  obtain ⟨rest, e⟩ := jsonMatch_head response matched hmatch
  rw [e] at hparse
  exact parse_bracket rest v hparse

/-- C30: the matched span starts with `[`, so whenever `JSON.parse` accepts it
the parsed value is an array: `generateFlashcards` and `generateQuiz` continue
with the array branch, and the branch that throws `Invalid flashcard format` /
`Invalid quiz format` is not taken. -/
theorem C30_parsed_span_is_array (response matched : Str) (v : JVal)
    (hmatch : jsonMatch response = some matched) (hparse : JSON.parse matched = some v) :
    ∃ items, v = .arr items ∧
      (∀ count, extractFlashcards response count = mapFlashcards (items.take count)) ∧
      (∀ questionCount, extractQuiz response questionCount
        = validateQuestions (items.take questionCount) 0) := by
  obtain ⟨items, e⟩ := parse_matched_arr response matched v hmatch hparse
  rw [e] at hparse
  refine ⟨items, e, ?_, ?_⟩
  · intro count
    simp only [extractFlashcards, hmatch, flashcardsFromJson, hparse]
  · intro questionCount
    simp only [extractQuiz, hmatch, quizFromJson, hparse]

/-- C30 (witness): the reply with a well-formed element and a three-option one. -/
theorem C30_parsed_span_is_array_witness :
    ∃ items, JVal.arr [goodQuestion, threeOptions] = .arr items ∧
      (∀ count, extractFlashcards rawGoodThenBad count = mapFlashcards (items.take count)) ∧
      (∀ questionCount, extractQuiz rawGoodThenBad questionCount
        = validateQuestions (items.take questionCount) 0) :=
  C30_parsed_span_is_array rawGoodThenBad rawGoodThenBad _ (by decide) rfl

/-! ## Records and the elements they come from -/

theorem generateQuiz_ok_inv (cfg : Config) (post : Endpoint) (doc : Option Str)
    (questionCount : Nat) (questions : List QuizQuestionRecord)
    (h : generateQuiz cfg post doc questionCount = .ok questions) :
    ∃ response matched items, jsonMatch response = some matched ∧
      JSON.parse matched = some (.arr items) ∧
      validateQuestions (items.take questionCount) 0 = .ok questions := by
  unfold generateQuiz at h
  split at h
  · rename_i questions0 htry
    simp only [Except.ok.injEq] at h
    subst h
    unfold generateQuizTry at htry
    simp only at htry
    split at htry
    · exact Except.noConfusion htry
    · rename_i response _
      unfold extractQuiz at htry
      split at htry
      · exact Except.noConfusion htry
      · rename_i matched hm
        unfold quizFromJson at htry
        split at htry
        · exact Except.noConfusion htry
        · rename_i items hp
          exact ⟨response, matched, items, hm, hp, htry⟩
        · exact Except.noConfusion htry
  · exact Except.noConfusion h

theorem generateFlashcards_ok_inv (cfg : Config) (post : Endpoint) (doc : Option Str)
    (count : Nat) (cards : List FlashcardRecord)
    (h : generateFlashcards cfg post doc count = .ok cards) :
    ∃ response matched items, jsonMatch response = some matched ∧
      JSON.parse matched = some (.arr items) ∧
      mapFlashcards (items.take count) = .ok cards := by
  unfold generateFlashcards at h
  split at h
  · rename_i cards0 htry
    simp only [Except.ok.injEq] at h
    subst h
    unfold generateFlashcardsTry at htry
    simp only at htry
    split at htry
    · exact Except.noConfusion htry
    · rename_i response _
      unfold extractFlashcards at htry
      split at htry
      · exact Except.noConfusion htry
      · rename_i matched hm
        unfold flashcardsFromJson at htry
        split at htry
        · exact Except.noConfusion htry
        · rename_i items hp
          exact ⟨response, matched, items, hm, hp, htry⟩
        · exact Except.noConfusion htry
  · exact Except.noConfusion h

theorem validateQuestions_index (l : List JVal) (idx : Nat) (rs : List QuizQuestionRecord)
    (h : validateQuestions l idx = .ok rs) :
    ∀ (i : Nat) (r : QuizQuestionRecord), rs[i]? = some r →
      ∃ q, l[i]? = some q ∧ validateQuestion q (idx + i) = .ok r := by
  induction l generalizing rs idx with
  | nil =>
    simp only [validateQuestions, Except.ok.injEq] at h
    subst h
    intro i r hr
    simp at hr
  | cons c cs ih =>
    unfold validateQuestions at h
    split at h
    · exact Except.noConfusion h
    · rename_i r0 hr0
      split at h
      · exact Except.noConfusion h
      · rename_i rs0 hrs
        simp only [Except.ok.injEq] at h
        subst h
        intro i r hr
        cases i with
        | zero =>
          simp only [List.getElem?_cons_zero, Option.some.injEq] at hr
          subst hr
          exact ⟨c, List.getElem?_cons_zero, hr0⟩
        | succ k =>
          simp only [List.getElem?_cons_succ] at hr
          obtain ⟨q, hq, hv⟩ := ih (idx + 1) rs0 hrs k r hr
          refine ⟨q, by rw [List.getElem?_cons_succ]; exact hq, ?_⟩
          have hidx : idx + (k + 1) = idx + 1 + k := by omega
          rw [hidx]
          exact hv

theorem truthy_orElse (src : Option JVal) (dflt : Str) (h : dflt ≠ []) :
    JVal.truthy (some (JVal.orElse src dflt)) = true := by
  unfold JVal.orElse
  split
  · split
    · assumption
    · cases dflt with
      | nil => exact absurd rfl h
      | cons c cs => rfl
  · cases dflt with
    | nil => exact absurd rfl h
    | cons c cs => rfl

/-- C21 (counterexample): the element has an `explanation`, the number 0, and
the record returned for it carries the placeholder, not the element's
explanation: an explanation that is present and not the empty string is not
always carried unchanged. -/
theorem C21_counterexample_zero_explanation :
    (jsonMatch rawZeroExplanation).bind JSON.parse
      = some (.arr [.obj [("question".toList, .str "Q".toList),
          ("options".toList, .arr [.str "a".toList, .str "b".toList, .str "c".toList,
            .str "d".toList]),
          ("correctAnswer".toList, .num (.fin false ⟨0, 1⟩)),
          ("explanation".toList, .num (.fin false ⟨0, 1⟩))]]) ∧
    generateQuiz defaultConfig (replyWith rawZeroExplanation) none 1
      = .ok [{ question := .str "Q".toList,
               options := [.str "a".toList, .str "b".toList, .str "c".toList, .str "d".toList],
               correctAnswer := .fin false ⟨0, 1⟩,
               explanation := .str noExplanation }] ∧
    JVal.str noExplanation ≠ .num (.fin false ⟨0, 1⟩) :=
  ⟨rfl, rfl, JVal.noConfusion⟩

/-- C21 (amended): every record returned by `generateQuiz` has a non-empty
explanation: its value is truthy, and never the empty string. When the
explanation of the model's element at the same index is absent or falsy (the
empty string, `null`, `false`, `0`) the record carries the placeholder
`No explanation provided.`; when it is truthy the record carries it unchanged. -/
theorem C21_explanation_never_empty (cfg : Config) (post : Endpoint) (doc : Option Str)
    (questionCount : Nat) (response matched : Str) (items : List JVal)
    (questions : List QuizQuestionRecord)
    (hpost : ∀ r, post r = .ok response) (hmatch : jsonMatch response = some matched)
    (hparse : JSON.parse matched = some (.arr items))
    (h : generateQuiz cfg post doc questionCount = .ok questions) :
    ∀ (i : Nat) (r : QuizQuestionRecord), questions[i]? = some r →
      ∃ q, items[i]? = some q ∧
        JVal.truthy (some r.explanation) = true ∧
        r.explanation ≠ .str [] ∧
        (field "explanation" q = none → r.explanation = .str noExplanation) ∧
        (∀ v, field "explanation" q = some v → JVal.truthy (some v) = false →
          r.explanation = .str noExplanation) ∧
        (∀ v, field "explanation" q = some v → JVal.truthy (some v) = true →
          r.explanation = v) := by
  rw [generateQuiz_of_items cfg post doc questionCount response matched items hpost hmatch
    hparse] at h
  cases hv : validateQuestions (items.take questionCount) 0 with
  | error e =>
    rw [hv] at h
    exact Except.noConfusion h
  | ok rs =>
    rw [hv] at h
    simp only [Except.ok.injEq] at h
    subst h
    intro i r hr
    obtain ⟨q, hq, hvq⟩ := validateQuestions_index _ 0 rs hv i r hr
    have hq' : items[i]? = some q := by
      rw [List.getElem?_take] at hq
      split at hq
      · exact hq
      · exact Option.noConfusion hq
    obtain ⟨-, -, -, -, -, -, hexp⟩ := validateQuestion_sound q _ r hvq
    have htruthy : JVal.truthy (some r.explanation) = true := by
      rw [hexp]
      exact truthy_orElse _ _ (by decide)
    refine ⟨q, hq', htruthy, ?_, ?_, ?_, ?_⟩
    · intro e
      rw [e] at htruthy
      exact absurd htruthy (by decide)
    · intro hnone
      rw [hexp, hnone]
      rfl
    · intro v hsome hf
      rw [hexp, hsome]
      simp only [JVal.orElse, hf]
      rfl
    · intro v hsome ht
      rw [hexp, hsome]
      simp only [JVal.orElse, ht, if_true]

/-- C21 (witness): the element without `explanation` yields a record with the
placeholder. -/
theorem C21_explanation_never_empty_witness :
    ∃ (r : QuizQuestionRecord) (q : JVal),
      generateQuiz defaultConfig (replyWith rawNoExplanation) none 5 = .ok [r] ∧
      [goodQuestion][0]? = some q ∧
      JVal.truthy (some r.explanation) = true ∧
      r.explanation = .str noExplanation :=
  have h := C21_explanation_never_empty defaultConfig (replyWith rawNoExplanation) none 5
    rawNoExplanation rawNoExplanation [goodQuestion] _ (fun _ => rfl) (by decide) rfl rfl 0 _ rfl
  match h with
  | ⟨q, hq, ht, _, hnone, _, _⟩ =>
    ⟨_, q, rfl, hq, ht, hnone (by
      simp only [List.getElem?_cons_zero, Option.some.injEq] at hq
      rw [← hq]
      rfl)⟩

/-! ## Flashcard fields -/

theorem toFlashcard_ok_inv (card : JVal) (r : FlashcardRecord) (h : toFlashcard card = .ok r) :
    r.question = JVal.orElse (field "question" card) [] ∧
    r.answer = JVal.orElse (field "answer" card) [] := by
  have hne : card ≠ .null := by
    intro e
    rw [e] at h
    exact Except.noConfusion h
  rw [toFlashcard_of_ne_null card hne] at h
  simp only [Except.ok.injEq] at h
  subst h
  exact ⟨rfl, rfl⟩

theorem mapFlashcards_records (l : List JVal) (rs : List FlashcardRecord)
    (h : mapFlashcards l = .ok rs) :
    ∀ r ∈ rs, ∃ card, card ∈ l ∧ toFlashcard card = .ok r := by
  induction l generalizing rs with
  | nil =>
    simp only [mapFlashcards, Except.ok.injEq] at h
    subst h
    intro r hr
    cases hr
  | cons c cs ih =>
    unfold mapFlashcards at h
    split at h
    · exact Except.noConfusion h
    · rename_i r0 hr0
      split at h
      · exact Except.noConfusion h
      · rename_i rs0 hrs
        simp only [Except.ok.injEq] at h
        subst h
        intro r hr
        rcases List.mem_cons.mp hr with e | e
        · subst e
          exact ⟨c, List.mem_cons_self _ _, hr0⟩
        · obtain ⟨card, hm, hv⟩ := ih rs0 hrs r e
          exact ⟨card, List.mem_cons_of_mem _ hm, hv⟩

theorem orElse_empty_or_truthy (src : Option JVal) :
    JVal.orElse src [] = .str [] ∨ JVal.truthy (some (JVal.orElse src [])) = true := by
  unfold JVal.orElse
  split
  · split
    · exact Or.inr (by assumption)
    · exact Or.inl rfl
  · exact Or.inl rfl

/-- C22 (counterexample): for a model element without `answer` the returned
flashcard has the empty string as its answer, which is empty after trimming. -/
theorem C22_counterexample_empty_answer :
    generateFlashcards defaultConfig (replyWith rawMissingAnswer) none 5
      = .ok [{ question := .str "Q".toList, answer := .str [] }] :=
  rfl

theorem mapFlashcards_index (l : List JVal) (rs : List FlashcardRecord)
    (h : mapFlashcards l = .ok rs) :
    ∀ (i : Nat) (r : FlashcardRecord), rs[i]? = some r →
      ∃ card, l[i]? = some card ∧ toFlashcard card = .ok r := by
  induction l generalizing rs with
  | nil =>
    simp only [mapFlashcards, Except.ok.injEq] at h
    subst h
    intro i r hr
    simp at hr
  | cons c cs ih =>
    unfold mapFlashcards at h
    split at h
    · exact Except.noConfusion h
    · rename_i r0 hr0
      split at h
      · exact Except.noConfusion h
      · rename_i rs0 hrs
        simp only [Except.ok.injEq] at h
        subst h
        intro i r hr
        cases i with
        | zero =>
          simp only [List.getElem?_cons_zero, Option.some.injEq] at hr
          subst hr
          exact ⟨c, List.getElem?_cons_zero, hr0⟩
        | succ k =>
          simp only [List.getElem?_cons_succ] at hr
          obtain ⟨card, hc, hv⟩ := ih rs0 hrs k r hr
          exact ⟨card, by rw [List.getElem?_cons_succ]; exact hc, hv⟩

/-- C22 (amended): the flashcards returned by `generateFlashcards` are built
one by one from the first `count` elements of the parsed array: the record at
index `i` comes from the element at index `i`, and its question and its answer
are each the element's field unchanged when that field is truthy, and the
empty string when the field is missing or falsy. Nothing is trimmed and the
empty string is not rejected. -/
theorem C22_flashcard_fields (cfg : Config) (post : Endpoint) (doc : Option Str) (count : Nat)
    (response matched : Str) (items : List JVal) (cards : List FlashcardRecord)
    (hpost : ∀ r, post r = .ok response) (hmatch : jsonMatch response = some matched)
    (hparse : JSON.parse matched = some (.arr items))
    (h : generateFlashcards cfg post doc count = .ok cards) :
    cards.length = (items.take count).length ∧
    ∀ (i : Nat) (r : FlashcardRecord), cards[i]? = some r →
      ∃ card, items[i]? = some card ∧ i < count ∧
        coerced (field "question" card) r.question ∧
        coerced (field "answer" card) r.answer ∧
        (r.question = .str [] ∨ JVal.truthy (some r.question) = true) ∧
        (r.answer = .str [] ∨ JVal.truthy (some r.answer) = true) := by
  rw [generateFlashcards_of_items cfg post doc count response matched items hpost hmatch
    hparse] at h
  cases hm : mapFlashcards (items.take count) with
  | error e =>
    rw [hm] at h
    exact Except.noConfusion h
  | ok rs =>
    rw [hm] at h
    simp only [Except.ok.injEq] at h
    subst h
    refine ⟨mapFlashcards_length _ _ hm, ?_⟩
    intro i r hr
    obtain ⟨card, hc, hcard⟩ := mapFlashcards_index _ rs hm i r hr
    rw [List.getElem?_take] at hc
    split at hc
    · rename_i hi
      obtain ⟨hq, ha⟩ := toFlashcard_ok_inv card r hcard
      refine ⟨card, hc, hi, ?_, ?_, ?_, ?_⟩
      · rw [hq]
        exact coerced_orElse _
      · rw [ha]
        exact coerced_orElse _
      · rw [hq]
        exact orElse_empty_or_truthy _
      · rw [ha]
        exact orElse_empty_or_truthy _
    · exact Option.noConfusion hc

/-- C22 (witness): the flashcard of the element without `answer` comes from
that element and has the empty string as its answer. -/
theorem C22_flashcard_fields_witness :
    ∃ card, [JVal.obj [("question".toList, .str "Q".toList)]][0]? = some card ∧
      coerced (field "question" card) (.str "Q".toList) ∧
      coerced (field "answer" card) (.str []) :=
  match (C22_flashcard_fields defaultConfig (replyWith rawMissingAnswer) none 5
      rawMissingAnswer rawMissingAnswer [.obj [("question".toList, .str "Q".toList)]]
      [{ question := .str "Q".toList, answer := .str [] }] (fun _ => rfl) (by decide) rfl
      rfl).2 0 { question := .str "Q".toList, answer := .str [] } rfl with
  | ⟨card, hc, _, hq, ha, _⟩ => ⟨card, hc, hq, ha⟩

/-! ## When the quiz succeeds -/

/-- C23: `generateQuiz` succeeds exactly when the raw text has a bracketed span
that parses as JSON, which is then an array, and each of the first
`questionCount` elements of that array has a non-empty (truthy) question, an
`options` array of length 4 and a numeric `correctAnswer` between 0 and 3. An
element with a missing or empty question among the first `questionCount` fails
the whole quiz, and the elements from index `questionCount` on play no part. -/
theorem C23_quiz_succeeds_iff (cfg : Config) (post : Endpoint) (doc : Option Str)
    (questionCount : Nat) (response : Str) (hpost : ∀ r, post r = .ok response) :
    ((∃ questions, generateQuiz cfg post doc questionCount = .ok questions) ↔
      ∃ matched v, jsonMatch response = some matched ∧ JSON.parse matched = some v ∧
        ∃ items, v = .arr items ∧ ∀ q ∈ items.take questionCount, validQuestion q) ∧
    (∀ matched v, jsonMatch response = some matched → JSON.parse matched = some v →
      ∃ items, v = .arr items) ∧
    (∀ matched items i q, jsonMatch response = some matched →
      JSON.parse matched = some (.arr items) → i < questionCount → items[i]? = some q →
      JVal.truthy (field "question" q) = false →
      generateQuiz cfg post doc questionCount
        = .error "Failed to generate quiz. Please try again.") ∧
    (∀ matched items, jsonMatch response = some matched →
      JSON.parse matched = some (.arr items) →
      generateQuiz cfg post doc questionCount
        = match validateQuestions (items.take questionCount) 0 with
          | .ok questions => .ok questions
          | .error _ => .error "Failed to generate quiz. Please try again.") := by
  refine ⟨⟨?_, ?_⟩, ?_, ?_, ?_⟩
  · rintro ⟨questions, h⟩
    obtain ⟨response', matched, items, hm, hp, hv⟩ :=
      generateQuiz_ok_inv cfg post doc questionCount questions h
    have hgen := generateQuiz_of_reply cfg post response doc questionCount hpost
    rw [h] at hgen
    cases he : extractQuiz response questionCount with
    | error e =>
      rw [he] at hgen
      exact Except.noConfusion hgen
    | ok qs =>
      unfold extractQuiz at he
      split at he
      · exact Except.noConfusion he
      · rename_i matched' hm'
        unfold quizFromJson at he
        split at he
        · exact Except.noConfusion he
        · rename_i items' hp'
          refine ⟨matched', _, hm', hp', items', rfl, ?_⟩
          intro q hq
          obtain ⟨j, r, -, hr⟩ := validateQuestions_mem _ 0 qs he q hq
          exact validateQuestion_valid q j r
            (noNaN_items items' (parse_noNaN matched' _ hp') q (List.mem_of_mem_take hq)) hr
        · exact Except.noConfusion he
  · rintro ⟨matched, v, hm, hp, items, e, hall⟩
    rw [e] at hp
    obtain ⟨rs, hrs⟩ := validateQuestions_ok _ 0 hall
    exact ⟨rs, by
      rw [generateQuiz_of_items cfg post doc questionCount response matched items hpost hm hp,
        hrs]⟩
  · intro matched v hm hp
    exact parse_matched_arr response matched v hm hp
  · intro matched items i q hm hp hi hq hfalsy
    rw [generateQuiz_of_items cfg post doc questionCount response matched items hpost hm hp]
    cases hv : validateQuestions (items.take questionCount) 0 with
    | error e => rfl
    | ok rs =>
      exfalso
      have hget : (items.take questionCount)[i]? = some q := by
        rw [List.getElem?_take_of_lt hi]
        exact hq
      obtain ⟨j, r, -, hr⟩ := validateQuestions_mem _ 0 rs hv q (List.getElem?_mem hget)
      obtain ⟨h1, h2, -⟩ := validateQuestion_sound q j r hr
      rw [h1, h2] at hfalsy
      exact absurd hfalsy (by decide)
  · intro matched items hm hp
    exact generateQuiz_of_items cfg post doc questionCount response matched items hpost hm hp

/-- C23 (witness): with the well-formed element first and the three-option
element second, one question succeeds and two fail. -/
theorem C23_quiz_succeeds_iff_witness :
    (∃ questions, generateQuiz defaultConfig (replyWith rawGoodThenBad) none 1 = .ok questions) ∧
    ¬ (∃ matched v, jsonMatch rawGoodThenBad = some matched ∧ JSON.parse matched = some v ∧
        ∃ items, v = .arr items ∧ ∀ q ∈ items.take 2, validQuestion q) :=
  ⟨⟨_, rfl⟩,
   fun h =>
    absurd
      ((C23_quiz_succeeds_iff defaultConfig (replyWith rawGoodThenBad) none 2 rawGoodThenBad
        (fun _ => rfl)).1.mpr h)
      (by
        rintro ⟨questions, hq⟩
        have he : generateQuiz defaultConfig (replyWith rawGoodThenBad) none 2
            = .error "Failed to generate quiz. Please try again." := rfl
        rw [he] at hq
        exact Except.noConfusion hq)⟩

/-! ## Bounds on the double-precision score -/

theorem log2Aux_le (fuel n : Nat) (hn : 0 < n) (hf : n ≤ fuel) : 2 ^ log2Aux fuel n ≤ n := by
  induction fuel generalizing n with
  | zero => omega
  | succ fuel ih =>
    unfold log2Aux
    split
    · simpa using hn
    · have h2 : 0 < n / 2 := Nat.div_pos (by omega) (by decide)
      have hle : n / 2 ≤ fuel := by omega
      have := ih (n / 2) h2 hle
      rw [Nat.pow_succ]
      omega

theorem lt_log2Aux (fuel n : Nat) (hf : n ≤ fuel) : n < 2 ^ (log2Aux fuel n + 1) := by
  induction fuel generalizing n with
  | zero =>
    have : n = 0 := by omega
    subst this
    simp [log2Aux]
  | succ fuel ih =>
    unfold log2Aux
    split
    · simpa using (by assumption : n < 2)
    · have hle : n / 2 ≤ fuel := by omega
      have := ih (n / 2) hle
      rw [Nat.pow_succ]
      omega

theorem binExp_le (n d : Nat) : binExp n d ≤ (floorLog2 n : Int) - (floorLog2 d : Int) := by
  unfold binExp
  simp only
  split <;> omega

theorem floorLog2_bound (n d K k : Nat) (hn : 0 < n) (h : n ≤ K * d)
    (hK : K < 2 ^ k) : floorLog2 n < floorLog2 d + 1 + k := by
  have h1 : 2 ^ floorLog2 n ≤ n := log2Aux_le n n hn (Nat.le_refl _)
  have h2 : d < 2 ^ (floorLog2 d + 1) := lt_log2Aux d d (Nat.le_refl _)
  have h3 : K * d < 2 ^ k * 2 ^ (floorLog2 d + 1) :=
    Nat.mul_lt_mul'' hK h2
  have h4 : 2 ^ floorLog2 n < 2 ^ (floorLog2 d + 1 + k) := by
    have e : 2 ^ (floorLog2 d + 1 + k) = 2 ^ k * 2 ^ (floorLog2 d + 1) := by
      rw [Nat.pow_add, Nat.mul_comm]
    rw [e]
    omega
  exact (Nat.pow_lt_pow_iff_right (by decide)).mp h4

theorem ulpExp_nonpos (n d K : Nat) (hn : 0 < n) (h : n ≤ K * d)
    (hK : K < 2 ^ 52) : ulpExp n d ≤ 0 := by
  have hb := binExp_le n d
  have hf := floorLog2_bound n d K 52 hn h hK
  unfold ulpExp
  omega

theorem roundHalfEven_le (N D M : Nat) (hD : 0 < D) (h : N ≤ M * D) :
    roundHalfEven N D ≤ M := by
  unfold roundHalfEven
  simp only
  have hq : N / D ≤ M := Nat.div_le_of_le_mul (by rw [Nat.mul_comm]; exact h)
  have hdm := Nat.div_add_mod N D
  rcases Nat.lt_or_eq_of_le hq with hlt | heq
  · split
    · exact hq
    · split
      · omega
      · split <;> omega
  · have hr : N % D = 0 := by
      have e : D * (N / D) = M * D := by rw [heq, Nat.mul_comm]
      omega
    have : 2 * (N % D) < D := by rw [hr]; omega
    rw [if_pos this]
    exact hq

theorem roundToDouble_le (x : Frac) (K : Nat) (hd : 0 < x.den) (h : x.num ≤ K * x.den)
    (hK : K < 2 ^ 52) :
    (roundToDouble x).num ≤ K * (roundToDouble x).den ∧ 0 < (roundToDouble x).den := by
  unfold roundToDouble
  split
  · exact ⟨Nat.zero_le _, Nat.one_pos⟩
  · rename_i hne
    have hn : 0 < x.num := Nat.pos_of_ne_zero hne
    have he := ulpExp_nonpos x.num x.den K hn h hK
    have hz : (ulpExp x.num x.den).toNat = 0 := by omega
    simp only [hz, Nat.pow_zero, Nat.mul_one]
    refine ⟨?_, by positivity⟩
    apply roundHalfEven_le _ _ _ hd
    calc x.num * 2 ^ (-ulpExp x.num x.den).toNat
        ≤ K * x.den * 2 ^ (-ulpExp x.num x.den).toNat := Nat.mul_le_mul_right _ h
      _ = K * 2 ^ (-ulpExp x.num x.den).toNat * x.den := by ring

theorem ofFrac_of_le (x : Frac) (K : Nat) (hd : 0 < x.den) (h : x.num ≤ K * x.den)
    (hK : K < 2 ^ 52) : JsNum.ofFrac false x = .fin false (roundToDouble x) := by
  obtain ⟨hle, hpos⟩ := roundToDouble_le x K hd h hK
  unfold JsNum.ofFrac
  simp only
  have hlt : ¬ 2 ^ 1024 * (roundToDouble x).den ≤ (roundToDouble x).num := by
    have h1 : K * (roundToDouble x).den < 2 ^ 52 * (roundToDouble x).den :=
      Nat.mul_lt_mul_of_pos_right hK hpos
    have h2 : 2 ^ 52 * (roundToDouble x).den ≤ 2 ^ 1024 * (roundToDouble x).den :=
      Nat.mul_le_mul_right _ (Nat.pow_le_pow_right (by decide) (by decide))
    omega
  rw [if_neg hlt]

theorem computeScore_le (c t : Nat) (ht : 0 < t) (hc : c ≤ t) :
    ∃ n, computeScore c t = .fin false ⟨n, 1⟩ ∧ n ≤ 100 := by
  have h52 : 1 < 2 ^ 52 := Nat.one_lt_two_pow (by decide)
  have h100 : 100 < 2 ^ 52 := by
    calc 100 < 2 ^ 7 := by decide
      _ ≤ 2 ^ 52 := Nat.pow_le_pow_right (by decide) (by decide)
  have hq : (⟨c, t⟩ : Frac).num ≤ 1 * (⟨c, t⟩ : Frac).den := by simpa using hc
  have h1 := ofFrac_of_le ⟨c, t⟩ 1 ht hq h52
  obtain ⟨hle, hpos⟩ := roundToDouble_le ⟨c, t⟩ 1 ht hq h52
  generalize roundToDouble ⟨c, t⟩ = y at h1 hle hpos
  have hy : (⟨y.num * 100, y.den⟩ : Frac).num ≤ 100 * (⟨y.num * 100, y.den⟩ : Frac).den := by
    show y.num * 100 ≤ 100 * y.den
    omega
  have h2 := ofFrac_of_le ⟨y.num * 100, y.den⟩ 100 hpos hy h100
  obtain ⟨hle2, hpos2⟩ := roundToDouble_le ⟨y.num * 100, y.den⟩ 100 hpos hy h100
  generalize roundToDouble ⟨y.num * 100, y.den⟩ = z at h2 hle2 hpos2
  refine ⟨(2 * z.num + z.den) / (2 * z.den), ?_, ?_⟩
  · unfold computeScore JsNum.divNat
    rw [if_neg (Nat.pos_iff_ne_zero.mp ht), h1]
    simp only [JsNum.mulNat]
    rw [h2]
    rfl
  · have hlt : (2 * z.num + z.den) / (2 * z.den) < 101 := by
      rw [Nat.div_lt_iff_lt_mul (by omega)]
      omega
    omega

/-- C24: for a stored quiz whose `totalQuestions` is its number of questions
and is positive, and for every answers array, a successful submit returns
`correctCount` between 0 and `totalQuestions` and a score that is an integer
between 0 and 100 (a non-negative finite number `n` with `n ≤ 100`). -/
theorem C24_score_in_range (castOther : JVal → Option JVal) (db : List Quiz)
    (userId id : Nat) (answers : List JVal) (now : Nat)
    (saveThrows : Bool) (quiz : Quiz) (body : SubmitBody)
    (hfind : findOne db id userId = some quiz)
    (htotal : quiz.totalQuestions = quiz.questions.length)
    (hpos : 0 < quiz.totalQuestions)
    (hok : (submitQuiz castOther db userId id (some (.arr answers)) now saveThrows).1 = .ok body) :
    0 ≤ body.correctCount ∧ body.correctCount ≤ body.totalQuestions ∧
    body.totalQuestions = quiz.totalQuestions ∧
    ∃ n : Nat, body.score = .fin false ⟨n, 1⟩ ∧ 0 ≤ n ∧ n ≤ 100 := by
  obtain ⟨hc, ht, hs⟩ :=
    submitQuiz_body castOther db userId id answers now saveThrows quiz body hfind hok
  have hle : countCorrect quiz.questions 0 answers 0 ≤ quiz.totalQuestions := by
    rw [countCorrect_eq_matchingIndices, htotal]
    exact matchingIndices_le _ _
  obtain ⟨n, hn, hn100⟩ := computeScore_le _ _ hpos hle
  refine ⟨Nat.zero_le _, ?_, ht, n, ?_, Nat.zero_le _, hn100⟩
  · rw [hc, ht]
    exact hle
  · rw [hs]
    exact hn

/-- C24 (witness): on `quiz40` with 23 right answers the submit succeeds with
`correctCount` 23 of 40 and a score in range. -/
theorem C24_score_in_range_witness :
    (∃ body, (submitQuiz castDigits [quiz40] 1 1 (some (.arr answers23of40)) 7 false).1 = .ok body) ∧
    ∀ body, (submitQuiz castDigits [quiz40] 1 1 (some (.arr answers23of40)) 7 false).1 = .ok body →
      0 ≤ body.correctCount ∧ body.correctCount ≤ body.totalQuestions ∧
      body.totalQuestions = quiz40.totalQuestions ∧
      ∃ n : Nat, body.score = .fin false ⟨n, 1⟩ ∧ 0 ≤ n ∧ n ≤ 100 :=
  ⟨⟨_, rfl⟩, fun body h =>
    C24_score_in_range castDigits [quiz40] 1 1 answers23of40 7 false quiz40 body rfl rfl (by decide) h⟩

theorem percent_eq_100 (c t : Nat) (ht : 0 < t) (ht2 : t < 200) (hc : c ≤ t) :
    (200 * c + t) / (2 * t) = 100 ↔ c = t := by
  have h2t : 0 < 2 * t := by omega
  constructor
  · intro h
    have h1 : 100 ≤ (200 * c + t) / (2 * t) := by omega
    rw [Nat.le_div_iff_mul_le h2t] at h1
    omega
  · intro h
    subst h
    have a : 100 ≤ (200 * c + c) / (2 * c) := (Nat.le_div_iff_mul_le h2t).mpr (by omega)
    have b : (200 * c + c) / (2 * c) < 101 := (Nat.div_lt_iff_lt_mul h2t).mpr (by omega)
    omega

theorem percent_eq_0 (c t : Nat) (ht : 0 < t) (ht2 : t < 200) :
    (200 * c + t) / (2 * t) = 0 ↔ c = 0 := by
  have h2t : 0 < 2 * t := by omega
  rw [Nat.div_eq_zero_iff h2t]
  omega

theorem matchingIndices_eq_length (questions : List QuizQuestion) (answers : List JVal) :
    matchingIndices questions answers = questions.length ↔
      ∀ i, i < questions.length → isCorrectAt questions answers i = true := by
  unfold matchingIndices
  have hl : (List.range questions.length).length = questions.length := List.length_range _
  constructor
  · intro h i hi
    exact (List.countP_eq_length.mp (h.trans hl.symm)) i (List.mem_range.mpr hi)
  · intro h
    have : List.countP (isCorrectAt questions answers) (List.range questions.length)
        = (List.range questions.length).length :=
      List.countP_eq_length.mpr fun i hi => h i (List.mem_range.mp hi)
    rw [this, hl]

theorem matchingIndices_eq_zero (questions : List QuizQuestion) (answers : List JVal) :
    matchingIndices questions answers = 0 ↔
      ∀ i, i < questions.length → isCorrectAt questions answers i = false := by
  unfold matchingIndices
  rw [List.countP_eq_zero]
  constructor
  · intro h i hi
    have := h i (List.mem_range.mpr hi)
    simpa using this
  · intro h i hi
    have := h i (List.mem_range.mp hi)
    simp [this]

theorem computeScore_extremes (c t : Nat) (ht : 0 < t) (ht2 : t < 40) (hc : c ≤ t) :
    (computeScore c t = .fin false ⟨100, 1⟩ ↔ c = t) ∧
    (computeScore c t = .fin false ⟨0, 1⟩ ↔ c = 0) := by
  have h := computeScore_small t ht2 c (by omega) ht
  rw [h]
  constructor
  · rw [← percent_eq_100 c t ht (by omega) hc]
    constructor
    · intro e
      injection e with _ e2
      injection e2
    · intro e
      rw [e]
  · rw [← percent_eq_0 c t ht (by omega)]
    constructor
    · intro e
      injection e with _ e2
      injection e2
    · intro e
      rw [e]

/-- C25: for a stored quiz of 1 to 15 questions whose `totalQuestions` is its
number of questions, a successful submit scores 100 exactly when every
question is answered correctly and 0 exactly when none is; so an attempt with
at least one right and at least one wrong answer scores neither 0 nor 100. -/
theorem C25_extreme_scores (castOther : JVal → Option JVal) (db : List Quiz)
    (userId id : Nat) (answers : List JVal) (now : Nat)
    (saveThrows : Bool) (quiz : Quiz) (body : SubmitBody)
    (hfind : findOne db id userId = some quiz)
    (htotal : quiz.totalQuestions = quiz.questions.length)
    (h1 : 1 ≤ quiz.questions.length) (h15 : quiz.questions.length ≤ 15)
    (hok : (submitQuiz castOther db userId id (some (.arr answers)) now saveThrows).1 = .ok body) :
    (body.score = .fin false ⟨100, 1⟩ ↔
      ∀ i, i < quiz.questions.length → isCorrectAt quiz.questions answers i = true) ∧
    (body.score = .fin false ⟨0, 1⟩ ↔
      ∀ i, i < quiz.questions.length → isCorrectAt quiz.questions answers i = false) ∧
    ((∃ i, i < quiz.questions.length ∧ isCorrectAt quiz.questions answers i = true) →
      (∃ j, j < quiz.questions.length ∧ isCorrectAt quiz.questions answers j = false) →
      body.score ≠ .fin false ⟨0, 1⟩ ∧ body.score ≠ .fin false ⟨100, 1⟩) := by
  obtain ⟨_, _, hs⟩ :=
    submitQuiz_body castOther db userId id answers now saveThrows quiz body hfind hok
  have hle : matchingIndices quiz.questions answers ≤ quiz.questions.length :=
    matchingIndices_le _ _
  rw [countCorrect_eq_matchingIndices, htotal] at hs
  obtain ⟨h100, h0⟩ := computeScore_extremes (matchingIndices quiz.questions answers)
    quiz.questions.length (by omega) (by omega) hle
  have hall : body.score = .fin false ⟨100, 1⟩ ↔
      ∀ i, i < quiz.questions.length → isCorrectAt quiz.questions answers i = true := by
    rw [hs, h100]
    exact matchingIndices_eq_length _ _
  have hnone : body.score = .fin false ⟨0, 1⟩ ↔
      ∀ i, i < quiz.questions.length → isCorrectAt quiz.questions answers i = false := by
    rw [hs, h0]
    exact matchingIndices_eq_zero _ _
  refine ⟨hall, hnone, ?_⟩
  rintro ⟨i, hi, hti⟩ ⟨j, hj, hfj⟩
  constructor
  · intro e
    have := hnone.mp e i hi
    rw [hti] at this
    exact Bool.noConfusion this
  · intro e
    have := hall.mp e j hj
    rw [hfj] at this
    exact Bool.noConfusion this

/-- C25 (witness): on `quiz3` with two right answers of three the submit
succeeds and the score is neither 0 nor 100. -/
theorem C25_extreme_scores_witness :
    (∃ body, (submitQuiz castDigits [quiz3] 1 1 (some (.arr answers2of3)) 7 false).1 = .ok body) ∧
    ∀ body, (submitQuiz castDigits [quiz3] 1 1 (some (.arr answers2of3)) 7 false).1 = .ok body →
      body.score ≠ .fin false ⟨0, 1⟩ ∧ body.score ≠ .fin false ⟨100, 1⟩ :=
  ⟨⟨_, rfl⟩, fun body h =>
    (C25_extreme_scores castDigits [quiz3] 1 1 answers2of3 7 false quiz3 body rfl rfl (by decide)
      (by decide) h).2.2 ⟨0, by decide, rfl⟩ ⟨1, by decide, rfl⟩⟩

/-! ## A quiz from its creation through any submit requests -/

theorem castQuestions_length (castQuestion : JVal → Option QuizQuestion) (questions : List JVal)
    (stored : List QuizQuestion) (h : castQuestions castQuestion questions = some stored) :
    stored.length = questions.length := by
  induction questions generalizing stored with
  | nil =>
    simp only [castQuestions, Option.some.injEq] at h
    subst h
    rfl
  | cons q rest ih =>
    unfold castQuestions at h
    split at h
    · exact Option.noConfusion h
    · split at h
      · exact Option.noConfusion h
      · rename_i cs hcs
        simp only [Option.some.injEq] at h
        subst h
        simp [ih cs hcs]

theorem createQuiz_ok_inv (db : List Quiz) (userId : Nat) (documentId questions : Option JVal)
    (document : Option Nat) (castQuestion : JVal → Option QuizQuestion) (newId now : Nat)
    (message : String) (created : Quiz) (db1 : List Quiz)
    (h : createQuiz db userId documentId questions document castQuestion newId now
      = (.ok message created, db1)) :
    ∃ items stored docId, questions = some (.arr items) ∧ document = some docId ∧
      castQuestions castQuestion items = some stored ∧
      created = { _id := newId, userId := userId, documentId := docId, questions := stored,
                  userAnswers := [], score := none, totalQuestions := items.length,
                  completedAt := none, createdAt := now } ∧
      db1 = db ++ [created] ∧ message = "Quiz saved successfully" := by
  unfold createQuiz at h
  split at h
  · simp at h
  · split at h
    · rename_i items
      split at h
      · simp at h
      · rename_i docId
        split at h
        · simp at h
        · rename_i stored hstored
          simp only [Prod.mk.injEq, CreateResponse.ok.injEq] at h
          obtain ⟨⟨hm, hq⟩, hdb⟩ := h
          refine ⟨items, stored, docId, rfl, rfl, hstored, hq.symm, ?_, hm.symm⟩
          rw [← hdb, ← hq]
    · simp at h

theorem submitQuiz_cases (castOther : JVal → Option JVal) (db : List Quiz) (userId id : Nat)
    (answers : Option JVal) (now : Nat) (saveThrows : Bool) :
    ((submitQuiz castOther db userId id answers now saveThrows).1.isOk = false ∧
      (submitQuiz castOther db userId id answers now saveThrows).2 = db) ∨
    (∃ quiz score given, findOne db id userId = some quiz ∧ quiz.completedAt = none ∧
      (submitQuiz castOther db userId id answers now saveThrows).1.isOk = true ∧
      (submitQuiz castOther db userId id answers now saveThrows).2
        = save db { quiz with userAnswers := given, score := some score,
                              completedAt := some now }) := by
  cases answers with
  | none => exact Or.inl ⟨rfl, rfl⟩
  | some v =>
    cases v with
    | arr given =>
      cases hfind : findOne db id userId with
      | none => exact Or.inl (by simp [submitQuiz, hfind, SubmitResponse.isOk])
      | some quiz =>
        cases hc : quiz.completedAt with
        | some t => exact Or.inl (by simp [submitQuiz, hfind, hc, SubmitResponse.isOk])
        | none =>
          cases hcast : castNumbers castOther given with
          | none => exact Or.inl (by simp [submitQuiz, hfind, hc, hcast, SubmitResponse.isOk])
          | some cast =>
            cases saveThrows with
            | true =>
              exact Or.inl (by simp [submitQuiz, hfind, hc, hcast, SubmitResponse.isOk])
            | false =>
              cases hscore : (computeScore (countCorrect quiz.questions 0 given 0)
                  quiz.totalQuestions).isNaN with
              | true =>
                exact Or.inl
                  (by simp [submitQuiz, hfind, hc, hcast, hscore, SubmitResponse.isOk])
              | false =>
                refine Or.inr ⟨quiz,
                  computeScore (countCorrect quiz.questions 0 given 0) quiz.totalQuestions, cast,
                  rfl, hc, ?_, ?_⟩
                · simp [submitQuiz, hfind, hc, hcast, hscore, SubmitResponse.isOk]
                · simp [submitQuiz, hfind, hc, hcast, hscore]
    | null => exact Or.inl ⟨rfl, rfl⟩
    | bool _ => exact Or.inl ⟨rfl, rfl⟩
    | num _ => exact Or.inl ⟨rfl, rfl⟩
    | str _ => exact Or.inl ⟨rfl, rfl⟩
    | obj _ => exact Or.inl ⟨rfl, rfl⟩

theorem findOne_mem (db : List Quiz) (id userId : Nat) (quiz : Quiz)
    (h : findOne db id userId = some quiz) : quiz ∈ db :=
  List.mem_of_find?_eq_some h

theorem tracks_step (castOther : JVal → Option JVal) (id owner : Nat)
    (stored : List QuizQuestion) (db : List Quiz)
    (succeeded : Bool) (q : Quiz) (r : SubmitRequest) (h : Tracks id owner stored db succeeded q) :
    ∃ q1, Tracks id owner stored (submitQuiz castOther db r.userId r.id r.answers r.now r.saveThrows).2
      (succeeded ||
        (r.id == id && (submitQuiz castOther db r.userId r.id r.answers r.now r.saveThrows).1.isOk)) q1 := by
  obtain ⟨hmem, huniq, hid, howner, hqs, htot, hcs, hcf⟩ := h
  rcases submitQuiz_cases castOther db r.userId r.id r.answers r.now r.saveThrows with
    ⟨hok, hdb⟩ | ⟨quiz, score, given, hfind, hopen, hok, hdb⟩
  · refine ⟨q, ?_⟩
    rw [hok, hdb, Bool.and_false, Bool.or_false]
    exact ⟨hmem, huniq, hid, howner, hqs, htot, hcs, hcf⟩
  · rw [hok, hdb, Bool.and_true]
    obtain ⟨hquizid, _⟩ := findOne_some db r.id r.userId quiz hfind
    have hquizmem := findOne_mem db r.id r.userId quiz hfind
    by_cases hr : r.id = id
    · have hq : quiz = q := huniq quiz hquizmem (hquizid.trans hr)
      subst hq
      refine ⟨{ quiz with userAnswers := given, score := some score,
                          completedAt := some r.now }, ?_, ?_, hid, howner, hqs, htot, ?_, ?_⟩
      · unfold save
        rw [List.mem_map]
        exact ⟨quiz, hmem, by simp⟩
      · intro x hx hxid
        unfold save at hx
        rw [List.mem_map] at hx
        obtain ⟨y, hy, hyx⟩ := hx
        by_cases hyid : y._id = quiz._id
        · simp only [hyid, if_true] at hyx
          exact hyx.symm
        · simp only [hyid, if_false] at hyx
          subst hyx
          exact absurd (hxid.trans hid.symm) hyid
      · simp
      · simp [hr]
    · refine ⟨q, ?_, ?_, hid, howner, hqs, htot, hcs, ?_⟩
      · unfold save
        rw [List.mem_map]
        refine ⟨q, hmem, ?_⟩
        have hne : ¬ q._id = quiz._id := by
          rw [hid, hquizid]
          exact fun e => hr e.symm
        simp only [hne, if_false]
      · intro x hx hxid
        unfold save at hx
        rw [List.mem_map] at hx
        obtain ⟨y, hy, hyx⟩ := hx
        by_cases hyid : y._id = quiz._id
        · simp only [hyid, if_true] at hyx
          subst hyx
          exact absurd (hquizid.symm.trans hxid) hr
        · simp only [hyid, if_false] at hyx
          subst hyx
          exact huniq y hy hxid
      · have hb : (r.id == id) = false := by simpa using hr
        rw [hb, Bool.or_false]
        exact hcf

theorem tracks_runSubmits (castOther : JVal → Option JVal) (id owner : Nat)
    (stored : List QuizQuestion)
    (requests : List SubmitRequest) (db : List Quiz) (succeeded : Bool) (q : Quiz)
    (h : Tracks id owner stored db succeeded q) :
    ∃ q1, Tracks id owner stored (runSubmits castOther id (db, succeeded) requests).1
      (runSubmits castOther id (db, succeeded) requests).2 q1 := by
  induction requests generalizing db succeeded q with
  | nil => exact ⟨q, h⟩
  | cons r rest ih =>
    obtain ⟨q1, h1⟩ := tracks_step castOther id owner stored db succeeded q r h
    exact ih _ _ q1 h1

theorem tracks_findOne (id owner : Nat) (stored : List QuizQuestion) (db : List Quiz)
    (succeeded : Bool) (q : Quiz) (h : Tracks id owner stored db succeeded q) :
    findOne db id owner = some q := by
  obtain ⟨hmem, huniq, hid, howner, _⟩ := h
  unfold findOne
  cases hf : db.find? (fun x => x._id == id && x.userId == owner) with
  | none =>
    have := List.find?_eq_none.mp hf q hmem
    simp [hid, howner] at this
  | some x =>
    have hx := List.find?_some hf
    have hxmem := List.mem_of_find?_eq_some hf
    simp only [Bool.and_eq_true, beq_iff_eq] at hx
    rw [huniq x hxmem hx.1]

theorem tracks_created (db : List Quiz) (userId : Nat) (documentId questions : Option JVal)
    (document : Option Nat) (castQuestion : JVal → Option QuizQuestion) (newId now : Nat)
    (message : String) (created : Quiz) (db1 : List Quiz)
    (hfresh : ∀ x ∈ db, x._id ≠ newId)
    (h : createQuiz db userId documentId questions document castQuestion newId now
      = (.ok message created, db1)) :
    Tracks newId userId created.questions db1 false created ∧
    created.completedAt = none ∧ created.score = none ∧ created.userAnswers = [] := by
  obtain ⟨items, stored, docId, _, _, hcast, hq, hdb, _⟩ :=
    createQuiz_ok_inv db userId documentId questions document castQuestion newId now message
      created db1 h
  have hlen := castQuestions_length castQuestion items stored hcast
  subst hq
  subst hdb
  refine ⟨⟨by simp, ?_, rfl, rfl, rfl, hlen.symm, by simp, by simp⟩, rfl, rfl, rfl⟩
  intro x hx hxid
  rw [List.mem_append] at hx
  rcases hx with hx | hx
  · exact absurd hxid (hfresh x hx)
  · simpa using hx

/-- C26: a quiz created through the save route (under an identifier no stored
quiz has) starts with `completedAt = null`, `score = null` and empty
`userAnswers`; and after any sequence of submit requests (of any users, to any
quizzes, with or without failing saves) the stored quiz has `completedAt` null
exactly when `score` is null and exactly when no submit to it has succeeded. -/
theorem C26_completed_iff_scored (castOther : JVal → Option JVal) (db : List Quiz)
    (owner : Nat)
    (documentId questions : Option JVal) (document : Option Nat)
    (castQuestion : JVal → Option QuizQuestion) (newId now : Nat) (message : String)
    (created : Quiz) (db1 : List Quiz) (requests : List SubmitRequest)
    (hfresh : ∀ x ∈ db, x._id ≠ newId)
    (hcreate : createQuiz db owner documentId questions document castQuestion newId now
      = (.ok message created, db1)) :
    created.completedAt = none ∧ created.score = none ∧ created.userAnswers = [] ∧
    findOne db1 newId owner = some created ∧
    ∃ q, findOne (runSubmits castOther newId (db1, false) requests).1 newId owner = some q ∧
      (q.completedAt = none ↔ q.score = none) ∧
      (q.completedAt = none ↔ (runSubmits castOther newId (db1, false) requests).2 = false) := by
  obtain ⟨h0, hc, hs, hu⟩ := tracks_created db owner documentId questions document castQuestion
    newId now message created db1 hfresh hcreate
  obtain ⟨q, hq⟩ :=
    tracks_runSubmits castOther newId owner created.questions requests db1 false created h0
  refine ⟨hc, hs, hu, tracks_findOne _ _ _ _ _ _ h0, q, tracks_findOne _ _ _ _ _ _ hq, ?_, ?_⟩
  · exact hq.2.2.2.2.2.2.1
  · exact hq.2.2.2.2.2.2.2

/-- C26 (witness): the quiz created from two question objects, after a
stranger's submit, the owner's submit and the owner's second attempt, is
stored completed and scored, and a submit has succeeded. -/
theorem C26_completed_iff_scored_witness :
    createQuiz [] 1 (some (.str "d".toList)) twoQuestions (some 7) sampleCast 1 0
      = (.ok "Quiz saved successfully" createdQuiz, [createdQuiz]) ∧
    (runSubmits castDigits 1 ([createdQuiz], false) sampleRequests).2 = true ∧
    ∃ q, findOne (runSubmits castDigits 1 ([createdQuiz], false) sampleRequests).1 1 1 = some q ∧
      (q.completedAt = none ↔ q.score = none) ∧
      (q.completedAt = none ↔ (runSubmits castDigits 1 ([createdQuiz], false) sampleRequests).2 = false) :=
  ⟨rfl, rfl,
   (C26_completed_iff_scored castDigits [] 1 (some (.str "d".toList)) twoQuestions (some 7) sampleCast 1 0
      "Quiz saved successfully" createdQuiz [createdQuiz] sampleRequests
      (fun _ hx => absurd hx (List.not_mem_nil _)) rfl).2.2.2.2⟩

/-- C27: for a quiz created through the save route (under an identifier no
stored quiz has, the schema casting the submitted questions one by one), after
any sequence of submit requests the stored quiz has `totalQuestions` equal to
the number of its stored questions, and its questions are those stored at
creation. -/
theorem C27_totalQuestions_is_length (castOther : JVal → Option JVal) (db : List Quiz)
    (owner : Nat)
    (documentId questions : Option JVal) (document : Option Nat)
    (castQuestion : JVal → Option QuizQuestion) (newId now : Nat) (message : String)
    (created : Quiz) (db1 : List Quiz) (requests : List SubmitRequest)
    (hfresh : ∀ x ∈ db, x._id ≠ newId)
    (hcreate : createQuiz db owner documentId questions document castQuestion newId now
      = (.ok message created, db1)) :
    created.totalQuestions = created.questions.length ∧
    ∃ q, findOne (runSubmits castOther newId (db1, false) requests).1 newId owner = some q ∧
      q.totalQuestions = q.questions.length ∧ q.questions = created.questions := by
  obtain ⟨h0, _, _, _⟩ := tracks_created db owner documentId questions document castQuestion
    newId now message created db1 hfresh hcreate
  obtain ⟨q, hq⟩ :=
    tracks_runSubmits castOther newId owner created.questions requests db1 false created h0
  refine ⟨h0.2.2.2.2.2.1, q, tracks_findOne _ _ _ _ _ _ hq, ?_, hq.2.2.2.2.1⟩
  rw [hq.2.2.2.2.1]
  exact hq.2.2.2.2.2.1

/-- C27 (witness): the quiz created from two question objects still has
`totalQuestions` 2 and two questions after the three sample submits. -/
theorem C27_totalQuestions_is_length_witness :
    createQuiz [] 1 (some (.str "d".toList)) twoQuestions (some 7) sampleCast 1 0
      = (.ok "Quiz saved successfully" createdQuiz, [createdQuiz]) ∧
    createdQuiz.totalQuestions = createdQuiz.questions.length ∧
    ∃ q, findOne (runSubmits castDigits 1 ([createdQuiz], false) sampleRequests).1 1 1 = some q ∧
      q.totalQuestions = q.questions.length ∧ q.questions = createdQuiz.questions :=
  ⟨rfl,
   C27_totalQuestions_is_length castDigits [] 1 (some (.str "d".toList)) twoQuestions (some 7) sampleCast
      1 0 "Quiz saved successfully" createdQuiz [createdQuiz] sampleRequests
      (fun _ hx => absurd hx (List.not_mem_nil _)) rfl⟩

/-! ## Submitting twice -/

/-- C2 (counterexample): a first submit whose answers hold the string `abc`,
which the `[Number]` path cannot cast, is answered 500 and stores nothing, and
the next submit to the same quiz then succeeds instead of being refused. A
first submit to a quiz without questions fails as well: its score is NaN. -/
theorem C2_counterexample_first_submit_fails :
    findOne [quiz3] 1 1 = some quiz3 ∧ quiz3.completedAt = none ∧
    castNumbers castDigits [.str "abc".toList] = none ∧
    submitQuiz castDigits [quiz3] 1 1 (some (.arr [.str "abc".toList])) 5 false
      = (.error 500 "Server error", [quiz3]) ∧
    (submitQuiz castDigits
        (submitQuiz castDigits [quiz3] 1 1 (some (.arr [.str "abc".toList])) 5 false).2 1 1
        (some (.arr answers2of3)) 9 false).1.isOk = true ∧
    submitQuiz castDigits [quiz0] 1 1 (some (.arr [])) 5 false
      = (.error 500 "Server error", [quiz0]) :=
  ⟨rfl, rfl, rfl, rfl, rfl, rfl⟩

/-- C2 (amended): on a stored quiz that is not yet completed and has a positive
`totalQuestions`, a first submit whose answers the schema can cast to numbers
(and whose write the database accepts) succeeds, and a second submit with any
answer array is refused with status 400 and `Quiz already completed`; the
refusal leaves the stored documents as they were, so the stored `userAnswers`
(the cast answers of the first submit, which are its answers when these are
numbers and nulls), `score` and `completedAt` are still those of the first
submit. -/
theorem C2_resubmit_refused (castOther : JVal → Option JVal) (db : List Quiz) (userId id : Nat)
    (a1 c1 a2 : List JVal) (now1 now2 : Nat) (saveThrows2 : Bool) (quiz : Quiz)
    (hfind : findOne db id userId = some quiz) (hopen : quiz.completedAt = none)
    (hpos : 0 < quiz.totalQuestions) (hcast : castNumbers castOther a1 = some c1) :
    ∃ body : SubmitBody,
      (submitQuiz castOther db userId id (some (.arr a1)) now1 false).1 = .ok body ∧
      (submitQuiz castOther (submitQuiz castOther db userId id (some (.arr a1)) now1 false).2
          userId id (some (.arr a2)) now2 saveThrows2)
        = (.error 400 "Quiz already completed",
           (submitQuiz castOther db userId id (some (.arr a1)) now1 false).2) ∧
      ((∀ a ∈ a1, a.isNumberOrNull = true) → c1 = a1) ∧
      ∃ stored : Quiz,
        findOne (submitQuiz castOther db userId id (some (.arr a1)) now1 false).2 id userId
          = some stored ∧
        stored.userAnswers = c1 ∧ stored.score = some body.score ∧
        stored.completedAt = some now1 := by
  rw [submitQuiz_ok castOther db userId id a1 c1 now1 quiz hfind hopen hcast
    (computeScore_isNaN _ _ hpos)]
  refine ⟨_, rfl, ?_, ?_, _, findOne_save db id userId quiz _ hfind rfl rfl, rfl, rfl, rfl⟩
  · exact submitQuiz_completed castOther _ userId id a2 now2 saveThrows2 _ now1
      (findOne_save db id userId quiz _ hfind rfl rfl) rfl
  · intro hkept
    rw [castNumbers_kept castOther a1 hkept] at hcast
    exact (Option.some.inj hcast).symm

/-- C2 (witness): two submits to the 40-question quiz, the second with an
empty answer array. -/
theorem C2_resubmit_refused_witness :
    ∃ body : SubmitBody,
      (submitQuiz castDigits [quiz40] 1 1 (some (.arr answers23of40)) 5 false).1 = .ok body ∧
      (submitQuiz castDigits
          (submitQuiz castDigits [quiz40] 1 1 (some (.arr answers23of40)) 5 false).2 1 1
          (some (.arr [])) 9 false)
        = (.error 400 "Quiz already completed",
           (submitQuiz castDigits [quiz40] 1 1 (some (.arr answers23of40)) 5 false).2) ∧
      ∃ stored : Quiz,
        findOne (submitQuiz castDigits [quiz40] 1 1 (some (.arr answers23of40)) 5 false).2 1 1
          = some stored ∧
        stored.userAnswers = answers23of40 ∧ stored.score = some body.score ∧
        stored.completedAt = some 5 :=
  match C2_resubmit_refused castDigits [quiz40] 1 1 answers23of40 answers23of40 [] 5 9 false
      quiz40 rfl rfl (by decide) rfl with
  | ⟨body, h1, h2, _, h4⟩ => ⟨body, h1, h2, h4⟩

/-! ## The completing save -/

/-- C18 (counterexample): the submitted answers `["0", 0]` are stored, and
returned in the body, as `[0, 0]`: the `[Number]` path casts the string. The
count, taken on the submitted array, is 1. -/
theorem C18_counterexample_string_answer :
    ∃ body : SubmitBody,
      (submitQuiz castDigits [quiz3] 1 1 (some (.arr answersWithString)) 5 false).1 = .ok body ∧
      body.quiz.userAnswers = [.num (.fin false ⟨0, 1⟩), .num (.fin false ⟨0, 1⟩)] ∧
      body.quiz.userAnswers ≠ answersWithString ∧
      findOne (submitQuiz castDigits [quiz3] 1 1 (some (.arr answersWithString)) 5 false).2 1 1
        = some body.quiz ∧
      body.correctCount = 1 := by
  refine ⟨_, rfl, rfl, ?_, rfl, rfl⟩
  intro h
  have h0 := (List.cons.inj h).1
  exact JVal.noConfusion h0

/-- C18 (amended): a successful submit replaces the stored quiz in one save by a
document whose `userAnswers` are the submitted answers as the schema casts them
to numbers, entry by entry (the submitted answers themselves when they are
numbers and nulls), whose `score` is the computed score and whose `completedAt`
is set, while `questions`, `totalQuestions`, the owner, the document reference,
the identifier and the creation date are those of the quiz found; the quiz was
not completed before, and every other stored document is as it was. -/
theorem C18_submit_completes_in_one_save (castOther : JVal → Option JVal) (db : List Quiz)
    (userId id : Nat) (answers : List JVal) (now : Nat) (saveThrows : Bool) (quiz : Quiz)
    (body : SubmitBody) (hfind : findOne db id userId = some quiz)
    (hok : (submitQuiz castOther db userId id (some (.arr answers)) now saveThrows).1 = .ok body) :
    quiz.completedAt = none ∧
    findOne (submitQuiz castOther db userId id (some (.arr answers)) now saveThrows).2 id userId
      = some body.quiz ∧
    (submitQuiz castOther db userId id (some (.arr answers)) now saveThrows).2
      = db.map (fun x => if x._id = quiz._id then body.quiz else x) ∧
    castNumbers castOther answers = some body.quiz.userAnswers ∧
    ((∀ a ∈ answers, a.isNumberOrNull = true) → body.quiz.userAnswers = answers) ∧
    body.quiz.score = some body.score ∧
    body.score = computeScore body.correctCount quiz.totalQuestions ∧
    body.quiz.completedAt = some now ∧
    body.quiz.questions = quiz.questions ∧
    body.quiz.totalQuestions = quiz.totalQuestions ∧
    body.quiz.userId = quiz.userId ∧
    body.quiz.documentId = quiz.documentId ∧
    body.quiz._id = quiz._id ∧
    body.quiz.createdAt = quiz.createdAt := by
  obtain ⟨hopen, hsave, hscore, cast, hcast, hbody⟩ :=
    submitQuiz_inv castOther db userId id answers now saveThrows quiz body hfind hok
  subst hsave
  rw [submitQuiz_ok castOther db userId id answers cast now quiz hfind hopen hcast hscore]
  subst hbody
  refine ⟨hopen, findOne_save db id userId quiz _ hfind rfl rfl, rfl, hcast, ?_, rfl, rfl, rfl,
    rfl, rfl, rfl, rfl, rfl, rfl⟩
  intro hkept
  rw [castNumbers_kept castOther answers hkept] at hcast
  exact (Option.some.inj hcast).symm

/-- C18 (witness): the submit to the 40-question quiz. -/
theorem C18_submit_completes_in_one_save_witness :
    ∃ body : SubmitBody,
      (submitQuiz castDigits [quiz40] 1 1 (some (.arr answers23of40)) 5 false).1 = .ok body ∧
      body.quiz.userAnswers = answers23of40 ∧ body.quiz.score = some body.score ∧
      body.quiz.completedAt = some 5 ∧ body.quiz.questions = quiz40.questions ∧
      body.quiz.totalQuestions = quiz40.totalQuestions :=
  ⟨_, rfl,
    have h := C18_submit_completes_in_one_save castDigits [quiz40] 1 1 answers23of40 5 false
      quiz40 _ rfl rfl
    ⟨h.2.2.2.2.1 (by decide), h.2.2.2.2.2.1, h.2.2.2.2.2.2.2.1, h.2.2.2.2.2.2.2.2.1,
      h.2.2.2.2.2.2.2.2.2.1⟩⟩

end LearningPartner
